import Mathlib

/-!
# onnx2bnn: the ONNX to dabnn model converter

A shallow embedding of `tools/onnx2bnn/OnnxConverter.cpp` and a verification of
the properties its specification states about it.

Conventions of the embedding:

* a `float` is an element of an arbitrary type `F`; the bit packer only needs
  the test `x > 0`, the batch-norm folder needs field operations and a square
  root, which is passed in as a function;
* `Shaper::len_t` values (`uint32_t`) and container sizes are natural numbers,
  taken to stay below `2 ^ 32`; the one place where the source subtracts on a
  `size_t` below zero is written modulo `2 ^ 64`, casts to `uint32_t`, products
  of `int`s and the narrowing of a 64-bit attribute value to an `int` are written
  modulo `2 ^ 32`;
* the bit packer hands the packing helper a raw pointer into the float buffer;
  a read through it past the end of the buffer yields whatever the memory holds
  there, given by a function `beyond`;
* a thrown exception, a failed `CHECK`/`BNN_ASSERT`, an access to a missing key,
  and an index past the end of a vector or of a repeated field are `Except.error`
  (`none` in the bit packer).
-/

namespace bnn

/-! ## Tensors -/

/-- The shape of a tensor, `Shaper::Shape`. -/
abbrev Shape := List Nat

/-- Float tensor, `OnnxConverter::FTensor`. -/
structure FTensor (F : Type) where
  data : List F
  shape : Shape
  align_hwc_to_128 : Bool
  deriving Repr, DecidableEq

/-- Binary tensor, `OnnxConverter::BTensor`; a `bin_t` word is a natural number below `2 ^ 64`. -/
structure BTensor where
  data : List Nat
  shape : Shape
  align_hwc_to_128 : Bool
  deriving Repr, DecidableEq

/-! ## Helpers of `common/` used by the converter -/

namespace Shaper

/-- Modelled from the spec: `Shaper::total` of common/Shaper.h, which is not among the sources;
it is the `product(shape)` of the data model. -/
def total (shape : Shape) : Nat := shape.prod

/-- Modelled from the spec: `Shaper::kn` of common/Shaper.h, which is not among the sources:
"`N = shape[0]`". -/
def kn (shape : Shape) : Option Nat := shape[0]?

/-- Modelled from the spec: `Shaper::kc` of common/Shaper.h, which is not among the sources:
"`C = shape[3]`". -/
def kc (shape : Shape) : Option Nat := shape[3]?

end Shaper

/-- Modelled from the spec: the loop macro `FORZ(i, n)` of common/helper.h, which is not among
the sources: `i` runs over `0, 1, ..., n - 1`. -/
def FORZ (n : Nat) : List Nat := List.range n

/-- Modelled from the spec: the loop macro `FORZS(i, n, s)` of common/helper.h, which is not
among the sources: `i` runs over `0, s, 2 s, ...` while `i < n` ("walk the HWC axis in strides
of 128 elements"). -/
def FORZS (n s : Nat) : List Nat := (List.range ((n + (s - 1)) / s)).map (fun k => k * s)

/-- The value `bitset::to_ullong` gives for a sequence of bits, bit 0 first. -/
def packBits : List Bool → Nat
  | [] => 0
  | b :: bs => Nat.bit b (packBits bs)

/-- Modelled from the spec: `pack_64_bitset(fptr, buf, eff_bits)` of common/common_bitpack.h,
which is not among the sources: it "maps positives to 1 and non-positives to 0, packing 64
values LSB-first into a u64"; only the first `eff_bits` positions are effective, "the remainder
of the 64-bit word is zero". The pointer `fptr` is the function giving `fptr[i]`. -/
def pack_64_bitset {F : Type} [Zero F] [LT F] [DecidableRel (fun (a b : F) => a < b)]
    (fptr : Nat → F) (eff_bits : Nat) : Nat :=
  packBits ((List.range 64).map (fun i => if i < eff_bits then decide (0 < fptr i) else false))

/-- The element `(&data[0])[k]`: inside the vector it is `data[k]`, past its end it is what
the memory holds there. -/
def deref {F : Type} (data : List F) (beyond : Nat → F) (k : Nat) : F :=
  match data[k]? with
  | some x => x
  | none => beyond k

/-- Subtraction `a - b` on `size_t`, an unsigned 64-bit integer. -/
def size_t_sub (a b : Nat) : Nat := (a + (2 ^ 64 - b % 2 ^ 64)) % 2 ^ 64

/-! ## `OnnxConverter::bitpack` -/

/-- The two words `bitpack` pushes for the stride starting at `i` of filter `n`. -/
def bitpack_stride {F : Type} [Zero F] [LT F] [DecidableRel (fun (a b : F) => a < b)]
    (beyond : Nat → F) (data : List F) (HWC n i : Nat) : List Nat :=
  let eff_bits := min (HWC - i) 128
  [pack_64_bitset (fun j => deref data beyond (n * HWC + i + j)) (min eff_bits 64),
   pack_64_bitset (fun j => deref data beyond (n * HWC + i + 64 + j))
     (min (max 0 (size_t_sub eff_bits 64)) 64)]

/-- Embedding of `OnnxConverter::bitpack`. It is `none` when the shape has fewer than four
dimensions or when `N = 0` (a division by zero in the source). -/
def bitpack {F : Type} [Zero F] [LT F] [DecidableRel (fun (a b : F) => a < b)]
    (beyond : Nat → F) (ftensor : FTensor F) : Option BTensor :=
  match Shaper.kn ftensor.shape, Shaper.kc ftensor.shape,
    ftensor.shape[0]?, ftensor.shape[1]?, ftensor.shape[2]?, ftensor.shape[3]? with
  | some N, some C, some s0, some s1, some s2, some s3 =>
    if N = 0 then none
    else
      let HWC := Shaper.total ftensor.shape / N
      let shape : Shape := [s0, s1, s2, s3]
      let align_hwc_to_128 := (C != 64)
      if align_hwc_to_128 then
        some ⟨(FORZ N).flatMap (fun n =>
                (FORZS HWC 128).flatMap (fun i => bitpack_stride beyond ftensor.data HWC n i)),
              shape, align_hwc_to_128⟩
      else
        some ⟨(FORZS (Shaper.total ftensor.shape) 64).map (fun i =>
                pack_64_bitset (fun j => deref ftensor.data beyond (i + j)) 64),
              shape, align_hwc_to_128⟩
  | _, _, _, _, _, _ => none

/-- Reading a sequence of words as bits, bit 0 of the first word first. -/
def unpack_bits (words : List Nat) : List Bool :=
  words.flatMap (fun w => (List.range 64).map (fun j => w.testBit j))

/-! ## String-keyed maps -/

/-- A map with string keys (`std::map<std::string, V>`, `StrKeyMap<V>`), as an association
list without repeated keys. -/
abbrev StrKeyMap (V : Type) := List (String × V)

namespace StrKeyMap

/-- The value stored under `key`, if any (`find`). -/
def find {V : Type} (m : StrKeyMap V) (key : String) : Option V := List.lookup key m

/-- The assignment `m[key] = v`: insert or overwrite. -/
def set {V : Type} (m : StrKeyMap V) (key : String) (v : V) : StrKeyMap V :=
  (key, v) :: m.filter (fun e => e.1 != key)

/-- The checked access `m.at(key)`, an error when the key is missing. -/
def at_ {V : Type} (m : StrKeyMap V) (key : String) : Except String V :=
  match find m key with
  | some v => .ok v
  | none => .error ("Key " ++ key ++ " not found")

end StrKeyMap

/-! ## The ONNX messages read by the converter -/

/-- An attribute of a node (`AttributeProto`); a field that is not set reads as its protobuf
default. -/
structure AttributeProto (F : Type) where
  name : String
  f : F
  i : Int
  ints : List Int

/-- A node of the graph (`NodeProto`). -/
structure NodeProto (F : Type) where
  name : String
  op_type : String
  domain : String
  input : List String
  output : List String
  attribute_ : List (AttributeProto F)

/-- The value of `TensorProto_DataType_FLOAT`. -/
def TensorProto_DataType_FLOAT : Nat := 1

/-- An initializer (`TensorProto`); `raw_data` is given as the floats its bytes encode. -/
structure TensorProto (F : Type) where
  name : String
  data_type : Nat
  dims : List Int
  float_data : List F
  raw_data : List F

/-- A graph input (`ValueInfoProto`) with the dimensions of its tensor type; a dimension is
`some v` when it carries a `dim_value` and `none` otherwise. -/
structure ValueInfoProto where
  name : String
  dim : List (Option Int)

/-- The graph (`GraphProto`). -/
structure GraphProto (F : Type) where
  node : List (NodeProto F)
  initializer : List (TensorProto F)
  input : List ValueInfoProto

/-- The model (`ModelProto`). -/
structure ModelProto (F : Type) where
  graph : GraphProto F

namespace NodeProto

/-- The accessor `node.input(k)`; an index past the end is an error. -/
def input_at {F : Type} (node : NodeProto F) (k : Nat) : Except String String :=
  match node.input[k]? with
  | some s => .ok s
  | none => .error ("node " ++ node.name ++ " has no input " ++ toString k)

/-- The accessor `node.output(k)`; an index past the end is an error. -/
def output_at {F : Type} (node : NodeProto F) (k : Nat) : Except String String :=
  match node.output[k]? with
  | some s => .ok s
  | none => .error ("node " ++ node.name ++ " has no output " ++ toString k)

end NodeProto

/-- The value of an integer as a 32-bit `int` (two's complement). -/
def to_int32 (z : Int) : Int := (z + 2 ^ 31) % 2 ^ 32 - 2 ^ 31

namespace NodeAttrHelper

/-- Modelled from the spec: the attribute reader of NodeAttrHelper.h, which is not among the
sources: the first attribute of the node with the given name. -/
def find_attr {F : Type} (node : NodeProto F) (key : String) : Option (AttributeProto F) :=
  node.attribute_.find? (fun a => a.name == key)

/-- Modelled from the spec: `has_attr(name)` of NodeAttrHelper.h, which is not among the
sources: "a predicate". -/
def has_attr {F : Type} (node : NodeProto F) (key : String) : Bool :=
  (find_attr node key).isSome

/-- Modelled from the spec: `get(name, default)` of NodeAttrHelper.h, which is not among the
sources, at an `int` default: "the attribute value coerced to the default's type": the 64-bit
attribute value `i` is narrowed to the 32-bit `int` of the default (`auto transA =
helper.get("transA", 0)`, `int group`). -/
def get_int {F : Type} (node : NodeProto F) (key : String) (def_val : Int) : Int :=
  match find_attr node key with
  | some a => to_int32 a.i
  | none => def_val

/-- Modelled from the spec: `get(name, default)` of NodeAttrHelper.h, which is not among the
sources, at a `float` default. -/
def get_float {F : Type} (node : NodeProto F) (key : String) (def_val : F) : F :=
  match find_attr node key with
  | some a => a.f
  | none => def_val

/-- Modelled from the spec: `get(name, default)` of NodeAttrHelper.h, which is not among the
sources, at a `vector<int>` default: every 64-bit element of the attribute's `ints` is narrowed
to a 32-bit `int`. -/
def get_ints {F : Type} (node : NodeProto F) (key : String) (def_val : List Int) : List Int :=
  match find_attr node key with
  | some a => a.ints.map to_int32
  | none => def_val

end NodeAttrHelper

/-! ## The shape tracker -/

namespace Shaper

/-- Modelled from the spec: `Shaper::onnx_kc` of common/Shaper.h, which is not among the
sources: the channel dimension `C` of the source layout `(N, C, H, W)`. -/
def onnx_kc (shape : Shape) : Option Nat := shape[1]?

/-- Modelled from the spec: `Shaper::onnx_kh` of common/Shaper.h, which is not among the
sources: the dimension `H` of the source layout `(N, C, H, W)`. -/
def onnx_kh (shape : Shape) : Option Nat := shape[2]?

/-- Modelled from the spec: `Shaper::onnx_kw` of common/Shaper.h, which is not among the
sources: the dimension `W` of the source layout `(N, C, H, W)`. -/
def onnx_kw (shape : Shape) : Option Nat := shape[3]?

/-- Modelled from the spec: `get(name)` of the shape tracker (common/Shaper.h is not among the
sources): "fails if missing". -/
def get (shaper : StrKeyMap Shape) (name : String) : Except String Shape :=
  match StrKeyMap.find shaper name with
  | some s => .ok s
  | none => .error ("shape of " ++ name ++ " is missing")

/-- Modelled from the spec: `add(name, shape)` of the shape tracker (common/Shaper.h is not
among the sources): "records the shape. Fails if `name` already present". -/
def AddShape (shaper : StrKeyMap Shape) (name : String) (shape : Shape) :
    Except String (StrKeyMap Shape) :=
  match StrKeyMap.find shaper name with
  | some _ => .error ("shape of " ++ name ++ " is already present")
  | none => .ok (StrKeyMap.set shaper name shape)

/-- One spatial output extent of the "standard formula": `(extent + pads - window) / stride + 1`
with `window = dilation * (kernel - 1) + 1`; a non-positive stride or a negative numerator is
an error ("negative dimensions"). -/
def out_extent (extent : Nat) (pad_begin pad_end window stride : Int) : Except String Nat :=
  if stride ≤ 0 then .error "stride is not positive"
  else if (extent : Int) + pad_begin + pad_end - window < 0 then .error "negative dimension"
  else .ok ((((extent : Int) + pad_begin + pad_end - window) / stride + 1).toNat)

/-- Modelled from the spec: the convolution shape inferer `conv(input, strides, dilations,
pads, weight, output)` of common/Shaper.h, which is not among the sources: "the standard
formula using stride/dilation/pad in the target (channel-last) layout; output channel is
`weight.N`". The arguments are in the order of the call in `AddConv`. -/
def Conv (shaper : StrKeyMap Shape) (input_name : String)
    (strideX strideY dilationX dilationY paddingLeft paddingRight paddingTop paddingBottom : Int)
    (weight_name output_name : String) : Except String (StrKeyMap Shape) := do
  let weightDimen ← get shaper weight_name
  let inputDimen ← get shaper input_name
  match inputDimen, weightDimen with
  | [n, h, w, _], [o, kh, kw, _] =>
    let oh ← out_extent h paddingTop paddingBottom (dilationY * ((kh : Int) - 1) + 1) strideY
    let ow ← out_extent w paddingLeft paddingRight (dilationX * ((kw : Int) - 1) + 1) strideX
    AddShape shaper output_name [n, oh, ow, o]
  | _, _ => .error "conv needs a 4-d input and a 4-d weight"

/-- Modelled from the spec: the pooling shape inferer `pool(input, strides, pads, kernel,
output)` of common/Shaper.h, which is not among the sources: "kernel may be `-1,-1` indicating
global", which "collapses H,W to 1". The arguments are in the order of the call in `Convert`. -/
def Pool (shaper : StrKeyMap Shape) (input_name : String)
    (strideX strideY paddingLeft paddingRight paddingTop paddingBottom height width : Int)
    (output_name : String) : Except String (StrKeyMap Shape) := do
  let inputDimen ← get shaper input_name
  match inputDimen with
  | [n, h, w, c] =>
    if height = -1 ∧ width = -1 then AddShape shaper output_name [n, 1, 1, c]
    else
      let oh ← out_extent h paddingTop paddingBottom height strideY
      let ow ← out_extent w paddingLeft paddingRight width strideX
      AddShape shaper output_name [n, oh, ow, c]
  | _ => .error "pool needs a 4-d input"

/-- Modelled from the spec: `relu(input, output)` of common/Shaper.h, which is not among the
sources: "shape passes through". -/
def Relu (shaper : StrKeyMap Shape) (input_name output_name : String) :
    Except String (StrKeyMap Shape) := do
  let s ← get shaper input_name
  AddShape shaper output_name s

/-- Modelled from the spec: `softmax(input, output)` of common/Shaper.h, which is not among the
sources; the shape passes through. -/
def Softmax (shaper : StrKeyMap Shape) (input_name output_name : String) :
    Except String (StrKeyMap Shape) := do
  let s ← get shaper input_name
  AddShape shaper output_name s

/-- Modelled from the spec: `affine(input, output)` of common/Shaper.h, which is not among the
sources; the shape passes through. -/
def Affine (shaper : StrKeyMap Shape) (input_name output_name : String) :
    Except String (StrKeyMap Shape) := do
  let s ← get shaper input_name
  AddShape shaper output_name s

/-- Modelled from the spec: `eltwise(a, b, output)` of common/Shaper.h, which is not among the
sources: "require equal shapes". -/
def Eltwise (shaper : StrKeyMap Shape) (input1_name input2_name output_name : String) :
    Except String (StrKeyMap Shape) := do
  let s1 ← get shaper input1_name
  let s2 ← get shaper input2_name
  if s1 = s2 then AddShape shaper output_name s1
  else .error "shape mismatch in an Add"

/-- Modelled from the spec: `fc(input, weight, output)` of common/Shaper.h, which is not among
the sources; the output is `(N, weight.N)`. -/
def FC (shaper : StrKeyMap Shape) (input_name weight_name output_name : String) :
    Except String (StrKeyMap Shape) := do
  let inputDimen ← get shaper input_name
  let weightDimen ← get shaper weight_name
  match inputDimen[0]?, weightDimen[0]? with
  | some n, some o => AddShape shaper output_name [n, o]
  | _, _ => .error "fc needs a batch and an output dimension"

/-- The target (NHWC) axis of a source (NCHW) axis: `{0→0, 1→3, 2→1, 3→2}`. -/
def axis_to_target (axis : Int) : Option Nat :=
  if axis = 0 then some 0
  else if axis = 1 then some 3
  else if axis = 2 then some 1
  else if axis = 3 then some 2
  else none

/-- Modelled from the spec: `concat(inputs, axis_in_source_layout, output)` of common/Shaper.h,
which is not among the sources: the "axis is given in source (NCHW) convention; tracker must
translate to target convention internally"; the inputs agree off the axis and add up on it. -/
def Concat (shaper : StrKeyMap Shape) (input_names : List String) (axis : Int)
    (output_name : String) : Except String (StrKeyMap Shape) := do
  let shapes ← input_names.mapM (fun n => get shaper n)
  match axis_to_target axis, shapes with
  | some t, first :: rest =>
    if rest.all (fun s => s.length = first.length ∧ s.set t 0 = first.set t 0) then
      AddShape shaper output_name
        (first.set t ((first :: rest).map (fun s => s.getD t 0)).sum)
    else .error "concat inputs differ off the axis"
  | _, _ => .error "concat needs an axis in 0..3 and an input"

end Shaper

/-! ## The records handed to the serializer -/

/-- The data type of an emitted tensor (`flatbnn::DataType`). -/
inductive DataType
  | Float32
  | Bit
  deriving Repr, DecidableEq

/-- An emitted tensor record (`flatbnn::CreateTensorDirect`). -/
structure Tensor (F : Type) where
  data_type : DataType
  bin_data : List Nat
  float_data : List F
  shape : Shape
  name : String
  align_hwc_to_128 : Bool

/-- An emitted input record (`flatbnn::CreateInputDirect`). -/
structure Input where
  shape : Shape
  name : String
  deriving Repr, DecidableEq

/-- An emitted layer record (`flatbnn::CreateLayer` with the parameter record of its kind). -/
inductive Layer
  | BinConv2D (input weight : String) (bias : Option String) (pads strides dilations : List Int)
      (output : String)
  | FpConv2D (input weight : String) (bias : Option String) (pads strides dilations : List Int)
      (output : String)
  | AvePool (input : String) (kernel_shape pads strides : List Int) (output : String)
  | MaxPool (input : String) (kernel_shape pads strides : List Int) (output : String)
  | Relu (input output : String)
  | PRelu (input slope output : String)
  | Add (input1 input2 output : String)
  | FC (input weight : String) (bias : Option String) (output : String)
  | Softmax (input output : String)
  | Concat (inputs : List String) (axis : Nat) (output : String)
  | Affine (input a b output : String)
  deriving Repr, DecidableEq

/-- The model handed to the serializer and written to `filepath` (`flatbnn::CreateModel`). -/
structure Model (F : Type) where
  layers : List Layer
  tensors : List (Tensor F)
  inputs : List Input
  version : Nat

/-! ## The converter -/

/-- The optimization level (`OnnxConverter::Level`). -/
inductive Level
  | kStrict
  | kModerate
  | kAggressive
  deriving Repr, DecidableEq

/-- The member variables of `OnnxConverter`. -/
structure OnnxConverter (F : Type) where
  model_proto_ : ModelProto F
  name_map_ : StrKeyMap String
  shaper_ : StrKeyMap Shape
  onnx_float_tensors_ : StrKeyMap (FTensor F)
  bnn_tensors_ : StrKeyMap (FTensor F)
  operands_ : List String
  layers_ : List Layer
  tensors_ : List (Tensor F)

/-- What the converter takes from outside this file: the ONNX optimizer, the weight layout
conversion `OnnxToBnn` declared in OnnxConverter.h, `std::sqrt`, the contents of the memory
past the end of a float buffer, and the constant `BNN_LATEST_MODEL_VERSION`. -/
structure Env (F : Type) where
  Optimize : ModelProto F → List String → ModelProto F
  OnnxToBnn : FTensor F → FTensor F
  sqrt : F → F
  beyond : Nat → F
  BNN_LATEST_MODEL_VERSION : Nat

/-- Embedding of `OnnxConverter::m`: the mapped name, or the name itself. -/
def OnnxConverter.m {F : Type} (self : OnnxConverter F) (str : String) : String :=
  match StrKeyMap.find self.name_map_ str with
  | some v => v
  | none => str

/-- Embedding of `OnnxConverter::AddBinConv`. -/
def OnnxConverter.AddBinConv {F : Type} (self : OnnxConverter F) (input_name : String)
    (strides pads dilations : List Int) (group : Int) (weight_name output_name : String)
    (bin_weight : BTensor) : Except String (OnnxConverter F) :=
  if group = 1 then
    let layer := Layer.BinConv2D input_name weight_name none pads strides dilations output_name
    let flat_tensor : Tensor F :=
      ⟨DataType.Bit, bin_weight.data, [], bin_weight.shape, weight_name,
        bin_weight.align_hwc_to_128⟩
    .ok { self with tensors_ := self.tensors_ ++ [flat_tensor],
                    layers_ := self.layers_ ++ [layer] }
  else .error "Group != 1 is not supported"

/-- Embedding of `OnnxConverter::AddFloatConv`. -/
def OnnxConverter.AddFloatConv {F : Type} (self : OnnxConverter F) (input_name : String)
    (strides pads dilations : List Int) (group : Int) (weight_name : String)
    (bias_name : Option String) (output_name : String) (float_weight : FTensor F) :
    Except String (OnnxConverter F) :=
  if group ≠ 1 then .error "group != 1 is not supported"
  else
    let layer := Layer.FpConv2D input_name weight_name bias_name pads strides dilations
      output_name
    let flat_tensor : Tensor F :=
      ⟨DataType.Float32, [], float_weight.data, float_weight.shape, weight_name, false⟩
    .ok { self with bnn_tensors_ := StrKeyMap.set self.bnn_tensors_ weight_name float_weight,
                    tensors_ := self.tensors_ ++ [flat_tensor],
                    layers_ := self.layers_ ++ [layer] }

/-- The element `v[k]` of a vector of `int`s; an index past the end is an error. -/
def int_at (v : List Int) (k : Nat) : Except String Int :=
  match v[k]? with
  | some x => .ok x
  | none => .error "index past the end of a vector"

/-- Embedding of `OnnxConverter::AddConv`. -/
def OnnxConverter.AddConv {F : Type} [Zero F] [LT F] [DecidableRel (fun (a b : F) => a < b)]
    (env : Env F) (self : OnnxConverter F) (input_name : String)
    (strides pads dilations : List Int) (group : Int) (ori_weight_name : String)
    (bias_name : Option String) (output_name : String) (binary : Bool) :
    Except String (OnnxConverter F) := do
  let onnx_weight ← StrKeyMap.at_ self.onnx_float_tensors_ ori_weight_name
  let bnn_float_tensor := env.OnnxToBnn onnx_weight
  let weight_name := ori_weight_name ++ "_conv_w"
  let shaper1 ← Shaper.AddShape self.shaper_ weight_name bnn_float_tensor.shape
  let s1 ← int_at strides 1
  let s0 ← int_at strides 0
  let p2 ← int_at pads 2
  let p3 ← int_at pads 3
  let p0 ← int_at pads 0
  let p1 ← int_at pads 1
  let shaper2 ← Shaper.Conv shaper1 input_name s1 s0 1 1 p2 p3 p0 p1 weight_name output_name
  let self1 := { self with shaper_ := shaper2 }
  if binary then
    match bitpack env.beyond bnn_float_tensor with
    | some weight_tensor =>
      self1.AddBinConv input_name strides pads dilations group weight_name output_name
        weight_tensor
    | none => .error "bitpack of a tensor without four dimensions or with N = 0"
  else
    self1.AddFloatConv input_name strides pads dilations group weight_name bias_name
      output_name bnn_float_tensor

/-! ## `OnnxConverter::CalculateCoeff` -/

/-- The element `v[k]` of a vector of floats; an index past the end is an error. -/
def float_at {F : Type} (v : List F) (k : Nat) : Except String F :=
  match v[k]? with
  | some x => .ok x
  | none => .error "index past the end of a vector"

/-- A dimension that a shape must have; its absence is an error. -/
def dim_of (d : Option Nat) : Except String Nat :=
  match d with
  | some x => .ok x
  | none => .error "shape has too few dimensions"

/-- The access `m[key]` of a map in an expression: the stored value, or a default value that is
inserted under the key. -/
def StrKeyMap.index {V : Type} (m : StrKeyMap V) (key : String) (dflt : V) : V × StrKeyMap V :=
  match StrKeyMap.find m key with
  | some v => (v, m)
  | none => (dflt, StrKeyMap.set m key dflt)

/-- The coefficient vectors and the tensor store while `CalculateCoeff` runs. -/
structure Coeff (F : Type) where
  coeff_a_data : List F
  coeff_b_data : List F
  onnx_float_tensors_ : StrKeyMap (FTensor F)

/-- The first loop of `CalculateCoeff`: the plain folding of one channel. -/
def CalculateCoeff_channel {F : Type} [Field F] (sqrt : F → F) (eps : F)
    (scale b mean var : FTensor F) (i : Nat) : Except String (F × F) := do
  let var_i ← float_at var.data i
  let tmp := sqrt (var_i + eps)
  let scale_i ← float_at scale.data i
  let b_i ← float_at b.data i
  let mean_i ← float_at mean.data i
  pure (scale_i / tmp, b_i - scale_i * mean_i / tmp)

/-- The loop of `CalculateCoeff` that adds `channels * width * height * coeff_a_data[i]` to
`coeff_b_data[i]`, at channel `i`. -/
def CalculateCoeff_size {F : Type} [Field F] (k : Int) (coeff_a_data coeff_b_data : List F)
    (i : Nat) : Except String F := do
  let b_i ← float_at coeff_b_data i
  let a_i ← float_at coeff_a_data i
  pure (b_i + (k : F) * a_i)

/-- The loop of `CalculateCoeff` that adds `coeff_a_data[i] * bias.data[i]` to
`coeff_b_data[i]`, at channel `i`. -/
def CalculateCoeff_bias {F : Type} [Field F] (coeff_a_data coeff_b_data bias_data : List F)
    (i : Nat) : Except String F := do
  let b_i ← float_at coeff_b_data i
  let a_i ← float_at coeff_a_data i
  let bias_i ← float_at bias_data i
  pure (b_i + a_i * bias_i)

/-- The body of the second loop of `CalculateCoeff` for one node `node2` of the graph: the
correction for a preceding binary convolution. -/
def CalculateCoeff_fuse {F : Type} [Field F] (input0 : String) (acc : Coeff F)
    (node2 : NodeProto F) : Except String (Coeff F) :=
  if node2.domain == "dabnn" && node2.op_type == "Conv" then do
    let out0 ← node2.output_at 0
    if out0 == input0 then
      let weight_name ← node2.input_at 1
      let (weight, tensors1) :=
        StrKeyMap.index acc.onnx_float_tensors_ weight_name ⟨[], [], false⟩
      let channels ← dim_of (Shaper.onnx_kc weight.shape)
      let width ← dim_of (Shaper.onnx_kw weight.shape)
      let height ← dim_of (Shaper.onnx_kh weight.shape)
      let k : Int := to_int32 (to_int32 (to_int32 channels * to_int32 width) * to_int32 height)
      let b1 ← (FORZ acc.coeff_b_data.length).mapM
        (CalculateCoeff_size k acc.coeff_a_data acc.coeff_b_data)
      let (b2, tensors2) ←
        (if node2.input.length = 3 then do
          let bias_name ← node2.input_at 2
          let (bias, tensors2) := StrKeyMap.index tensors1 bias_name ⟨[], [], false⟩
          let b2 ← (FORZ b1.length).mapM (CalculateCoeff_bias acc.coeff_a_data b1 bias.data)
          pure (b2, tensors2)
        else pure (b1, tensors1) : Except String (List F × StrKeyMap (FTensor F)))
      let a2 := acc.coeff_a_data.map (fun a_i => a_i * (-2))
      pure ⟨a2, b2, tensors2⟩
    else pure acc
  else pure acc

/-- Embedding of `OnnxConverter::CalculateCoeff`. -/
def OnnxConverter.CalculateCoeff {F : Type} [Field F] (sqrt : F → F) (self : OnnxConverter F)
    (node : NodeProto F) (coeff_a_name coeff_b_name : String) :
    Except String (OnnxConverter F) := do
  let input0 ← node.input_at 0
  let scale_name ← node.input_at 1
  let b_name ← node.input_at 2
  let mean_name ← node.input_at 3
  let var_name ← node.input_at 4
  let eps := NodeAttrHelper.get_float node "eps" (1 / 100000)
  let scale ← StrKeyMap.at_ self.onnx_float_tensors_ scale_name
  let b ← StrKeyMap.at_ self.onnx_float_tensors_ b_name
  let mean ← StrKeyMap.at_ self.onnx_float_tensors_ mean_name
  let var ← StrKeyMap.at_ self.onnx_float_tensors_ var_name
  let coeffs ← (FORZ scale.data.length).mapM (CalculateCoeff_channel sqrt eps scale b mean var)
  let acc ← self.model_proto_.graph.node.foldlM (CalculateCoeff_fuse input0)
    ⟨coeffs.map (fun c => c.1), coeffs.map (fun c => c.2), self.onnx_float_tensors_⟩
  let coeff_a : FTensor F := ⟨acc.coeff_a_data, [acc.coeff_a_data.length % 2 ^ 32], false⟩
  let coeff_b : FTensor F := ⟨acc.coeff_b_data, [acc.coeff_b_data.length % 2 ^ 32], false⟩
  let tensors1 := StrKeyMap.set acc.onnx_float_tensors_ coeff_a_name coeff_a
  let tensors2 := StrKeyMap.set tensors1 coeff_b_name coeff_b
  pure { self with onnx_float_tensors_ := tensors2 }

/-! ## `OnnxConverter::Convert` -/

/-- The local variables of `Convert` during the walk over the nodes, with the converter. -/
structure Walk (F : Type) where
  self : OnnxConverter F
  inputs : List Input
  binary_conv_outputs : List String
  has_reshape : Bool

/-- A `CHECK_EQ` on the size of a vector. -/
def CHECK_EQ_size (v : List Int) (n : Nat) : Except String Unit :=
  if v.length = n then .ok () else .error "Check failed: size"

/-- The loop of the Conv case that looks for a BatchNormalization node reading the output of
the convolution; it stops at the first one. -/
def precede_bn {F : Type} (out0 : String) : List (NodeProto F) → Except String Bool
  | [] => .ok false
  | node2 :: rest =>
    if node2.op_type == "BatchNormalization" then
      match node2.input_at 0 with
      | .ok in0 => if in0 == out0 then .ok true else precede_bn out0 rest
      | .error e => .error e
    else precede_bn out0 rest

/-- The block of the Conv case that handles the bias input: with three or more inputs the bias
tensor is stored under the name suffixed `_conv_b` and emitted. -/
def Convert_Conv_bias {F : Type} (st : Walk F) (node : NodeProto F) :
    Except String (Option String × OnnxConverter F) :=
  if node.input.length ≥ 3 then do
    let in2 ← node.input_at 2
    let ori_bias_name := st.self.m in2
    let bias_name := ori_bias_name ++ "_conv_b"
    let bias ← StrKeyMap.at_ st.self.onnx_float_tensors_ ori_bias_name
    let flat_tensor : Tensor F :=
      ⟨DataType.Float32, [], bias.data, bias.shape, bias_name, false⟩
    pure (some bias_name,
      { st.self with bnn_tensors_ := StrKeyMap.set st.self.bnn_tensors_ bias_name bias,
                     tensors_ := st.self.tensors_ ++ [flat_tensor] })
  else pure (none, st.self)

/-- The block of the Conv case for a binary convolution: its output is recorded and a
BatchNormalization node reading it is looked for; without one the conversion fails. -/
def Convert_Conv_binary {F : Type} (self1 : OnnxConverter F) (binary_conv : Bool)
    (out0 : String) (binary_conv_outputs : List String) : Except String (List String) :=
  if binary_conv then do
    let found ← precede_bn out0 self1.model_proto_.graph.node
    if !found then .error "Binary convolutions should precede BatchNorm"
    else pure (binary_conv_outputs ++ [out0])
  else pure binary_conv_outputs

/-- The Conv case of the walk. -/
def Convert_Conv {F : Type} [LinearOrderedField F] (env : Env F)
    (expected_binary_conv_outputs : List String) (st : Walk F) (node : NodeProto F) :
    Except String (Walk F) := do
  let strides := NodeAttrHelper.get_ints node "strides" [1, 1]
  let pads := NodeAttrHelper.get_ints node "pads" [0, 0, 0, 0]
  let dilations := NodeAttrHelper.get_ints node "dilations" [1, 1]
  CHECK_EQ_size pads 4
  CHECK_EQ_size strides 2
  CHECK_EQ_size dilations 2
  let group := NodeAttrHelper.get_int node "group" 1
  let (bias_name, self1) ← Convert_Conv_bias st node
  let in1 ← node.input_at 1
  let ori_weight_name := self1.m in1
  let out0 ← node.output_at 0
  let binary_conv : Bool :=
    (node.domain == "dabnn") || expected_binary_conv_outputs.contains out0
  let binary_conv_outputs ←
    Convert_Conv_binary self1 binary_conv out0 st.binary_conv_outputs
  let in0 ← node.input_at 0
  let self2 ← self1.AddConv env (self1.m in0) strides pads dilations group ori_weight_name
    bias_name (self1.m out0) binary_conv
  pure { st with self := self2, binary_conv_outputs := binary_conv_outputs }

/-- The pooling case of the walk (AveragePool, MaxPool, GlobalAveragePool, GlobalMaxPool). -/
def Convert_Pool {F : Type} (st : Walk F) (node : NodeProto F) : Except String (Walk F) := do
  let op := node.op_type
  let in0 ← node.input_at 0
  let input_name := st.self.m in0
  let out0 ← node.output_at 0
  let output_name := st.self.m out0
  let (strides, pads, kernel_shape) ←
    (if op == "AveragePool" || op == "MaxPool" then
      let strides := NodeAttrHelper.get_ints node "strides" [1, 1]
      let pads := NodeAttrHelper.get_ints node "pads" [0, 0, 0, 0]
      let kernel_shape := NodeAttrHelper.get_ints node "kernel_shape" [0, 0]
      if NodeAttrHelper.get_int node "count_include_pad" 0 = 1 then
        .error "count_include_pad == 1 is not supported"
      else if NodeAttrHelper.get_int node "storage_order" 0 = 1 then
        .error "storage_order == 1 is not supported"
      else if NodeAttrHelper.has_attr node "auto_pad" then
        .error "auto_pad is not supported"
      else pure (strides, pads, kernel_shape)
    else pure ([0, 0], [0, 0, 0, 0], [-1, -1]) :
      Except String (List Int × List Int × List Int))
  CHECK_EQ_size pads 4
  CHECK_EQ_size kernel_shape 2
  CHECK_EQ_size strides 2
  let s1 ← int_at strides 1
  let s0 ← int_at strides 0
  let p2 ← int_at pads 2
  let p3 ← int_at pads 3
  let p0 ← int_at pads 0
  let p1 ← int_at pads 1
  let k0 ← int_at kernel_shape 0
  let k1 ← int_at kernel_shape 1
  let shaper1 ← Shaper.Pool st.self.shaper_ input_name s1 s0 p2 p3 p0 p1 k0 k1 output_name
  let layer :=
    if op == "AveragePool" || op == "GlobalAveragePool" then
      Layer.AvePool input_name kernel_shape pads strides output_name
    else Layer.MaxPool input_name kernel_shape pads strides output_name
  pure { st with self := { st.self with shaper_ := shaper1,
                                        layers_ := st.self.layers_ ++ [layer] } }

/-- The PRelu case of the walk. -/
def Convert_PRelu {F : Type} [LinearOrderedField F] (st : Walk F) (node : NodeProto F) :
    Except String (Walk F) := do
  let in0 ← node.input_at 0
  let input_name := st.self.m in0
  let in1 ← node.input_at 1
  let slope_name := st.self.m in1
  let onnx_slope_tensor ← StrKeyMap.at_ st.self.onnx_float_tensors_ slope_name
  let input_shape ← Shaper.get st.self.shaper_ input_name
  if input_shape.length ≠ 4 then .error "PRelu only support 4-d tensor input for now"
  else
    let slope_shape := onnx_slope_tensor.shape
    if ¬ ((slope_shape.length = 3 ∧ slope_shape[1]? = some 1 ∧ slope_shape[2]? = some 1)
          ∨ onnx_slope_tensor.data = [1]) then
      .error "PRelu only support scalr slope or per-channel slope for now"
    else
      let d0 ← dim_of slope_shape[0]?
      let flat_slope_tensor : Tensor F :=
        ⟨DataType.Float32, [], onnx_slope_tensor.data, [d0], slope_name, false⟩
      let out0 ← node.output_at 0
      let output_name := st.self.m out0
      let shaper1 ← Shaper.Relu st.self.shaper_ input_name output_name
      let layer := Layer.PRelu input_name slope_name output_name
      pure { st with self := { st.self with shaper_ := shaper1,
                                            tensors_ := st.self.tensors_ ++ [flat_slope_tensor],
                                            layers_ := st.self.layers_ ++ [layer] } }

/-- The Relu case of the walk. -/
def Convert_Relu {F : Type} (st : Walk F) (node : NodeProto F) : Except String (Walk F) := do
  let in0 ← node.input_at 0
  let input_name := st.self.m in0
  let out0 ← node.output_at 0
  let output_name := st.self.m out0
  let shaper1 ← Shaper.Relu st.self.shaper_ input_name output_name
  let layer := Layer.Relu input_name output_name
  pure { st with self := { st.self with shaper_ := shaper1,
                                        layers_ := st.self.layers_ ++ [layer] } }

/-- The Add case of the walk. -/
def Convert_Add {F : Type} (st : Walk F) (node : NodeProto F) : Except String (Walk F) := do
  let in0 ← node.input_at 0
  let input1_name := st.self.m in0
  let in1 ← node.input_at 1
  let input2_name := st.self.m in1
  let out0 ← node.output_at 0
  let output_name := st.self.m out0
  let shaper1 ← Shaper.Eltwise st.self.shaper_ input1_name input2_name output_name
  let layer := Layer.Add input1_name input2_name output_name
  pure { st with self := { st.self with shaper_ := shaper1,
                                        layers_ := st.self.layers_ ++ [layer] } }

/-- The block of the Gemm case that handles the bias input: with three or more inputs the bias
tensor is stored and emitted. -/
def Convert_Gemm_bias {F : Type} (self1 : OnnxConverter F) (node : NodeProto F) :
    Except String (Option String × OnnxConverter F) :=
  if node.input.length ≥ 3 then do
    let in2 ← node.input_at 2
    let bias_name := self1.m in2
    let bias_tensor ← StrKeyMap.at_ self1.onnx_float_tensors_ bias_name
    let bias_record : Tensor F :=
      ⟨DataType.Float32, [], bias_tensor.data, bias_tensor.shape, bias_name, false⟩
    pure (some bias_name,
      { self1 with bnn_tensors_ := StrKeyMap.set self1.bnn_tensors_ bias_name bias_tensor,
                   tensors_ := self1.tensors_ ++ [bias_record] })
  else pure (none, self1)

/-- The Gemm case of the walk. -/
def Convert_Gemm {F : Type} [LinearOrderedField F] (st : Walk F) (node : NodeProto F) :
    Except String (Walk F) := do
  let transA := NodeAttrHelper.get_int node "transA" 0
  let transB := NodeAttrHelper.get_int node "transB" 0
  let alpha : F := NodeAttrHelper.get_float node "alpha" 1
  let beta : F := NodeAttrHelper.get_float node "beta" 1
  if transA = 0 ∧ transB = 1 ∧ alpha = 1 ∧ beta = 1 then
    let in0 ← node.input_at 0
    let input_name := st.self.m in0
    let in1 ← node.input_at 1
    let weight_name := st.self.m in1
    let weight_tensor ← StrKeyMap.at_ st.self.onnx_float_tensors_ weight_name
    let bnn1 := StrKeyMap.set st.self.bnn_tensors_ weight_name weight_tensor
    let shaper1 ← Shaper.AddShape st.self.shaper_ weight_name weight_tensor.shape
    let weight_record : Tensor F :=
      ⟨DataType.Float32, [], weight_tensor.data, weight_tensor.shape, weight_name, false⟩
    let self1 : OnnxConverter F :=
      { st.self with bnn_tensors_ := bnn1, shaper_ := shaper1,
                     tensors_ := st.self.tensors_ ++ [weight_record] }
    let (bias_name, self2) ← Convert_Gemm_bias self1 node
    let out0 ← node.output_at 0
    let output_name := self2.m out0
    let shaper2 ← Shaper.FC self2.shaper_ input_name weight_name output_name
    let layer := Layer.FC input_name weight_name bias_name output_name
    pure { st with self := { self2 with shaper_ := shaper2,
                                        layers_ := self2.layers_ ++ [layer] } }
  else
    .error "Only transA == 0, transB == 1, alpha == 1.0 and beta == 1.0 is supported."

/-- The Softmax case of the walk. -/
def Convert_Softmax {F : Type} (st : Walk F) (node : NodeProto F) :
    Except String (Walk F) := do
  let in0 ← node.input_at 0
  let input_name := st.self.m in0
  let out0 ← node.output_at 0
  let output_name := st.self.m out0
  let shaper1 ← Shaper.Softmax st.self.shaper_ input_name output_name
  let layer := Layer.Softmax input_name output_name
  pure { st with self := { st.self with shaper_ := shaper1,
                                        layers_ := st.self.layers_ ++ [layer] } }

/-- The table `axis_nchw_to_nhwc` of the Concat case. -/
def axis_nchw_to_nhwc : List Nat := [0, 3, 1, 2]

/-- The Concat case of the walk. -/
def Convert_Concat {F : Type} (st : Walk F) (node : NodeProto F) :
    Except String (Walk F) := do
  let concat_inputs_str := node.input.map (fun onnx_input => st.self.m onnx_input)
  let axis := NodeAttrHelper.get_int node "axis" 1
  let out0 ← node.output_at 0
  let output_name := st.self.m out0
  let shaper1 ← Shaper.Concat st.self.shaper_ concat_inputs_str axis output_name
  if axis < 0 then .error "index past the end of axis_nchw_to_nhwc"
  else
    match axis_nchw_to_nhwc[axis.toNat]? with
    | none => .error "index past the end of axis_nchw_to_nhwc"
    | some target_axis =>
      let layer := Layer.Concat concat_inputs_str target_axis output_name
      pure { st with self := { st.self with shaper_ := shaper1,
                                            layers_ := st.self.layers_ ++ [layer] } }

/-- The Dropout case of the walk. -/
def Convert_Dropout {F : Type} (st : Walk F) (node : NodeProto F) :
    Except String (Walk F) := do
  let in0 ← node.input_at 0
  let mapped := st.self.m in0
  let out0 ← node.output_at 0
  let name_map1 := StrKeyMap.set st.self.name_map_ out0 mapped
  pure { st with self := { st.self with name_map_ := name_map1 } }

/-- The BatchNormalization case of the walk. -/
def Convert_BatchNormalization {F : Type} [Field F] (env : Env F) (st : Walk F)
    (node : NodeProto F) : Except String (Walk F) := do
  let input_name ← node.input_at 0
  let output_name ← node.output_at 0
  let coeff_a_name := output_name ++ "_a"
  let coeff_b_name := output_name ++ "_b"
  let self1 ← st.self.CalculateCoeff env.sqrt node coeff_a_name coeff_b_name
  let shaper1 ← Shaper.Affine self1.shaper_ input_name output_name
  let layer := Layer.Affine input_name coeff_a_name coeff_b_name output_name
  let (coeff_a, tensors1) := StrKeyMap.index self1.onnx_float_tensors_ coeff_a_name ⟨[], [], false⟩
  let (coeff_b, tensors2) := StrKeyMap.index tensors1 coeff_b_name ⟨[], [], false⟩
  let a_tensor : Tensor F :=
    ⟨DataType.Float32, [], coeff_a.data, coeff_a.shape, coeff_a_name, false⟩
  let b_tensor : Tensor F :=
    ⟨DataType.Float32, [], coeff_b.data, coeff_b.shape, coeff_b_name, false⟩
  pure { st with self := { self1 with shaper_ := shaper1,
                                      onnx_float_tensors_ := tensors2,
                                      layers_ := self1.layers_ ++ [layer],
                                      tensors_ := self1.tensors_ ++ [a_tensor, b_tensor] } }

/-- The body of the loop of `Convert` over the nodes of the graph; `op` is `node.op_type`. -/
def Convert_node {F : Type} [LinearOrderedField F] (env : Env F)
    (expected_binary_conv_outputs : List String) (st : Walk F) (node : NodeProto F) :
    Except String (Walk F) :=
  if st.has_reshape then .error "Reshape can only be the last layer for now"
  else if node.op_type == "Conv" then Convert_Conv env expected_binary_conv_outputs st node
  else if node.op_type == "AveragePool" || node.op_type == "MaxPool"
      || node.op_type == "GlobalAveragePool" || node.op_type == "GlobalMaxPool" then
    Convert_Pool st node
  else if node.op_type == "PRelu" then Convert_PRelu st node
  else if node.op_type == "Relu" then Convert_Relu st node
  else if node.op_type == "Add" then Convert_Add st node
  else if node.op_type == "Gemm" then Convert_Gemm st node
  else if node.op_type == "Softmax" then Convert_Softmax st node
  else if node.op_type == "Concat" then Convert_Concat st node
  else if node.op_type == "Dropout" then Convert_Dropout st node
  else if node.op_type == "Reshape" then .ok { st with has_reshape := true }
  else if node.op_type == "BatchNormalization" then Convert_BatchNormalization env st node
  else .error ("Unsupported operator " ++ node.op_type)

/-- The optimizer passes `Convert` asks for at a level. -/
def optimizers (level : Level) : List String :=
  ["eliminate_nop_pad", "extract_constant_to_initializer", "dabnn_bconv_strict"]
  ++ (if level = Level.kModerate ∨ level = Level.kAggressive then ["dabnn_bconv_moderate"]
      else [])
  ++ (if level = Level.kAggressive then ["dabnn_bconv_aggressive"] else [])

/-- The cast `static_cast<uint32_t>` of a 64-bit dimension. -/
def to_uint32 (z : Int) : Nat := (z % 2 ^ 32).toNat

/-- Modelled from the spec: `Product` of common/helper.h, which is not among the sources: the
product of the dimensions. -/
def Product (shape : Shape) : Nat := shape.prod

/-- The loop of `Convert` over the initializers. -/
def Convert_initializer {F : Type} (env : Env F) (self : OnnxConverter F)
    (tensor : TensorProto F) : OnnxConverter F :=
  let self1 :=
    if tensor.data_type = TensorProto_DataType_FLOAT then
      let shape : Shape := tensor.dims.map to_uint32
      let ptr := if tensor.float_data.isEmpty then tensor.raw_data else tensor.float_data
      let data_vec := (List.range (Product shape)).map (fun k => deref ptr env.beyond k)
      let tensors1 := StrKeyMap.set self.onnx_float_tensors_ tensor.name ⟨data_vec, shape, false⟩
      { self with onnx_float_tensors_ := tensors1 }
    else self
  { self1 with operands_ := self1.operands_ ++ [tensor.name] }

/-- The loop of `Convert` over the inputs of the graph. -/
def Convert_input {F : Type} (acc : OnnxConverter F × List Input) (input : ValueInfoProto) :
    Except String (OnnxConverter F × List Input) :=
  if acc.1.operands_.contains input.name then .ok acc
  else do
    let shape ← input.dim.mapM (fun d =>
      match d with
      | some v => Except.ok (to_uint32 v)
      | none => Except.error "The input of graph doesn't have dim_value")
    let d0 ← dim_of shape[0]?
    let d2 ← dim_of shape[2]?
    let d3 ← dim_of shape[3]?
    let d1 ← dim_of shape[1]?
    let nnapi_shape : Shape := [d0, d2, d3, d1]
    let shaper1 ← Shaper.AddShape acc.1.shaper_ input.name nnapi_shape
    pure ({ acc.1 with shaper_ := shaper1 }, acc.2 ++ [⟨nnapi_shape, input.name⟩])

/-- The check after the walk that every expected output was seen. -/
def check_expected (binary_conv_outputs : List String) : List String → Except String Unit
  | [] => .ok ()
  | expected :: rest =>
    if binary_conv_outputs.contains expected then check_expected binary_conv_outputs rest
    else .error (expected ++
      " is in the list file but not in the ONNX model, please check your list file")

/-- What a successful `Convert` gives: the returned list, the converter it leaves, and the
model written to `filepath`. -/
structure Converted (F : Type) where
  binary_conv_outputs : List String
  self : OnnxConverter F
  filepath : String
  model : Model F

/-- The part of `Convert` before the walk over the nodes: the optimizer is run, the float
initializers are stored and the inputs of the graph are registered. -/
def OnnxConverter.Convert_prepare {F : Type} (env : Env F) (self : OnnxConverter F)
    (model_proto : ModelProto F) (level : Level) : Except String (Walk F) := do
  let self1 := { self with model_proto_ := env.Optimize model_proto (optimizers level) }
  let self2 := self1.model_proto_.graph.initializer.foldl (Convert_initializer env) self1
  let (self3, inputs) ← self2.model_proto_.graph.input.foldlM Convert_input (self2, [])
  pure ⟨self3, inputs, [], false⟩

/-- Embedding of `OnnxConverter::Convert`. -/
def OnnxConverter.Convert {F : Type} [LinearOrderedField F] (env : Env F)
    (self : OnnxConverter F) (model_proto : ModelProto F) (filepath : String) (level : Level)
    (expected_binary_conv_outputs : List String) : Except String (Converted F) := do
  let st0 ← self.Convert_prepare env model_proto level
  let st ← st0.self.model_proto_.graph.node.foldlM
    (Convert_node env expected_binary_conv_outputs) st0
  check_expected st.binary_conv_outputs expected_binary_conv_outputs
  pure ⟨st.binary_conv_outputs, st.self, filepath,
    ⟨st.self.layers_, st.self.tensors_, st.inputs, env.BNN_LATEST_MODEL_VERSION⟩⟩

/-! ## What the specification says about the result of `Convert` -/

/-- The output a node contributes to the returned list, in the words of the specification: the
`output(0)` of a Conv node whose domain is "dabnn" or whose `output(0)` occurs in the
expected-binary-conv list. -/
def binary_conv_output {F : Type} (expected_binary_conv_outputs : List String)
    (node : NodeProto F) : Option String :=
  if node.op_type == "Conv" then
    match node.output[0]? with
    | some out0 =>
      if node.domain == "dabnn" || expected_binary_conv_outputs.contains out0 then some out0
      else none
    | none => none
  else none

/-- The list `Convert` returns, in the words of the specification: the binary convolution
outputs in graph node order. -/
def binary_conv_outputs_of {F : Type} (expected_binary_conv_outputs : List String)
    (nodes : List (NodeProto F)) : List String :=
  nodes.filterMap (binary_conv_output expected_binary_conv_outputs)

/-- The shape registered for an input of the graph, in the words of the specification: the
`(N, C, H, W)` of the input read as `(N, H, W, C)`. -/
def input_nhwc_shape (input : ValueInfoProto) : Shape :=
  let nchw := input.dim.map (fun d => to_uint32 (d.getD 0))
  [nchw.getD 0 0, nchw.getD 2 0, nchw.getD 3 0, nchw.getD 1 0]

/-- The Input records of the model, in the words of the specification: one for every input of
the graph that is not a known operand, in the order of the graph. -/
def input_records (operands : List String) (inputs : List ValueInfoProto) : List Input :=
  (inputs.filter (fun input => !operands.contains input.name)).map
    (fun input => ⟨input_nhwc_shape input, input.name⟩)

/-! ## The reads of `OnnxConverter::bitpack` -/

/-- The two calls of `pack_64_bitset` that `bitpack` makes for the stride starting at `i` of
filter `n`: the index of the element of `ftensor.data` its pointer argument points at, and its
effective bit count. -/
def bitpack_stride_calls (HWC n i : Nat) : List (Nat × Nat) :=
  let eff_bits := min (HWC - i) 128
  [(n * HWC + i, min eff_bits 64),
   (n * HWC + i + 64, min (max 0 (size_t_sub eff_bits 64)) 64)]

/-- The calls of `pack_64_bitset` that `OnnxConverter::bitpack` makes, in order, each as the
index its pointer argument points at and its effective bit count (64 when the argument is left
out). It is `none` where `bitpack` is. -/
def bitpack_calls {F : Type} (ftensor : FTensor F) : Option (List (Nat × Nat)) :=
  match Shaper.kn ftensor.shape, Shaper.kc ftensor.shape,
    ftensor.shape[0]?, ftensor.shape[1]?, ftensor.shape[2]?, ftensor.shape[3]? with
  | some N, some C, some _, some _, some _, some _ =>
    if N = 0 then none
    else
      let HWC := Shaper.total ftensor.shape / N
      let align_hwc_to_128 := (C != 64)
      if align_hwc_to_128 then
        some ((FORZ N).flatMap (fun n =>
          (FORZS HWC 128).flatMap (fun i => bitpack_stride_calls HWC n i)))
      else
        some ((FORZS (Shaper.total ftensor.shape) 64).map (fun i => (i, 64)))
  | _, _, _, _, _, _ => none

/-- A call of `pack_64_bitset` with its pointer at index `call.1` and `call.2` effective bits
reads the elements `call.1, ..., call.1 + call.2 - 1`; they lie inside a buffer of `len`
elements when there is none or the last one does. -/
def call_in_range (len : Nat) (call : Nat × Nat) : Prop :=
  call.2 = 0 ∨ call.1 + call.2 ≤ len

instance (len : Nat) (call : Nat × Nat) : Decidable (call_in_range len call) :=
  inferInstanceAs (Decidable (call.2 = 0 ∨ call.1 + call.2 ≤ len))

/-- Modelled from the spec: `pack_64_bitset` of common/common_bitpack.h, which is not among the
sources, on a buffer with checked reads: position `i < eff_bits` reads `data[start + i]`, and
the result is `none` when one of these reads is past the end of `data`. -/
def pack_64_bitset_checked {F : Type} [Zero F] [LT F] [DecidableRel (fun (a b : F) => a < b)]
    (data : List F) (start eff_bits : Nat) : Option Nat :=
  ((List.range 64).mapM (fun i =>
    if i < eff_bits then (data[start + i]?).map (fun x => decide (0 < x)) else some false)).map
    packBits

/-- The words `bitpack` computes when every read is checked: the calls of `bitpack_calls` are
made on the buffer `ftensor.data`, and a read past its end gives `none`. -/
def bitpack_checked {F : Type} [Zero F] [LT F] [DecidableRel (fun (a b : F) => a < b)]
    (ftensor : FTensor F) : Option (List Nat) :=
  match bitpack_calls ftensor with
  | some calls => calls.mapM (fun call => pack_64_bitset_checked ftensor.data call.1 call.2)
  | none => none

/-! ## The member state across steps -/

/-- The converter `b` still holds what the converter `a` held: the same known operands, every
shape registered in `a`, and the layer and tensor records of `a` at the head of its own. -/
def OnnxConverter.keeps {F : Type} (a b : OnnxConverter F) : Prop :=
  b.operands_ = a.operands_ ∧
  (∀ k s, StrKeyMap.find a.shaper_ k = some s → StrKeyMap.find b.shaper_ k = some s) ∧
  List.IsPrefix a.layers_ b.layers_ ∧ List.IsPrefix a.tensors_ b.tensors_

/-! ## Verification -/

theorem testBit_packBits (bs : List Bool) (j : Nat) :
    (packBits bs).testBit j = bs.getD j false := by
  induction bs generalizing j with
  | nil => simp [packBits]
  | cons b bs ih =>
    cases j with
    | zero => simp [packBits, Nat.testBit_bit_zero]
    | succ j => simp [packBits, Nat.testBit_bit_succ, ih]

theorem testBit_pack_64_bitset {F : Type} [Zero F] [LT F]
    [DecidableRel (fun (a b : F) => a < b)] (fptr : Nat → F) (eff_bits j : Nat) :
    (pack_64_bitset fptr eff_bits).testBit j
      = (decide (j < 64) && (decide (j < eff_bits) && decide (0 < fptr j))) := by
  unfold pack_64_bitset
  rw [testBit_packBits]
  by_cases hj : j < 64
  · rw [List.getD_eq_getElem?_getD, List.getElem?_map, List.getElem?_range hj]
    by_cases he : j < eff_bits <;> simp [hj, he]
  · rw [List.getD_eq_getElem?_getD, List.getElem?_eq_none (by simpa using hj)]
    simp [hj]

theorem getElem?_flatMap_uniform {α β : Type} (f : α → List β) (c : Nat)
    (hf : ∀ x, (f x).length = c) (l : List α) (a b : Nat) (hb : b < c) :
    (l.flatMap f)[c * a + b]? = (l[a]?).bind (fun x => (f x)[b]?) := by
  induction l generalizing a with
  | nil => simp
  | cons x xs ih =>
    cases a with
    | zero =>
      simp only [List.flatMap_cons, Nat.mul_zero, Nat.zero_add, List.getElem?_cons_zero,
        Option.some_bind]
      exact List.getElem?_append_left (by rw [hf]; exact hb)
    | succ a =>
      simp only [List.flatMap_cons, List.getElem?_cons_succ]
      rw [List.getElem?_append_right (by rw [hf, Nat.mul_succ]; omega)]
      rw [hf, ← ih a]
      congr 1
      rw [Nat.mul_succ]; omega

theorem length_flatMap_uniform {α β : Type} (f : α → List β) (c : Nat)
    (hf : ∀ x, (f x).length = c) (l : List α) :
    (l.flatMap f).length = l.length * c := by
  induction l with
  | nil => simp
  | cons x xs ih => simp [List.flatMap_cons, ih, hf, Nat.succ_mul, Nat.add_comm]

theorem length_FORZS (n s : Nat) : (FORZS n s).length = (n + (s - 1)) / s := by
  simp [FORZS]

theorem getElem?_FORZS (n s k : Nat) (hk : k < (n + (s - 1)) / s) :
    (FORZS n s)[k]? = some (k * s) := by
  simp [FORZS, List.getElem?_map, List.getElem?_range hk]

theorem total_four (N H W C : Nat) : Shaper.total [N, H, W, C] = N * (H * W * C) := by
  simp [Shaper.total, Nat.mul_assoc]

theorem deref_eq {F : Type} (data : List F) (beyond : Nat → F) (k : Nat) (hk : k < data.length) :
    deref data beyond k = data[k] := by
  simp [deref, List.getElem?_eq_getElem hk]

theorem bitpack_aligned {F : Type} [Zero F] [LT F] [DecidableRel (fun (a b : F) => a < b)]
    (beyond : Nat → F) (data : List F) (N H W C : Nat) (al : Bool) (hN : 0 < N)
    (hC : C ≠ 64) :
    bitpack beyond ⟨data, [N, H, W, C], al⟩
      = some ⟨(FORZ N).flatMap (fun n =>
                (FORZS (H * W * C) 128).flatMap (fun i =>
                  bitpack_stride beyond data (H * W * C) n i)),
              [N, H, W, C], true⟩ := by
  have hdiv : Shaper.total [N, H, W, C] / N = H * W * C := by
    rw [total_four]; exact Nat.mul_div_cancel_left _ hN
  simp only [bitpack, Shaper.kn, Shaper.kc, List.getElem?_cons_zero, List.getElem?_cons_succ,
    hdiv]
  simp [Nat.pos_iff_ne_zero.mp hN, hC]

theorem bitpack_sequential {F : Type} [Zero F] [LT F] [DecidableRel (fun (a b : F) => a < b)]
    (beyond : Nat → F) (data : List F) (N H W : Nat) (al : Bool) (hN : 0 < N) :
    bitpack beyond ⟨data, [N, H, W, 64], al⟩
      = some ⟨(FORZS (Shaper.total [N, H, W, 64]) 64).map (fun i =>
                pack_64_bitset (fun j => deref data beyond (i + j)) 64),
              [N, H, W, 64], false⟩ := by
  simp only [bitpack, Shaper.kn, Shaper.kc, List.getElem?_cons_zero, List.getElem?_cons_succ]
  simp [Nat.pos_iff_ne_zero.mp hN]

theorem bitpack_stride_word {F : Type} [Zero F] [LT F] [DecidableRel (fun (a b : F) => a < b)]
    (beyond : Nat → F) (data : List F) (N H W C : Nat) (al : Bool) (hC : C ≠ 64)
    (n s b : Nat) (hn : n < N) (hs : 128 * s < H * W * C) (hb : b < 2) :
    ∃ r, bitpack beyond ⟨data, [N, H, W, C], al⟩ = some r ∧
      r.data[2 * (n * ((H * W * C + 127) / 128) + s) + b]?
        = (bitpack_stride beyond data (H * W * C) n (s * 128))[b]? := by
  refine ⟨_, bitpack_aligned beyond data N H W C al (by omega) hC, ?_⟩
  have hS : s < (H * W * C + (128 - 1)) / 128 := by
    omega
  have hinner : ∀ n, ((FORZS (H * W * C) 128).flatMap (fun i =>
      bitpack_stride beyond data (H * W * C) n i)).length
        = 2 * ((H * W * C + 127) / 128) := by
    intro n
    rw [length_flatMap_uniform (fun i => bitpack_stride beyond data (H * W * C) n i) 2
      (fun _ => rfl), length_FORZS]; omega
  have hidx : 2 * (n * ((H * W * C + 127) / 128) + s) + b
      = (2 * ((H * W * C + 127) / 128)) * n + (2 * s + b) := by ring
  show ((FORZ N).flatMap _)[_]? = _
  rw [hidx, getElem?_flatMap_uniform _ _ hinner _ _ _ (by
    have : s < (H * W * C + 127) / 128 := hS
    omega)]
  simp only [FORZ, List.getElem?_range hn, Option.some_bind]
  rw [getElem?_flatMap_uniform (fun i => bitpack_stride beyond data (H * W * C) n i) 2
    (fun _ => rfl) _ _ _ hb, getElem?_FORZS _ _ _ hS]
  rfl

theorem filter_index_lt (N K n q : Nat) (hn : n < N) (hq : q < K) : n * K + q < N * K := by
  have h : (n + 1) * K ≤ N * K := Nat.mul_le_mul_right K hn
  rw [Nat.succ_mul] at h
  omega

/-- C2: in the aligned layout the first word of the stride starting at `i = 128 s` of filter
`n` has bit `j` set exactly when `j < min eff 64` and `data[n * HWC + i + j] > 0`, with
`eff = min (HWC - i) 128`; every other bit, in particular every bit at a position from
`min eff 64` on, is zero. -/
theorem bitpack_first_word {F : Type} [Zero F] [LT F] [DecidableRel (fun (a b : F) => a < b)]
    (beyond : Nat → F) (data : List F) (N H W C : Nat) (al : Bool) (hC : C ≠ 64)
    (hlen : data.length = N * H * W * C) (n s : Nat) (hn : n < N)
    (hs : 128 * s < H * W * C) :
    ∃ r w, bitpack beyond ⟨data, [N, H, W, C], al⟩ = some r ∧
      r.data[2 * (n * ((H * W * C + 127) / 128) + s)]? = some w ∧
      ∀ j, (w.testBit j = true ↔
        (j < min (min (H * W * C - 128 * s) 128) 64 ∧
          ∃ x, data[n * (H * W * C) + 128 * s + j]? = some x ∧ 0 < x)) := by
  obtain ⟨r, hr, hw⟩ := bitpack_stride_word beyond data N H W C al hC n s 0 hn hs (by norm_num)
  refine ⟨r, pack_64_bitset (fun j => deref data beyond (n * (H * W * C) + s * 128 + j))
    (min (min (H * W * C - s * 128) 128) 64), hr, by simpa [bitpack_stride] using hw, ?_⟩
  intro j
  rw [testBit_pack_64_bitset, show s * 128 = 128 * s by omega]
  have hlen2 : data.length = N * (H * W * C) := by rw [hlen]; ring
  generalize H * W * C = K at hs hlen2 ⊢
  by_cases hj : j < min (min (K - 128 * s) 128) 64
  · have hidx : n * K + 128 * s + j < data.length := by
      have := filter_index_lt N K n (128 * s + j) hn (by omega)
      omega
    have hd : deref data beyond (n * K + 128 * s + j) = data[n * K + 128 * s + j] := by
      exact deref_eq data beyond _ hidx
    have hj64 : j < 64 := by omega
    simp [hj, hj64, hd, List.getElem?_eq_getElem hidx]
  · have hj2 : ¬ (j < K - 128 * s ∧ j < 64) := by omega
    simp [hj, hj2]

/-- C3: for `C = 64` the packer returns `product(shape) / 64` words with
`align_hwc_to_128 = false`; bit `j` of word `k` is set exactly when `data[64 k + j] > 0`, and
reading the words back bit by bit gives the sign pattern of the floats. -/
theorem bitpack_c64_round_trip {F : Type} [Zero F] [LT F]
    [DecidableRel (fun (a b : F) => a < b)]
    (beyond : Nat → F) (data : List F) (N H W : Nat) (al : Bool) (hN : 0 < N)
    (hlen : data.length = N * H * W * 64) :
    ∃ r, bitpack beyond ⟨data, [N, H, W, 64], al⟩ = some r ∧
      r.data.length = (N * H * W * 64) / 64 ∧
      r.align_hwc_to_128 = false ∧
      (∀ k j, k < r.data.length → j < 64 →
        ∃ w x, r.data[k]? = some w ∧ data[64 * k + j]? = some x ∧
          (w.testBit j = true ↔ 0 < x)) ∧
      unpack_bits r.data = data.map (fun x => decide (0 < x)) := by
  refine ⟨_, bitpack_sequential beyond data N H W al hN, ?_⟩
  have htot : Shaper.total [N, H, W, 64] = (N * H * W) * 64 := by
    rw [total_four]; ring
  rw [htot]
  generalize N * H * W = M at hlen ⊢
  have hcnt : (M * 64 + (64 - 1)) / 64 = M := by omega
  have hword : ∀ k, k < M →
      ((FORZS (M * 64) 64).map (fun i =>
        pack_64_bitset (fun j => deref data beyond (i + j)) 64))[k]?
        = some (pack_64_bitset (fun j => deref data beyond (k * 64 + j)) 64) := by
    intro k hk
    rw [List.getElem?_map, getElem?_FORZS _ _ _ (by rw [hcnt]; exact hk)]
    rfl
  have hl : ((FORZS (M * 64) 64).map (fun i =>
        pack_64_bitset (fun j => deref data beyond (i + j)) 64)).length = M := by
    rw [List.length_map, length_FORZS, hcnt]
  refine ⟨by rw [hl]; omega, rfl, ?_, ?_⟩
  · intro k j hk hj
    have hk' : k < M := by simpa [hl] using hk
    have hidx : 64 * k + j < data.length := by omega
    refine ⟨_, data[64 * k + j], hword k hk', List.getElem?_eq_getElem hidx, ?_⟩
    rw [testBit_pack_64_bitset]
    have hd : deref data beyond (k * 64 + j) = data[64 * k + j] := by
      rw [show k * 64 + j = 64 * k + j by omega]
      exact deref_eq data beyond _ hidx
    simp [hj, hd]
  · apply List.ext_getElem?
    intro q
    obtain ⟨a, b, hb, rfl⟩ : ∃ a b, b < 64 ∧ q = 64 * a + b :=
      ⟨q / 64, q % 64, Nat.mod_lt _ (by norm_num), (Nat.div_add_mod q 64).symm⟩
    show (List.flatMap _ _)[64 * a + b]? = _
    rw [getElem?_flatMap_uniform (fun (w : Nat) => (List.range 64).map (fun j => w.testBit j))
      64 (fun _ => by simp) _ _ _ hb]
    by_cases hk : a < M
    · have hidx : 64 * a + b < data.length := by omega
      rw [hword _ hk]
      simp only [Option.some_bind, List.getElem?_map, List.getElem?_range hb, Option.map_some']
      rw [testBit_pack_64_bitset, List.getElem?_eq_getElem hidx]
      have hd : deref data beyond (a * 64 + b) = data[64 * a + b] := by
        rw [show a * 64 + b = 64 * a + b by omega]
        exact deref_eq data beyond _ hidx
      simp [hb, hd]
    · have hidx : data.length ≤ 64 * a + b := by omega
      rw [List.getElem?_eq_none (by rw [hl]; omega)]
      simp [List.getElem?_eq_none hidx]

/-- C4: the tensor returned by `bitpack` keeps the input shape, has
`align_hwc_to_128 = (C != 64)`, holds `product(shape) / 64` words when the flag is false and
`N * 2 * ceil(HWC / 128)` words when it is true. -/
theorem bitpack_invariant {F : Type} [Zero F] [LT F] [DecidableRel (fun (a b : F) => a < b)]
    (beyond : Nat → F) (data : List F) (N H W C : Nat) (al : Bool) (hN : 0 < N) :
    ∃ r, bitpack beyond ⟨data, [N, H, W, C], al⟩ = some r ∧
      r.shape = [N, H, W, C] ∧
      r.align_hwc_to_128 = (C != 64) ∧
      (r.align_hwc_to_128 = false →
        r.data.length = (N * H * W * C) / 64 ∧ r.data.length * 64 = N * H * W * C) ∧
      (r.align_hwc_to_128 = true →
        r.data.length = N * (2 * ((H * W * C + 127) / 128))) := by
  by_cases hC : C = 64
  · subst hC
    refine ⟨_, bitpack_sequential beyond data N H W al hN, rfl, by simp, ?_, by simp⟩
    intro _
    have htot : Shaper.total [N, H, W, 64] = (N * H * W) * 64 := by
      rw [total_four]; ring
    simp only [List.length_map, length_FORZS, htot]
    generalize N * H * W = M
    omega
  · refine ⟨_, bitpack_aligned beyond data N H W C al hN hC, rfl, by simp [hC], by simp, ?_⟩
    intro _
    show (List.flatMap _ _).length = _
    rw [length_flatMap_uniform (fun n => (FORZS (H * W * C) 128).flatMap (fun i =>
        bitpack_stride beyond data (H * W * C) n i)) (2 * ((H * W * C + 127) / 128))]
    · simp [FORZ]
    · intro n
      rw [length_flatMap_uniform (fun i => bitpack_stride beyond data (H * W * C) n i) 2
        (fun _ => rfl), length_FORZS]
      omega

theorem pack_64_bitset_congr {F : Type} [Zero F] [LT F] [DecidableRel (fun (a b : F) => a < b)]
    (f g : Nat → F) (eff_bits : Nat) (h : ∀ j, j < 64 → f j = g j) :
    pack_64_bitset f eff_bits = pack_64_bitset g eff_bits := by
  unfold pack_64_bitset
  congr 1
  apply List.map_congr_left
  intro i hi
  rw [h i (List.mem_range.mp hi)]

/-- C1: the second word of a stride with `eff < 64`, evaluated on the code. For five filters
of shape `3 x 3 x 3` (`HWC = 27`), all values positive, the second word of filter 0 is
`2 ^ 64 - 1`: the `size_t` difference `eff_bits - 64` wraps, so 64 bits are packed from
positions `[64, 128)`, which belong to filters 2 to 4. For a single such filter those
positions lie past the buffer and the word is whatever the memory there gives. -/
theorem bitpack_second_word_short_stride :
    (∀ beyond : Nat → Int,
      ∃ r, bitpack beyond ⟨List.replicate 135 1, [5, 3, 3, 3], false⟩ = some r ∧
        r.data[1]? = some (2 ^ 64 - 1)) ∧
    (bitpack (fun _ => (1 : Int)) ⟨List.replicate 27 1, [1, 3, 3, 3], false⟩).map
        (fun r => r.data) = some [2 ^ 27 - 1, 2 ^ 64 - 1] ∧
    min (max 0 (size_t_sub (min (27 - 0) 128) 64)) 64 = 64 := by
  refine ⟨?_, by set_option maxRecDepth 100000 in decide, by decide⟩
  intro beyond
  obtain ⟨r, hr, hw⟩ := bitpack_stride_word beyond (List.replicate 135 (1 : Int)) 5 3 3 3
    false (by decide) 0 0 1 (by decide) (by decide) (by decide)
  refine ⟨r, hr, ?_⟩
  have hidx : 2 * (0 * ((3 * 3 * 3 + 127) / 128) + 0) + 1 = 1 := by decide
  have hstride : (bitpack_stride beyond (List.replicate 135 (1 : Int)) (3 * 3 * 3) 0 (0 * 128))[1]?
      = some (pack_64_bitset
          (fun j => deref (List.replicate 135 (1 : Int)) beyond (0 * (3 * 3 * 3) + 0 * 128 + 64 + j))
          (min (max 0 (size_t_sub (min (3 * 3 * 3 - 0 * 128) 128) 64)) 64)) := rfl
  have heff : min (max 0 (size_t_sub (min (3 * 3 * 3 - 0 * 128) 128) 64)) 64 = 64 := by decide
  have hpack : pack_64_bitset
      (fun j => deref (List.replicate 135 (1 : Int)) beyond (0 * (3 * 3 * 3) + 0 * 128 + 64 + j))
      64 = 2 ^ 64 - 1 := by
    rw [pack_64_bitset_congr _ (fun _ => (1 : Int)) _ (fun j hj => by
      rw [deref_eq _ _ _ (by rw [List.length_replicate]; omega), List.getElem_replicate])]
    set_option maxRecDepth 100000 in decide
  rw [hidx, hstride, heff, hpack] at hw
  exact hw

set_option maxRecDepth 100000 in
/-- Witness of C2: shape `(1,3,3,3)`, all values positive; the first word is `2 ^ 27 - 1`. -/
theorem bitpack_first_word_witness :
    (∃ r w, bitpack (fun _ => (0 : Int)) ⟨List.replicate 27 1, [1, 3, 3, 3], false⟩ = some r ∧
      r.data[2 * (0 * ((3 * 3 * 3 + 127) / 128) + 0)]? = some w ∧
      ∀ j, (w.testBit j = true ↔
        (j < min (min (3 * 3 * 3 - 128 * 0) 128) 64 ∧
          ∃ x, (List.replicate 27 (1 : Int))[0 * (3 * 3 * 3) + 128 * 0 + j]? = some x ∧ 0 < x))) ∧
    (bitpack (fun _ => (0 : Int)) ⟨List.replicate 27 1, [1, 3, 3, 3], false⟩).map
      (fun r => r.data[0]?) = some (some (2 ^ 27 - 1)) :=
  ⟨bitpack_first_word (fun _ => (0 : Int)) (List.replicate 27 1) 1 3 3 3 false (by decide)
    (by decide) 0 0 (by decide) (by decide), by decide⟩

set_option maxRecDepth 100000 in
/-- Witness of C3: shape `(1,1,1,64)`, `+1` at even and `-1` at odd indices; the single word
is `0x5555555555555555`. -/
theorem bitpack_c64_round_trip_witness :
    (∃ r, bitpack (fun _ => (0 : Int))
        ⟨(List.range 64).map (fun k => if k % 2 = 0 then 1 else -1), [1, 1, 1, 64], false⟩
          = some r ∧
      r.data.length = (1 * 1 * 1 * 64) / 64 ∧
      r.align_hwc_to_128 = false ∧
      (∀ k j, k < r.data.length → j < 64 →
        ∃ w x, r.data[k]? = some w ∧
          ((List.range 64).map (fun k => if k % 2 = 0 then (1 : Int) else -1))[64 * k + j]?
            = some x ∧
          (w.testBit j = true ↔ 0 < x)) ∧
      unpack_bits r.data
        = ((List.range 64).map (fun k => if k % 2 = 0 then (1 : Int) else -1)).map
            (fun x => decide (0 < x))) ∧
    bitpack (fun _ => (0 : Int))
        ⟨(List.range 64).map (fun k => if k % 2 = 0 then 1 else -1), [1, 1, 1, 64], false⟩
      = some ⟨[0x5555555555555555], [1, 1, 1, 64], false⟩ :=
  ⟨bitpack_c64_round_trip (fun _ => (0 : Int))
    ((List.range 64).map (fun k => if k % 2 = 0 then 1 else -1)) 1 1 1 false (by decide)
    (by decide), by decide⟩

set_option maxRecDepth 100000 in
/-- Witness of C4: shape `(1,3,3,3)` gives two words and the flag set. -/
theorem bitpack_invariant_witness :
    ∃ r, bitpack (fun _ => (0 : Int)) ⟨List.replicate 27 1, [1, 3, 3, 3], false⟩ = some r ∧
      r.shape = [1, 3, 3, 3] ∧
      r.align_hwc_to_128 = ((3 : Nat) != 64) ∧
      (r.align_hwc_to_128 = false →
        r.data.length = (1 * 3 * 3 * 3) / 64 ∧ r.data.length * 64 = 1 * 3 * 3 * 3) ∧
      (r.align_hwc_to_128 = true →
        r.data.length = 1 * (2 * ((3 * 3 * 3 + 127) / 128))) :=
  bitpack_invariant (fun _ => (0 : Int)) (List.replicate 27 1) 1 3 3 3 false (by decide)

/-! ### String-keyed maps, loops and 32-bit integers -/

theorem lookup_filter_ne {V : Type} (m : StrKeyMap V) (key key2 : String) (h : key2 ≠ key) :
    List.lookup key2 (m.filter (fun e => e.1 != key)) = List.lookup key2 m := by
  induction m with
  | nil => rfl
  | cons e rest ih =>
    obtain ⟨k, v⟩ := e
    by_cases hk : k = key
    · subst hk
      have hne : (key2 == k) = false := by simpa using h
      simp [List.filter_cons, List.lookup_cons, hne, ih]
    · have hk2 : (k != key) = true := by simpa using hk
      simp only [List.filter_cons, hk2, if_true, List.lookup_cons, ih]

theorem find_set_self {V : Type} (m : StrKeyMap V) (key : String) (v : V) :
    StrKeyMap.find (StrKeyMap.set m key v) key = some v := by
  simp [StrKeyMap.find, StrKeyMap.set, List.lookup_cons]

theorem find_set_ne {V : Type} (m : StrKeyMap V) (key key2 : String) (v : V) (h : key2 ≠ key) :
    StrKeyMap.find (StrKeyMap.set m key v) key2 = StrKeyMap.find m key2 := by
  have hne : (key2 == key) = false := by simpa using h
  simp only [StrKeyMap.find, StrKeyMap.set, List.lookup_cons, hne]
  exact lookup_filter_ne m key key2 h

theorem at_of_find {V : Type} (m : StrKeyMap V) (key : String) (v : V)
    (h : StrKeyMap.find m key = some v) : StrKeyMap.at_ m key = .ok v := by
  simp [StrKeyMap.at_, h]

theorem index_of_find {V : Type} (m : StrKeyMap V) (key : String) (v dflt : V)
    (h : StrKeyMap.find m key = some v) : StrKeyMap.index m key dflt = (v, m) := by
  simp [StrKeyMap.index, h]

theorem append_suffix_ne (s : String) : s ++ "_a" ≠ s ++ "_b" := by
  intro h
  have h2 := congrArg String.data h
  simp only [String.data_append, List.append_cancel_left_eq] at h2
  exact absurd h2 (by decide)

theorem mapM_ok {α β : Type} (f : α → Except String β) (g : α → β) (l : List α)
    (h : ∀ x, x ∈ l → f x = .ok (g x)) : l.mapM f = .ok (l.map g) := by
  induction l with
  | nil => rfl
  | cons x xs ih =>
    rw [List.mapM_cons, h x (List.mem_cons_self x xs),
      ih (fun y hy => h y (List.mem_cons_of_mem x hy))]
    rfl

theorem mapM_FORZ_ok {β : Type} (f : Nat → Except String β) (g : Nat → β) (n : Nat)
    (h : ∀ i, i < n → f i = .ok (g i)) : (FORZ n).mapM f = .ok ((FORZ n).map g) :=
  mapM_ok f g (FORZ n) (fun i hi => h i (List.mem_range.mp hi))

theorem getElem?_map_FORZ {β : Type} (g : Nat → β) (n i : Nat) (hi : i < n) :
    ((FORZ n).map g)[i]? = some (g i) := by
  simp [FORZ, List.getElem?_map, List.getElem?_range hi]

theorem getElem?_eq_some_getD {α : Type} (l : List α) (i : Nat) (d : α) (h : i < l.length) :
    l[i]? = some (l.getD i d) := by
  simp [List.getD_eq_getElem?_getD, List.getElem?_eq_getElem h]

theorem float_at_ok {F : Type} (v : List F) (k : Nat) (x : F) (h : v[k]? = some x) :
    float_at v k = .ok x := by
  simp [float_at, h]

theorem input_at_ok {F : Type} (node : NodeProto F) (k : Nat) (s : String)
    (h : node.input[k]? = some s) : node.input_at k = .ok s := by
  simp [NodeProto.input_at, h]

theorem output_at_ok {F : Type} (node : NodeProto F) (k : Nat) (s : String)
    (h : node.output[k]? = some s) : node.output_at k = .ok s := by
  simp [NodeProto.output_at, h]

theorem to_int32_of_modEq (a z : Int) (h : a % 2 ^ 32 = z % 2 ^ 32) (h0 : 0 ≤ z)
    (h1 : z < 2 ^ 31) : to_int32 a = z := by
  unfold to_int32
  have e : (a + 2 ^ 31) % 2 ^ 32 = (z + 2 ^ 31) % 2 ^ 32 := by
    rw [Int.add_emod, h, ← Int.add_emod]
  rw [e, Int.emod_eq_of_lt (by omega) (by omega)]
  omega

theorem to_int32_emod (a : Int) : to_int32 a % 2 ^ 32 = a % 2 ^ 32 := by
  unfold to_int32
  omega

theorem to_int32_product (c w h : Nat) (hk : c * w * h < 2 ^ 31) :
    to_int32 (to_int32 (to_int32 c * to_int32 w) * to_int32 h) = ((c * w * h : Nat) : Int) := by
  have ec : to_int32 c ≡ c [ZMOD 2 ^ 32] := to_int32_emod c
  have ew : to_int32 w ≡ w [ZMOD 2 ^ 32] := to_int32_emod w
  have eh : to_int32 h ≡ h [ZMOD 2 ^ 32] := to_int32_emod h
  have ecw : to_int32 (to_int32 c * to_int32 w) ≡ (c : Int) * w [ZMOD 2 ^ 32] :=
    (show _ ≡ _ [ZMOD 2 ^ 32] from to_int32_emod _).trans (ec.mul ew)
  have e : to_int32 (to_int32 c * to_int32 w) * to_int32 h
      ≡ ((c * w * h : Nat) : Int) [ZMOD 2 ^ 32] := by
    push_cast
    exact ecw.mul eh
  exact to_int32_of_modEq _ _ e (Int.natCast_nonneg _) (by exact_mod_cast hk)

theorem getD_map_FORZ {β : Type} (g : Nat → β) (n i : Nat) (d : β) (hi : i < n) :
    ((FORZ n).map g).getD i d = g i := by
  rw [List.getD_eq_getElem?_getD, getElem?_map_FORZ g n i hi]
  rfl

/-! ### `CalculateCoeff` -/

theorem CalculateCoeff_channel_ok {F : Type} [Field F] (sqrt : F → F) (eps : F)
    (scale b mean var : FTensor F) (i : Nat) (hs : i < scale.data.length)
    (hb : i < b.data.length) (hm : i < mean.data.length) (hv : i < var.data.length) :
    CalculateCoeff_channel sqrt eps scale b mean var i
      = .ok (scale.data.getD i 0 / sqrt (var.data.getD i 0 + eps),
             b.data.getD i 0 - scale.data.getD i 0 * mean.data.getD i 0
               / sqrt (var.data.getD i 0 + eps)) := by
  unfold CalculateCoeff_channel
  rw [float_at_ok var.data i _ (List.getElem?_eq_getElem hv),
    float_at_ok scale.data i _ (List.getElem?_eq_getElem hs),
    float_at_ok b.data i _ (List.getElem?_eq_getElem hb),
    float_at_ok mean.data i _ (List.getElem?_eq_getElem hm)]
  simp [List.getD_eq_getElem?_getD, List.getElem?_eq_getElem, hs, hb, hm, hv, bind,
    Except.bind, pure, Except.pure]

theorem CalculateCoeff_fuse_skip {F : Type} [Field F] (input0 : String) (acc : Coeff F)
    (node2 : NodeProto F)
    (h : node2.domain = "dabnn" → node2.op_type = "Conv" →
      ∃ o, node2.output[0]? = some o ∧ o ≠ input0) :
    CalculateCoeff_fuse input0 acc node2 = .ok acc := by
  unfold CalculateCoeff_fuse
  by_cases hd : node2.domain = "dabnn"
  · by_cases ho : node2.op_type = "Conv"
    · obtain ⟨o, ho1, ho2⟩ := h hd ho
      simp [hd, ho, output_at_ok node2 0 o ho1, ho2, bind, Except.bind, pure, Except.pure]
    · simp [hd, ho, pure, Except.pure]
  · simp [hd, pure, Except.pure]

theorem foldlM_fuse_skip {F : Type} [Field F] (input0 : String) (nodes : List (NodeProto F))
    (acc : Coeff F)
    (h : ∀ node2, node2 ∈ nodes → node2.domain = "dabnn" → node2.op_type = "Conv" →
      ∃ o, node2.output[0]? = some o ∧ o ≠ input0) :
    nodes.foldlM (CalculateCoeff_fuse input0) acc = .ok acc := by
  induction nodes with
  | nil => rfl
  | cons node2 rest ih =>
    rw [List.foldlM_cons, CalculateCoeff_fuse_skip input0 acc node2
      (h node2 (List.mem_cons_self _ _))]
    exact ih (fun n2 hn => h n2 (List.mem_cons_of_mem _ hn))

theorem CalculateCoeff_eq {F : Type} [Field F] (sqrt : F → F) (self : OnnxConverter F)
    (node : NodeProto F) (coeff_a_name coeff_b_name x scale_name b_name mean_name var_name : String)
    (rest : List String) (scale b mean var : FTensor F) (acc : Coeff F)
    (hin : node.input = x :: scale_name :: b_name :: mean_name :: var_name :: rest)
    (hscale : StrKeyMap.find self.onnx_float_tensors_ scale_name = some scale)
    (hb : StrKeyMap.find self.onnx_float_tensors_ b_name = some b)
    (hmean : StrKeyMap.find self.onnx_float_tensors_ mean_name = some mean)
    (hvar : StrKeyMap.find self.onnx_float_tensors_ var_name = some var)
    (hlb : scale.data.length ≤ b.data.length)
    (hlm : scale.data.length ≤ mean.data.length)
    (hlv : scale.data.length ≤ var.data.length)
    (hfold : self.model_proto_.graph.node.foldlM (CalculateCoeff_fuse x)
      ⟨(FORZ scale.data.length).map (fun i => scale.data.getD i 0
          / sqrt (var.data.getD i 0 + NodeAttrHelper.get_float node "eps" (1 / 100000))),
        (FORZ scale.data.length).map (fun i => b.data.getD i 0
          - scale.data.getD i 0 * mean.data.getD i 0
            / sqrt (var.data.getD i 0 + NodeAttrHelper.get_float node "eps" (1 / 100000))),
        self.onnx_float_tensors_⟩ = .ok acc) :
    self.CalculateCoeff sqrt node coeff_a_name coeff_b_name
      = .ok { self with onnx_float_tensors_ :=
          (StrKeyMap.set (StrKeyMap.set acc.onnx_float_tensors_ coeff_a_name
            ⟨acc.coeff_a_data, [acc.coeff_a_data.length % 2 ^ 32], false⟩) coeff_b_name
            ⟨acc.coeff_b_data, [acc.coeff_b_data.length % 2 ^ 32], false⟩) } := by
  have hmap := mapM_FORZ_ok
    (CalculateCoeff_channel sqrt (NodeAttrHelper.get_float node "eps" (1 / 100000))
      scale b mean var) _ scale.data.length
    (fun i hi => CalculateCoeff_channel_ok sqrt _ scale b mean var i hi (by omega) (by omega)
      (by omega))
  unfold OnnxConverter.CalculateCoeff
  simp only [input_at_ok node 0 x (by rw [hin]; simp),
    input_at_ok node 1 scale_name (by rw [hin]; simp),
    input_at_ok node 2 b_name (by rw [hin]; simp),
    input_at_ok node 3 mean_name (by rw [hin]; simp),
    input_at_ok node 4 var_name (by rw [hin]; simp),
    at_of_find _ _ _ hscale, at_of_find _ _ _ hb, at_of_find _ _ _ hmean,
    at_of_find _ _ _ hvar, hmap, bind, Except.bind, pure, Except.pure, List.map_map]
  simp only [Function.comp_def, hfold]

/-- C7: plain folding. For a BatchNormalization node whose input is not the output of a Conv
node with domain "dabnn", `CalculateCoeff` stores under `out ++ "_a"` and `out ++ "_b"` two
tensors of shape `[n]`, `n = len(scale)`, with `a[i] = scale[i] / sqrt(var[i] + eps)` and
`b[i] = bias[i] - scale[i] * mean[i] / sqrt(var[i] + eps)`, where `eps` is the attribute `eps`
of the node and `1e-5` when the node has none. -/
theorem CalculateCoeff_plain {F : Type} [Field F] (sqrt : F → F) (self : OnnxConverter F)
    (node : NodeProto F) (out x scale_name b_name mean_name var_name : String)
    (rest : List String) (scale b mean var : FTensor F)
    (hin : node.input = x :: scale_name :: b_name :: mean_name :: var_name :: rest)
    (hscale : StrKeyMap.find self.onnx_float_tensors_ scale_name = some scale)
    (hb : StrKeyMap.find self.onnx_float_tensors_ b_name = some b)
    (hmean : StrKeyMap.find self.onnx_float_tensors_ mean_name = some mean)
    (hvar : StrKeyMap.find self.onnx_float_tensors_ var_name = some var)
    (hlb : scale.data.length ≤ b.data.length)
    (hlm : scale.data.length ≤ mean.data.length)
    (hlv : scale.data.length ≤ var.data.length)
    (hn : scale.data.length < 2 ^ 32)
    (hplain : ∀ node2, node2 ∈ self.model_proto_.graph.node → node2.domain = "dabnn" →
      node2.op_type = "Conv" → ∃ o, node2.output[0]? = some o ∧ o ≠ x) :
    ∃ self1 A B, self.CalculateCoeff sqrt node (out ++ "_a") (out ++ "_b") = .ok self1 ∧
      StrKeyMap.find self1.onnx_float_tensors_ (out ++ "_a") = some A ∧
      StrKeyMap.find self1.onnx_float_tensors_ (out ++ "_b") = some B ∧
      A.shape = [scale.data.length] ∧ B.shape = [scale.data.length] ∧
      A.data.length = scale.data.length ∧ B.data.length = scale.data.length ∧
      ∀ i, i < scale.data.length →
        ∃ s bi m v, scale.data[i]? = some s ∧ b.data[i]? = some bi ∧
          mean.data[i]? = some m ∧ var.data[i]? = some v ∧
          A.data[i]? = some (s / sqrt (v + NodeAttrHelper.get_float node "eps" (1 / 100000))) ∧
          B.data[i]? = some (bi - s * m
            / sqrt (v + NodeAttrHelper.get_float node "eps" (1 / 100000))) := by
  have hfold := foldlM_fuse_skip x self.model_proto_.graph.node
    ⟨(FORZ scale.data.length).map (fun i => scale.data.getD i 0
        / sqrt (var.data.getD i 0 + NodeAttrHelper.get_float node "eps" (1 / 100000))),
      (FORZ scale.data.length).map (fun i => b.data.getD i 0
        - scale.data.getD i 0 * mean.data.getD i 0
          / sqrt (var.data.getD i 0 + NodeAttrHelper.get_float node "eps" (1 / 100000))),
      self.onnx_float_tensors_⟩ hplain
  have hmod : scale.data.length % 2 ^ 32 = scale.data.length := Nat.mod_eq_of_lt hn
  refine ⟨_,
    ⟨(FORZ scale.data.length).map (fun i => scale.data.getD i 0
        / sqrt (var.data.getD i 0 + NodeAttrHelper.get_float node "eps" (1 / 100000))),
      [((FORZ scale.data.length).map (fun i => scale.data.getD i 0
        / sqrt (var.data.getD i 0 + NodeAttrHelper.get_float node "eps" (1 / 100000)))).length
        % 2 ^ 32], false⟩,
    ⟨(FORZ scale.data.length).map (fun i => b.data.getD i 0
        - scale.data.getD i 0 * mean.data.getD i 0
          / sqrt (var.data.getD i 0 + NodeAttrHelper.get_float node "eps" (1 / 100000))),
      [((FORZ scale.data.length).map (fun i => b.data.getD i 0
        - scale.data.getD i 0 * mean.data.getD i 0
          / sqrt (var.data.getD i 0 + NodeAttrHelper.get_float node "eps" (1 / 100000)))).length
        % 2 ^ 32], false⟩,
    CalculateCoeff_eq sqrt self node _ _ x scale_name b_name mean_name var_name
      rest scale b mean var _ hin hscale hb hmean hvar hlb hlm hlv hfold, ?_,
    find_set_self _ _ _, ?_, ?_, ?_, ?_, ?_⟩
  · show StrKeyMap.find (StrKeyMap.set _ _ _) _ = _
    rw [find_set_ne _ _ _ _ (append_suffix_ne out), find_set_self]
  · show [_ % 2 ^ 32] = _
    rw [List.length_map, FORZ, List.length_range, hmod]
  · show [_ % 2 ^ 32] = _
    rw [List.length_map, FORZ, List.length_range, hmod]
  · simp [FORZ]
  · simp [FORZ]
  · intro i hi
    exact ⟨scale.data.getD i 0, b.data.getD i 0, mean.data.getD i 0, var.data.getD i 0,
      getElem?_eq_some_getD _ i 0 hi, getElem?_eq_some_getD _ i 0 (by omega),
      getElem?_eq_some_getD _ i 0 (by omega), getElem?_eq_some_getD _ i 0 (by omega),
      getElem?_map_FORZ _ _ i hi, getElem?_map_FORZ _ _ i hi⟩

theorem CalculateCoeff_fuse_conv {F : Type} [Field F] (x : String) (acc : Coeff F)
    (conv : NodeProto F) (x0 w : String) (weight : FTensor F) (N C_in kH kW : Nat)
    (bias : Option (String × FTensor F))
    (hd : conv.domain = "dabnn") (hop : conv.op_type = "Conv")
    (hout : conv.output[0]? = some x)
    (hcin : conv.input = x0 :: w :: (bias.map (fun p => p.1)).toList)
    (hweight : StrKeyMap.find acc.onnx_float_tensors_ w = some weight)
    (hshape : weight.shape = [N, C_in, kH, kW])
    (hK : C_in * kH * kW < 2 ^ 31)
    (hlen : acc.coeff_b_data.length = acc.coeff_a_data.length)
    (hbias : ∀ p, bias = some p →
      StrKeyMap.find acc.onnx_float_tensors_ p.1 = some p.2 ∧
        acc.coeff_a_data.length ≤ p.2.data.length) :
    CalculateCoeff_fuse x acc conv
      = .ok ⟨acc.coeff_a_data.map (fun a_i => a_i * (-2)),
          (FORZ acc.coeff_a_data.length).map (fun i =>
            acc.coeff_b_data.getD i 0 + ((C_in * kH * kW : Nat) : F) * acc.coeff_a_data.getD i 0
              + (match bias with
                 | none => 0
                 | some p => acc.coeff_a_data.getD i 0 * p.2.data.getD i 0)),
          acc.onnx_float_tensors_⟩ := by
  have hk : to_int32 (to_int32 (to_int32 C_in * to_int32 kW) * to_int32 kH)
      = ((C_in * kH * kW : Nat) : Int) := by
    rw [to_int32_product C_in kW kH (by rw [Nat.mul_right_comm]; exact hK), Nat.mul_right_comm]
  have hb1 := mapM_FORZ_ok
      (CalculateCoeff_size ((C_in * kH * kW : Nat) : Int) acc.coeff_a_data acc.coeff_b_data)
      (fun i => acc.coeff_b_data.getD i 0
        + ((C_in * kH * kW : Nat) : F) * acc.coeff_a_data.getD i 0) acc.coeff_b_data.length
      (fun i hi => by
        unfold CalculateCoeff_size
        rw [float_at_ok _ i _ (getElem?_eq_some_getD acc.coeff_b_data i 0 hi),
          float_at_ok _ i _ (getElem?_eq_some_getD acc.coeff_a_data i 0 (by omega))]
        simp [bind, Except.bind, pure, Except.pure])
  unfold CalculateCoeff_fuse
  simp only [hd, hop, beq_self_eq_true, Bool.and_self, if_true,
    output_at_ok conv 0 x hout, input_at_ok conv 1 w (by rw [hcin]; simp),
    index_of_find _ _ _ _ hweight, hshape, Shaper.onnx_kc, Shaper.onnx_kw, Shaper.onnx_kh,
    List.getElem?_cons_succ, List.getElem?_cons_zero, dim_of, hk, hb1,
    bind, Except.bind, pure, Except.pure]
  cases bias with
  | none =>
    have hl : conv.input.length ≠ 3 := by rw [hcin]; simp
    simp [hl, hlen, pure, Except.pure]
  | some p =>
    obtain ⟨hp1, hp2⟩ := hbias p rfl
    have hl : conv.input.length = 3 := by rw [hcin]; simp
    have hb2 := mapM_FORZ_ok
        (CalculateCoeff_bias acc.coeff_a_data ((FORZ acc.coeff_b_data.length).map (fun i =>
            acc.coeff_b_data.getD i 0
              + ((C_in * kH * kW : Nat) : F) * acc.coeff_a_data.getD i 0)) p.2.data)
        (fun i => acc.coeff_b_data.getD i 0
          + ((C_in * kH * kW : Nat) : F) * acc.coeff_a_data.getD i 0
          + acc.coeff_a_data.getD i 0 * p.2.data.getD i 0) acc.coeff_b_data.length
        (fun i hi => by
          unfold CalculateCoeff_bias
          rw [float_at_ok _ i _ (getElem?_map_FORZ _ _ i hi),
            float_at_ok _ i _ (getElem?_eq_some_getD acc.coeff_a_data i 0 (by omega)),
            float_at_ok _ i _ (getElem?_eq_some_getD p.2.data i 0 (by omega))]
          simp [bind, Except.bind, pure, Except.pure])
    have hlm : ((FORZ acc.coeff_b_data.length).map (fun i =>
            acc.coeff_b_data.getD i 0
              + ((C_in * kH * kW : Nat) : F) * acc.coeff_a_data.getD i 0)).length
        = acc.coeff_b_data.length := by simp [FORZ]
    rw [hlen] at hb2 hlm
    simp only [hl, if_true, input_at_ok conv 2 p.1 (by rw [hcin]; simp),
      index_of_find _ _ _ _ hp1, hlen, hlm, hb2, bind, Except.bind, pure, Except.pure]

theorem foldlM_fuse_once {F : Type} [Field F] (x : String) (acc : Coeff F)
    (pre post : List (NodeProto F)) (conv : NodeProto F) (x0 w : String) (weight : FTensor F)
    (N C_in kH kW : Nat) (bias : Option (String × FTensor F))
    (hpre : ∀ node2, node2 ∈ pre → node2.domain = "dabnn" → node2.op_type = "Conv" →
      ∃ o, node2.output[0]? = some o ∧ o ≠ x)
    (hpost : ∀ node2, node2 ∈ post → node2.domain = "dabnn" → node2.op_type = "Conv" →
      ∃ o, node2.output[0]? = some o ∧ o ≠ x)
    (hd : conv.domain = "dabnn") (hop : conv.op_type = "Conv")
    (hout : conv.output[0]? = some x)
    (hcin : conv.input = x0 :: w :: (bias.map (fun p => p.1)).toList)
    (hweight : StrKeyMap.find acc.onnx_float_tensors_ w = some weight)
    (hshape : weight.shape = [N, C_in, kH, kW])
    (hK : C_in * kH * kW < 2 ^ 31)
    (hlen : acc.coeff_b_data.length = acc.coeff_a_data.length)
    (hbias : ∀ p, bias = some p →
      StrKeyMap.find acc.onnx_float_tensors_ p.1 = some p.2 ∧
        acc.coeff_a_data.length ≤ p.2.data.length) :
    (pre ++ conv :: post).foldlM (CalculateCoeff_fuse x) acc
      = .ok ⟨acc.coeff_a_data.map (fun a_i => a_i * (-2)),
          (FORZ acc.coeff_a_data.length).map (fun i =>
            acc.coeff_b_data.getD i 0 + ((C_in * kH * kW : Nat) : F) * acc.coeff_a_data.getD i 0
              + (match bias with
                 | none => 0
                 | some p => acc.coeff_a_data.getD i 0 * p.2.data.getD i 0)),
          acc.onnx_float_tensors_⟩ := by
  rw [List.foldlM_append, foldlM_fuse_skip x pre _ hpre]
  show List.foldlM (CalculateCoeff_fuse x) acc (conv :: post) = _
  rw [List.foldlM_cons, CalculateCoeff_fuse_conv x _ conv x0 w weight N C_in kH kW bias hd hop
    hout hcin hweight hshape hK hlen hbias]
  exact foldlM_fuse_skip x post _ hpost

/-- C5: folding after a binary convolution. For a BatchNormalization node whose input is the
output of exactly one Conv node with domain "dabnn", of ONNX weight shape `(N, C_in, kH, kW)`
and `K = C_in * kH * kW`, `CalculateCoeff` stores `a[i] = -2 * (scale[i] / t_i)` and
`b[i] = bias[i] - scale[i] * mean[i] / t_i + K * (scale[i] / t_i)`, plus
`(scale[i] / t_i) * conv_bias[i]` when the convolution has a bias input, where
`t_i = sqrt(var[i] + eps)`: the additions to `b` use `a` before it is multiplied by `-2`. -/
theorem CalculateCoeff_fused {F : Type} [Field F] (sqrt : F → F) (self : OnnxConverter F)
    (node : NodeProto F) (out x scale_name b_name mean_name var_name : String)
    (rest : List String) (scale b mean var : FTensor F)
    (pre post : List (NodeProto F)) (conv : NodeProto F) (x0 w : String) (weight : FTensor F)
    (N C_in kH kW : Nat) (bias : Option (String × FTensor F))
    (hin : node.input = x :: scale_name :: b_name :: mean_name :: var_name :: rest)
    (hscale : StrKeyMap.find self.onnx_float_tensors_ scale_name = some scale)
    (hb : StrKeyMap.find self.onnx_float_tensors_ b_name = some b)
    (hmean : StrKeyMap.find self.onnx_float_tensors_ mean_name = some mean)
    (hvar : StrKeyMap.find self.onnx_float_tensors_ var_name = some var)
    (hlb : scale.data.length ≤ b.data.length)
    (hlm : scale.data.length ≤ mean.data.length)
    (hlv : scale.data.length ≤ var.data.length)
    (hnodes : self.model_proto_.graph.node = pre ++ conv :: post)
    (hpre : ∀ node2, node2 ∈ pre → node2.domain = "dabnn" → node2.op_type = "Conv" →
      ∃ o, node2.output[0]? = some o ∧ o ≠ x)
    (hpost : ∀ node2, node2 ∈ post → node2.domain = "dabnn" → node2.op_type = "Conv" →
      ∃ o, node2.output[0]? = some o ∧ o ≠ x)
    (hd : conv.domain = "dabnn") (hop : conv.op_type = "Conv")
    (hout : conv.output[0]? = some x)
    (hcin : conv.input = x0 :: w :: (bias.map (fun p => p.1)).toList)
    (hweight : StrKeyMap.find self.onnx_float_tensors_ w = some weight)
    (hshape : weight.shape = [N, C_in, kH, kW])
    (hK : C_in * kH * kW < 2 ^ 31)
    (hbias : ∀ p, bias = some p →
      StrKeyMap.find self.onnx_float_tensors_ p.1 = some p.2 ∧
        scale.data.length ≤ p.2.data.length) :
    ∃ self1 A B, self.CalculateCoeff sqrt node (out ++ "_a") (out ++ "_b") = .ok self1 ∧
      StrKeyMap.find self1.onnx_float_tensors_ (out ++ "_a") = some A ∧
      StrKeyMap.find self1.onnx_float_tensors_ (out ++ "_b") = some B ∧
      A.data.length = scale.data.length ∧ B.data.length = scale.data.length ∧
      ∀ i, i < scale.data.length →
        ∃ s bi m v, scale.data[i]? = some s ∧ b.data[i]? = some bi ∧
          mean.data[i]? = some m ∧ var.data[i]? = some v ∧
          A.data[i]? = some
            (-2 * (s / sqrt (v + NodeAttrHelper.get_float node "eps" (1 / 100000)))) ∧
          B.data[i]? = some
            (bi - s * m / sqrt (v + NodeAttrHelper.get_float node "eps" (1 / 100000))
              + ((C_in * kH * kW : Nat) : F)
                * (s / sqrt (v + NodeAttrHelper.get_float node "eps" (1 / 100000)))
              + (match bias with
                 | none => 0
                 | some p =>
                   (s / sqrt (v + NodeAttrHelper.get_float node "eps" (1 / 100000)))
                     * p.2.data.getD i 0)) := by
  have hla : ((FORZ scale.data.length).map (fun i => scale.data.getD i 0
      / sqrt (var.data.getD i 0 + NodeAttrHelper.get_float node "eps" (1 / 100000)))).length
      = scale.data.length := by simp [FORZ]
  have hlbb : ((FORZ scale.data.length).map (fun i => b.data.getD i 0
      - scale.data.getD i 0 * mean.data.getD i 0
        / sqrt (var.data.getD i 0 + NodeAttrHelper.get_float node "eps" (1 / 100000)))).length
      = scale.data.length := by simp [FORZ]
  have hfold := foldlM_fuse_once x
      ⟨(FORZ scale.data.length).map (fun i => scale.data.getD i 0
          / sqrt (var.data.getD i 0 + NodeAttrHelper.get_float node "eps" (1 / 100000))),
        (FORZ scale.data.length).map (fun i => b.data.getD i 0
          - scale.data.getD i 0 * mean.data.getD i 0
            / sqrt (var.data.getD i 0 + NodeAttrHelper.get_float node "eps" (1 / 100000))),
        self.onnx_float_tensors_⟩ pre post conv x0 w weight N C_in kH kW bias hpre hpost hd hop
      hout hcin hweight hshape hK (by rw [hla, hlbb]) (by rw [hla]; exact hbias)
  rw [← hnodes] at hfold
  refine ⟨_, _, _, CalculateCoeff_eq sqrt self node _ _ x scale_name b_name mean_name var_name
      rest scale b mean var _ hin hscale hb hmean hvar hlb hlm hlv hfold,
    (find_set_ne _ _ _ _ (append_suffix_ne out)).trans (find_set_self _ _ _),
    find_set_self _ _ _, ?_, ?_, ?_⟩
  · simp [FORZ]
  · simp [FORZ]
  · intro i hi
    refine ⟨scale.data.getD i 0, b.data.getD i 0, mean.data.getD i 0, var.data.getD i 0,
      getElem?_eq_some_getD _ i 0 hi, getElem?_eq_some_getD _ i 0 (by omega),
      getElem?_eq_some_getD _ i 0 (by omega), getElem?_eq_some_getD _ i 0 (by omega), ?_, ?_⟩
    · show (List.map _ _)[i]? = _
      rw [List.getElem?_map, getElem?_map_FORZ _ _ i hi]
      simp only [Option.map_some', Option.some.injEq]
      ring
    · show (List.map _ _)[i]? = _
      rw [getElem?_map_FORZ _ _ i (by rw [hla]; exact hi), getD_map_FORZ _ _ i 0 hi,
        getD_map_FORZ _ _ i 0 hi]

/-- Witness of C7: scale 2, bias 1, mean 3, variance 1, `eps = 0` give `a = 2`, `b = -5`. -/
theorem CalculateCoeff_plain_witness :
    ∃ self1 A B,
      OnnxConverter.CalculateCoeff Real.sqrt
        (⟨⟨⟨[⟨"bn", "BatchNormalization", "", ["x", "s", "b", "m", "v"], ["y"],
              [⟨"eps", 0, 0, []⟩]⟩], [], []⟩⟩, [], [],
          [("s", ⟨[2], [1], false⟩), ("b", ⟨[1], [1], false⟩), ("m", ⟨[3], [1], false⟩),
           ("v", ⟨[1], [1], false⟩)], [], [], [], []⟩ : OnnxConverter ℝ)
        ⟨"bn", "BatchNormalization", "", ["x", "s", "b", "m", "v"], ["y"], [⟨"eps", 0, 0, []⟩]⟩
        ("y" ++ "_a") ("y" ++ "_b") = .ok self1 ∧
      StrKeyMap.find self1.onnx_float_tensors_ ("y" ++ "_a") = some A ∧
      StrKeyMap.find self1.onnx_float_tensors_ ("y" ++ "_b") = some B ∧
      A.shape = [1] ∧ B.shape = [1] ∧ A.data[0]? = some (2 : ℝ) ∧ B.data[0]? = some (-5 : ℝ) := by
  obtain ⟨self1, A, B, h, hA, hB, hsA, hsB, _, _, hi⟩ :=
    CalculateCoeff_plain Real.sqrt
      (⟨⟨⟨[⟨"bn", "BatchNormalization", "", ["x", "s", "b", "m", "v"], ["y"],
            [⟨"eps", 0, 0, []⟩]⟩], [], []⟩⟩, [], [],
        [("s", ⟨[2], [1], false⟩), ("b", ⟨[1], [1], false⟩), ("m", ⟨[3], [1], false⟩),
         ("v", ⟨[1], [1], false⟩)], [], [], [], []⟩ : OnnxConverter ℝ)
      ⟨"bn", "BatchNormalization", "", ["x", "s", "b", "m", "v"], ["y"], [⟨"eps", 0, 0, []⟩]⟩
      "y" "x" "s" "b" "m" "v" [] ⟨[2], [1], false⟩ ⟨[1], [1], false⟩ ⟨[3], [1], false⟩
      ⟨[1], [1], false⟩ rfl rfl rfl rfl rfl (by simp) (by simp) (by simp) (by simp)
      (by
        intro node2 hmem hd
        simp only [List.mem_singleton] at hmem
        subst hmem
        exact absurd hd (by decide))
  obtain ⟨s, bi, m, v, hs, hbi, hm, hv, ha, hb⟩ := hi 0 (by simp)
  simp only [List.getElem?_cons_zero, Option.some.injEq] at hs hbi hm hv
  subst hs hbi hm hv
  refine ⟨self1, A, B, h, hA, hB, hsA, hsB, ?_, ?_⟩
  · rw [ha]
    simp [NodeAttrHelper.get_float, NodeAttrHelper.find_attr]
  · rw [hb]
    simp [NodeAttrHelper.get_float, NodeAttrHelper.find_attr]
    norm_num

/-- Witness of C5: `K = 27`, scale 1, bias 0, mean 0, variance 1, `eps = 0` give `a = -2` and
`b = 27`. -/
theorem CalculateCoeff_fused_witness :
    ∃ self1 A B,
      OnnxConverter.CalculateCoeff Real.sqrt
        (⟨⟨⟨[⟨"conv", "Conv", "dabnn", ["x", "w"], ["c"], []⟩,
             ⟨"bn", "BatchNormalization", "", ["c", "s", "b", "m", "v"], ["y"],
              [⟨"eps", 0, 0, []⟩]⟩], [], []⟩⟩, [], [],
          [("w", ⟨List.replicate 27 1, [1, 3, 3, 3], false⟩),
           ("s", ⟨[1], [1], false⟩), ("b", ⟨[0], [1], false⟩), ("m", ⟨[0], [1], false⟩),
           ("v", ⟨[1], [1], false⟩)], [], [], [], []⟩ : OnnxConverter ℝ)
        ⟨"bn", "BatchNormalization", "", ["c", "s", "b", "m", "v"], ["y"], [⟨"eps", 0, 0, []⟩]⟩
        ("y" ++ "_a") ("y" ++ "_b") = .ok self1 ∧
      StrKeyMap.find self1.onnx_float_tensors_ ("y" ++ "_a") = some A ∧
      StrKeyMap.find self1.onnx_float_tensors_ ("y" ++ "_b") = some B ∧
      A.data.length = 1 ∧ B.data.length = 1 ∧
      A.data[0]? = some (-2 : ℝ) ∧ B.data[0]? = some (27 : ℝ) := by
  obtain ⟨self1, A, B, h, hA, hB, hlA, hlB, hi⟩ :=
    CalculateCoeff_fused Real.sqrt
      (⟨⟨⟨[⟨"conv", "Conv", "dabnn", ["x", "w"], ["c"], []⟩,
           ⟨"bn", "BatchNormalization", "", ["c", "s", "b", "m", "v"], ["y"],
            [⟨"eps", 0, 0, []⟩]⟩], [], []⟩⟩, [], [],
        [("w", ⟨List.replicate 27 1, [1, 3, 3, 3], false⟩),
         ("s", ⟨[1], [1], false⟩), ("b", ⟨[0], [1], false⟩), ("m", ⟨[0], [1], false⟩),
         ("v", ⟨[1], [1], false⟩)], [], [], [], []⟩ : OnnxConverter ℝ)
      ⟨"bn", "BatchNormalization", "", ["c", "s", "b", "m", "v"], ["y"], [⟨"eps", 0, 0, []⟩]⟩
      "y" "c" "s" "b" "m" "v" [] ⟨[1], [1], false⟩ ⟨[0], [1], false⟩ ⟨[0], [1], false⟩
      ⟨[1], [1], false⟩ []
      [⟨"bn", "BatchNormalization", "", ["c", "s", "b", "m", "v"], ["y"], [⟨"eps", 0, 0, []⟩]⟩]
      ⟨"conv", "Conv", "dabnn", ["x", "w"], ["c"], []⟩ "x" "w"
      ⟨List.replicate 27 1, [1, 3, 3, 3], false⟩ 1 3 3 3 none
      rfl rfl rfl rfl rfl (by simp) (by simp) (by simp) rfl
      (by intro node2 hmem; simp at hmem)
      (by
        intro node2 hmem hd
        simp only [List.mem_singleton] at hmem
        subst hmem
        exact absurd hd (by decide))
      rfl rfl rfl rfl rfl rfl (by decide) (by intro p hp; cases hp)
  obtain ⟨s, bi, m, v, hs, hbi, hm, hv, ha, hb⟩ := hi 0 (by simp)
  simp only [List.getElem?_cons_zero, Option.some.injEq] at hs hbi hm hv
  subst hs hbi hm hv
  refine ⟨self1, A, B, h, hA, hB, hlA, hlB, ?_, ?_⟩
  · rw [ha]
    simp [NodeAttrHelper.get_float, NodeAttrHelper.find_attr]
  · rw [hb]
    simp [NodeAttrHelper.get_float, NodeAttrHelper.find_attr]

/-! ### `Convert` evaluated on small graphs -/

/-- C6: the code evaluated on a convolution that is binary by the expected list only. The
graph is `c = Conv(x, w)` with an empty domain, weight shape `(1, 3, 3, 3)` (`K = 27`), and
`y = BatchNormalization(c)` with scale 1, bias 0, mean 0, variance 1, `eps = 0`; the optimizer
leaves the graph as it is. With `"c"` in the expected list the convolution is lowered as a
BinConv2D layer with a Bit weight, yet the Affine coefficients are the plain `a = 1`, `b = 0`;
the same graph with domain "dabnn" gives `a = -2`, `b = 27`. -/
theorem Convert_expected_list_conv_coeff :
    (OnnxConverter.Convert
      (⟨fun mp _ => mp,
        fun t => ⟨t.data,
          [t.shape.getD 0 0, t.shape.getD 2 0, t.shape.getD 3 0, t.shape.getD 1 0], false⟩,
        Real.sqrt, fun _ => 0, 1⟩ : Env ℝ)
      ⟨⟨⟨[], [], []⟩⟩, [], [], [], [], [], [], []⟩
      ⟨⟨[⟨"conv", "Conv", "", ["x", "w"], ["c"], []⟩,
         ⟨"bn", "BatchNormalization", "", ["c", "s", "b", "m", "v"], ["y"],
          [⟨"eps", 0, 0, []⟩]⟩],
        [⟨"w", 1, [1, 3, 3, 3], List.replicate 27 1, []⟩, ⟨"s", 1, [1], [1], []⟩,
         ⟨"b", 1, [1], [0], []⟩, ⟨"m", 1, [1], [0], []⟩, ⟨"v", 1, [1], [1], []⟩],
        [⟨"x", [some 1, some 3, some 4, some 4]⟩]⟩⟩
      "model.dab" Level.kStrict ["c"]).map
        (fun c => (c.binary_conv_outputs, c.model.layers,
          c.model.tensors.map (fun t => (t.name, t.data_type, t.float_data))))
      = .ok (["c"],
        [Layer.BinConv2D "x" "w_conv_w" none [0, 0, 0, 0] [1, 1] [1, 1] "c",
         Layer.Affine "c" "y_a" "y_b" "y"],
        [("w_conv_w", DataType.Bit, []), ("y_a", DataType.Float32, [1]),
         ("y_b", DataType.Float32, [0])]) ∧
    (OnnxConverter.Convert
      (⟨fun mp _ => mp,
        fun t => ⟨t.data,
          [t.shape.getD 0 0, t.shape.getD 2 0, t.shape.getD 3 0, t.shape.getD 1 0], false⟩,
        Real.sqrt, fun _ => 0, 1⟩ : Env ℝ)
      ⟨⟨⟨[], [], []⟩⟩, [], [], [], [], [], [], []⟩
      ⟨⟨[⟨"conv", "Conv", "dabnn", ["x", "w"], ["c"], []⟩,
         ⟨"bn", "BatchNormalization", "", ["c", "s", "b", "m", "v"], ["y"],
          [⟨"eps", 0, 0, []⟩]⟩],
        [⟨"w", 1, [1, 3, 3, 3], List.replicate 27 1, []⟩, ⟨"s", 1, [1], [1], []⟩,
         ⟨"b", 1, [1], [0], []⟩, ⟨"m", 1, [1], [0], []⟩, ⟨"v", 1, [1], [1], []⟩],
        [⟨"x", [some 1, some 3, some 4, some 4]⟩]⟩⟩
      "model.dab" Level.kStrict []).map
        (fun c => (c.binary_conv_outputs, c.model.layers,
          c.model.tensors.map (fun t => (t.name, t.data_type, t.float_data))))
      = .ok (["c"],
        [Layer.BinConv2D "x" "w_conv_w" none [0, 0, 0, 0] [1, 1] [1, 1] "c",
         Layer.Affine "c" "y_a" "y_b" "y"],
        [("w_conv_w", DataType.Bit, []), ("y_a", DataType.Float32, [-2]),
         ("y_b", DataType.Float32, [27])]) := by
  constructor
  · refine Eq.trans (b := .ok (["c"],
        [Layer.BinConv2D "x" "w_conv_w" none [0, 0, 0, 0] [1, 1] [1, 1] "c",
         Layer.Affine "c" "y_a" "y_b" "y"],
        [("w_conv_w", DataType.Bit, []),
         ("y_a", DataType.Float32, [(1 : ℝ) / Real.sqrt (1 + 0)]),
         ("y_b", DataType.Float32, [(0 : ℝ) - 1 * 0 / Real.sqrt (1 + 0)])])) rfl ?_
    simp
  · refine Eq.trans (b := .ok (["c"],
        [Layer.BinConv2D "x" "w_conv_w" none [0, 0, 0, 0] [1, 1] [1, 1] "c",
         Layer.Affine "c" "y_a" "y_b" "y"],
        [("w_conv_w", DataType.Bit, []),
         ("y_a", DataType.Float32, [(1 : ℝ) / Real.sqrt (1 + 0) * (-2)]),
         ("y_b", DataType.Float32,
           [(0 : ℝ) - 1 * 0 / Real.sqrt (1 + 0)
             + ((to_int32 (to_int32 (to_int32 (3 : Nat) * to_int32 (3 : Nat))
                 * to_int32 (3 : Nat)) : Int) : ℝ) * (1 / Real.sqrt (1 + 0))])])) rfl ?_
    have hk : to_int32 (to_int32 (to_int32 (3 : Nat) * to_int32 (3 : Nat)) * to_int32 (3 : Nat))
        = 27 := by decide
    rw [hk]
    simp

/-- C8: the code evaluated on a BatchNormalization that reads the output of a Dropout. For
`z = Dropout(x); y = Relu(z)` the Relu layer names `x` and the shape of `y` is inferred from
`x`. For `z = Dropout(x); y = BatchNormalization(z, s, b, m, v)` the BatchNormalization case
passes the unresolved name `z` to the shape inferer, which has no shape for `z`: the conversion
fails and no Affine layer with input `x` is emitted. On a converter that does hold a shape for
`z`, besides the entry `z -> x` of the name map, the case emits the Affine layer with input
`z`. -/
theorem Convert_dropout_consumers :
    (OnnxConverter.Convert
        (⟨fun mp _ => mp, fun t => t, Real.sqrt, fun _ => 0, 1⟩ : Env ℝ)
        ⟨⟨⟨[], [], []⟩⟩, [], [], [], [], [], [], []⟩
        ⟨⟨[⟨"drop", "Dropout", "", ["x"], ["z"], []⟩, ⟨"relu", "Relu", "", ["z"], ["y"], []⟩],
          [], [⟨"x", [some 1, some 3, some 4, some 4]⟩]⟩⟩
        "model.dab" Level.kStrict []).map
          (fun c => (c.model.layers, StrKeyMap.find c.self.shaper_ "y"))
        = .ok ([Layer.Relu "x" "y"], some [1, 4, 4, 3]) ∧
    (OnnxConverter.Convert
        (⟨fun mp _ => mp, fun t => t, Real.sqrt, fun _ => 0, 1⟩ : Env ℝ)
        ⟨⟨⟨[], [], []⟩⟩, [], [], [], [], [], [], []⟩
        ⟨⟨[⟨"drop", "Dropout", "", ["x"], ["z"], []⟩,
           ⟨"bn", "BatchNormalization", "", ["z", "s", "b", "m", "v"], ["y"], []⟩],
          [⟨"s", 1, [1], [1], []⟩, ⟨"b", 1, [1], [0], []⟩, ⟨"m", 1, [1], [0], []⟩,
           ⟨"v", 1, [1], [1], []⟩],
          [⟨"x", [some 1, some 3, some 4, some 4]⟩]⟩⟩
        "model.dab" Level.kStrict []).map (fun c => c.model.layers)
        = .error "shape of z is missing" ∧
    (Convert_node (⟨fun mp _ => mp, fun t => t, Real.sqrt, fun _ => 0, 1⟩ : Env ℝ) []
        ⟨⟨⟨⟨[], [], []⟩⟩, [("z", "x")], [("z", [1, 4, 4, 3]), ("x", [1, 4, 4, 3])],
          [("s", ⟨[1], [1], false⟩), ("b", ⟨[0], [1], false⟩), ("m", ⟨[0], [1], false⟩),
           ("v", ⟨[1], [1], false⟩)], [], [], [], []⟩, [], [], false⟩
        ⟨"bn", "BatchNormalization", "", ["z", "s", "b", "m", "v"], ["y"], []⟩).map
          (fun st => (st.self.m "z", st.self.layers_, StrKeyMap.find st.self.shaper_ "y"))
        = .ok ("x", [Layer.Affine "z" "y_a" "y_b" "y"], some [1, 4, 4, 3]) :=
  ⟨rfl, rfl, rfl⟩

/-! ### The Dropout case -/

theorem Convert_node_eq_Dropout {F : Type} [LinearOrderedField F] (env : Env F)
    (expected_binary_conv_outputs : List String) (st : Walk F) (node : NodeProto F)
    (hop : node.op_type = "Dropout") (hr : st.has_reshape = false) :
    Convert_node env expected_binary_conv_outputs st node = Convert_Dropout st node := by
  unfold Convert_node
  rw [hr, hop]
  simp

/-- C9: lowering a Dropout node with input `i` and output `o` sets `name_map_[o] = m(i)`, with
`m` taken before the update, and changes nothing else: every other entry of the name map, the
layers, the tensors, the shape tracker, the tensor stores, the operands, the inputs and the
local variables of the walk stay as they are. -/
theorem Convert_node_Dropout {F : Type} [LinearOrderedField F] (env : Env F)
    (expected_binary_conv_outputs : List String) (st : Walk F) (node : NodeProto F)
    (i o : String) (hop : node.op_type = "Dropout") (hin : node.input[0]? = some i)
    (hout : node.output[0]? = some o) (hr : st.has_reshape = false) :
    ∃ st1, Convert_node env expected_binary_conv_outputs st node = .ok st1 ∧
      StrKeyMap.find st1.self.name_map_ o = some (st.self.m i) ∧
      (∀ k, k ≠ o → StrKeyMap.find st1.self.name_map_ k = StrKeyMap.find st.self.name_map_ k) ∧
      st1.self.layers_ = st.self.layers_ ∧
      st1.self.tensors_ = st.self.tensors_ ∧
      st1.self.shaper_ = st.self.shaper_ ∧
      st1.self.onnx_float_tensors_ = st.self.onnx_float_tensors_ ∧
      st1.self.bnn_tensors_ = st.self.bnn_tensors_ ∧
      st1.self.operands_ = st.self.operands_ ∧
      st1.self.model_proto_ = st.self.model_proto_ ∧
      st1.inputs = st.inputs ∧
      st1.binary_conv_outputs = st.binary_conv_outputs ∧
      st1.has_reshape = st.has_reshape := by
  refine ⟨{ st with self := { st.self with name_map_ :=
      (StrKeyMap.set st.self.name_map_ o (st.self.m i)) } }, ?_, find_set_self _ _ _,
    fun k hk => find_set_ne _ _ _ _ hk, rfl, rfl, rfl, rfl, rfl, rfl, rfl, rfl, rfl, rfl⟩
  rw [Convert_node_eq_Dropout env expected_binary_conv_outputs st node hop hr]
  simp only [Convert_Dropout, input_at_ok node 0 i hin, output_at_ok node 0 o hout,
    bind, Except.bind, pure, Except.pure]

/-- Witness of C9: the node `z = Dropout(x)` on a converter that knows the shape of `x`. -/
theorem Convert_node_Dropout_witness :
    ∃ st1, Convert_node
        (⟨fun mp _ => mp, fun t => t, fun v => v, fun _ => 0, 1⟩ : Env ℚ) []
        ⟨⟨⟨⟨[], [], []⟩⟩, [], [("x", [1, 4, 4, 3])], [], [], [], [], []⟩, [], [], false⟩
        ⟨"drop", "Dropout", "", ["x"], ["z"], []⟩ = .ok st1 ∧
      StrKeyMap.find st1.self.name_map_ "z" = some "x" ∧
      st1.self.layers_ = [] ∧ st1.self.shaper_ = [("x", [1, 4, 4, 3])] := by
  obtain ⟨st1, h, hz, _, hl, _, hs, _⟩ := Convert_node_Dropout
    (⟨fun mp _ => mp, fun t => t, fun v => v, fun _ => 0, 1⟩ : Env ℚ) []
    ⟨⟨⟨⟨[], [], []⟩⟩, [], [("x", [1, 4, 4, 3])], [], [], [], [], []⟩, [], [], false⟩
    ⟨"drop", "Dropout", "", ["x"], ["z"], []⟩ "x" "z" rfl rfl rfl rfl
  exact ⟨st1, h, hz, hl, hs⟩

/-! ### The walk never changes `model_proto_` -/

theorem AddConv_model_proto {F : Type} [LinearOrderedField F] (env : Env F)
    (self self1 : OnnxConverter F) (input_name : String) (strides pads dilations : List Int)
    (group : Int) (ori_weight_name : String) (bias_name : Option String) (output_name : String)
    (binary : Bool)
    (h : self.AddConv env input_name strides pads dilations group ori_weight_name bias_name
      output_name binary = .ok self1) :
    self1.model_proto_ = self.model_proto_ := by
  unfold OnnxConverter.AddConv OnnxConverter.AddBinConv OnnxConverter.AddFloatConv at h
  simp only [bind, Except.bind, pure, Except.pure] at h
  repeat' split at h
  all_goals first | (cases h; rfl) | cases h

theorem CalculateCoeff_model_proto {F : Type} [Field F] (sqrt : F → F)
    (self self1 : OnnxConverter F) (node : NodeProto F) (coeff_a_name coeff_b_name : String)
    (h : self.CalculateCoeff sqrt node coeff_a_name coeff_b_name = .ok self1) :
    self1.model_proto_ = self.model_proto_ := by
  unfold OnnxConverter.CalculateCoeff at h
  simp only [bind, Except.bind, pure, Except.pure] at h
  repeat' split at h
  all_goals first | (cases h; rfl) | cases h

theorem Convert_Conv_bias_model_proto {F : Type} (st : Walk F) (node : NodeProto F)
    (p : Option String × OnnxConverter F) (h : Convert_Conv_bias st node = .ok p) :
    p.2.model_proto_ = st.self.model_proto_ := by
  unfold Convert_Conv_bias at h
  simp only [bind, Except.bind, pure, Except.pure] at h
  repeat' split at h
  all_goals first | (cases h; rfl) | cases h

theorem Convert_Pool_model_proto {F : Type}   (st st1 : Walk F)
    (node : NodeProto F) (h : Convert_Pool st node = .ok st1) :
    st1.self.model_proto_ = st.self.model_proto_ := by
  unfold Convert_Pool at h
  simp only [bind, Except.bind, pure, Except.pure] at h
  repeat' split at h
  all_goals first | (cases h; rfl) | cases h

theorem Convert_Relu_model_proto {F : Type}   (st st1 : Walk F)
    (node : NodeProto F) (h : Convert_Relu st node = .ok st1) :
    st1.self.model_proto_ = st.self.model_proto_ := by
  unfold Convert_Relu at h
  simp only [bind, Except.bind, pure, Except.pure] at h
  repeat' split at h
  all_goals first | (cases h; rfl) | cases h

theorem Convert_Add_model_proto {F : Type}   (st st1 : Walk F)
    (node : NodeProto F) (h : Convert_Add st node = .ok st1) :
    st1.self.model_proto_ = st.self.model_proto_ := by
  unfold Convert_Add at h
  simp only [bind, Except.bind, pure, Except.pure] at h
  repeat' split at h
  all_goals first | (cases h; rfl) | cases h

theorem Convert_Softmax_model_proto {F : Type}   (st st1 : Walk F)
    (node : NodeProto F) (h : Convert_Softmax st node = .ok st1) :
    st1.self.model_proto_ = st.self.model_proto_ := by
  unfold Convert_Softmax at h
  simp only [bind, Except.bind, pure, Except.pure] at h
  repeat' split at h
  all_goals first | (cases h; rfl) | cases h

theorem Convert_Concat_model_proto {F : Type}   (st st1 : Walk F)
    (node : NodeProto F) (h : Convert_Concat st node = .ok st1) :
    st1.self.model_proto_ = st.self.model_proto_ := by
  unfold Convert_Concat at h
  simp only [bind, Except.bind, pure, Except.pure] at h
  repeat' split at h
  all_goals first | (cases h; rfl) | cases h

theorem Convert_Dropout_model_proto {F : Type}   (st st1 : Walk F)
    (node : NodeProto F) (h : Convert_Dropout st node = .ok st1) :
    st1.self.model_proto_ = st.self.model_proto_ := by
  unfold Convert_Dropout at h
  simp only [bind, Except.bind, pure, Except.pure] at h
  repeat' split at h
  all_goals first | (cases h; rfl) | cases h

theorem Convert_PRelu_model_proto {F : Type} [LinearOrderedField F]  (st st1 : Walk F)
    (node : NodeProto F) (h : Convert_PRelu st node = .ok st1) :
    st1.self.model_proto_ = st.self.model_proto_ := by
  unfold Convert_PRelu at h
  simp only [bind, Except.bind, pure, Except.pure] at h
  repeat' split at h
  all_goals first | (cases h; rfl) | cases h

theorem Convert_Gemm_bias_model_proto {F : Type} (self1 : OnnxConverter F)
    (node : NodeProto F) (p : Option String × OnnxConverter F)
    (h : Convert_Gemm_bias self1 node = .ok p) :
    p.2.model_proto_ = self1.model_proto_ := by
  unfold Convert_Gemm_bias at h
  simp only [bind, Except.bind, pure, Except.pure] at h
  repeat' split at h
  all_goals first | (cases h; rfl) | cases h

theorem Convert_Gemm_model_proto {F : Type} [LinearOrderedField F] (st st1 : Walk F)
    (node : NodeProto F) (h : Convert_Gemm st node = .ok st1) :
    st1.self.model_proto_ = st.self.model_proto_ := by
  unfold Convert_Gemm at h
  simp only [bind, Except.bind, pure, Except.pure] at h
  repeat' split at h
  all_goals first
    | (cases h
       dsimp only
       apply Eq.trans (Convert_Gemm_bias_model_proto _ _ _ (by assumption))
       rfl)
    | cases h

theorem Convert_BatchNormalization_model_proto {F : Type} [Field F] (env : Env F)
    (st st1 : Walk F) (node : NodeProto F)
    (h : Convert_BatchNormalization env st node = .ok st1) :
    st1.self.model_proto_ = st.self.model_proto_ := by
  unfold Convert_BatchNormalization at h
  simp only [bind, Except.bind, pure, Except.pure] at h
  repeat' split at h
  all_goals first
    | (cases h
       rename_i _ _ hc _ _ _
       have hm := CalculateCoeff_model_proto _ _ _ _ _ _ hc
       exact hm)
    | cases h

theorem Convert_Conv_model_proto {F : Type} [LinearOrderedField F] (env : Env F)
    (expected_binary_conv_outputs : List String) (st st1 : Walk F) (node : NodeProto F)
    (h : Convert_Conv env expected_binary_conv_outputs st node = .ok st1) :
    st1.self.model_proto_ = st.self.model_proto_ := by
  unfold Convert_Conv at h
  simp only [bind, Except.bind, pure, Except.pure] at h
  repeat' split at h
  all_goals first
    | (cases h
       dsimp only
       apply Eq.trans (AddConv_model_proto _ _ _ _ _ _ _ _ _ _ _ _ (by assumption))
       exact Convert_Conv_bias_model_proto _ _ _ (by assumption))
    | cases h

theorem Convert_node_model_proto {F : Type} [LinearOrderedField F] (env : Env F)
    (expected_binary_conv_outputs : List String) (st st1 : Walk F) (node : NodeProto F)
    (h : Convert_node env expected_binary_conv_outputs st node = .ok st1) :
    st1.self.model_proto_ = st.self.model_proto_ := by
  unfold Convert_node at h
  by_cases c0 : st.has_reshape = true
  · rw [if_pos c0] at h; cases h
  rw [if_neg c0] at h
  by_cases c1 : (node.op_type == "Conv") = true
  · rw [if_pos c1] at h; exact Convert_Conv_model_proto _ _ _ _ _ h
  rw [if_neg c1] at h
  by_cases c2 : (node.op_type == "AveragePool" || node.op_type == "MaxPool"
      || node.op_type == "GlobalAveragePool" || node.op_type == "GlobalMaxPool") = true
  · rw [if_pos c2] at h; exact Convert_Pool_model_proto _ _ _ h
  rw [if_neg c2] at h
  by_cases c3 : (node.op_type == "PRelu") = true
  · rw [if_pos c3] at h; exact Convert_PRelu_model_proto _ _ _ h
  rw [if_neg c3] at h
  by_cases c4 : (node.op_type == "Relu") = true
  · rw [if_pos c4] at h; exact Convert_Relu_model_proto _ _ _ h
  rw [if_neg c4] at h
  by_cases c5 : (node.op_type == "Add") = true
  · rw [if_pos c5] at h; exact Convert_Add_model_proto _ _ _ h
  rw [if_neg c5] at h
  by_cases c6 : (node.op_type == "Gemm") = true
  · rw [if_pos c6] at h; exact Convert_Gemm_model_proto _ _ _ h
  rw [if_neg c6] at h
  by_cases c7 : (node.op_type == "Softmax") = true
  · rw [if_pos c7] at h; exact Convert_Softmax_model_proto _ _ _ h
  rw [if_neg c7] at h
  by_cases c8 : (node.op_type == "Concat") = true
  · rw [if_pos c8] at h; exact Convert_Concat_model_proto _ _ _ h
  rw [if_neg c8] at h
  by_cases c9 : (node.op_type == "Dropout") = true
  · rw [if_pos c9] at h; exact Convert_Dropout_model_proto _ _ _ h
  rw [if_neg c9] at h
  by_cases c10 : (node.op_type == "Reshape") = true
  · rw [if_pos c10] at h; cases h; rfl
  rw [if_neg c10] at h
  by_cases c11 : (node.op_type == "BatchNormalization") = true
  · rw [if_pos c11] at h; exact Convert_BatchNormalization_model_proto _ _ _ _ h
  rw [if_neg c11] at h
  cases h

theorem foldlM_Convert_node_model_proto {F : Type} [LinearOrderedField F] (env : Env F)
    (expected_binary_conv_outputs : List String) (nodes : List (NodeProto F)) (st st1 : Walk F)
    (h : nodes.foldlM (Convert_node env expected_binary_conv_outputs) st = .ok st1) :
    st1.self.model_proto_ = st.self.model_proto_ := by
  induction nodes generalizing st with
  | nil => cases h; rfl
  | cons node rest ih =>
    rw [List.foldlM_cons] at h
    cases hstep : Convert_node env expected_binary_conv_outputs st node with
    | error e => rw [hstep] at h; cases h
    | ok st2 =>
      rw [hstep] at h
      exact (ih st2 h).trans (Convert_node_model_proto _ _ _ _ _ hstep)

/-! ### A binary convolution needs a BatchNormalization -/

theorem precede_bn_false {F : Type} (out0 : String) (nodes : List (NodeProto F))
    (h : ∀ node2, node2 ∈ nodes → node2.op_type = "BatchNormalization" →
      ∃ in0, node2.input[0]? = some in0 ∧ in0 ≠ out0) :
    precede_bn out0 nodes = .ok false := by
  induction nodes with
  | nil => rfl
  | cons node2 rest ih =>
    have ih2 := ih (fun n hn => h n (List.mem_cons_of_mem _ hn))
    unfold precede_bn
    by_cases hop : node2.op_type = "BatchNormalization"
    · obtain ⟨in0, hin, hne⟩ := h node2 (List.mem_cons_self _ _) hop
      simp [hop, input_at_ok node2 0 in0 hin, hne, ih2]
    · simp [hop, ih2]

theorem precede_bn_true {F : Type} (out0 : String) (nodes : List (NodeProto F))
    (hwf : ∀ node2, node2 ∈ nodes → node2.op_type = "BatchNormalization" →
      ∃ in0, node2.input[0]? = some in0)
    (hex : ∃ node2, node2 ∈ nodes ∧ node2.op_type = "BatchNormalization" ∧
      node2.input[0]? = some out0) :
    precede_bn out0 nodes = .ok true := by
  induction nodes with
  | nil =>
    obtain ⟨n, hn, _⟩ := hex
    cases hn
  | cons node2 rest ih =>
    unfold precede_bn
    by_cases hop : node2.op_type = "BatchNormalization"
    · obtain ⟨in0, hin⟩ := hwf node2 (List.mem_cons_self _ _) hop
      by_cases heq : in0 = out0
      · simp [hop, input_at_ok node2 0 in0 hin, heq]
      · have hrest : ∃ n, n ∈ rest ∧ n.op_type = "BatchNormalization" ∧
            n.input[0]? = some out0 := by
          obtain ⟨n, hn, hnop, hnin⟩ := hex
          rcases List.mem_cons.mp hn with rfl | hn2
          · rw [hin] at hnin
            exact absurd (Option.some.inj hnin) heq
          · exact ⟨n, hn2, hnop, hnin⟩
        simp [hop, input_at_ok node2 0 in0 hin, heq,
          ih (fun n hn => hwf n (List.mem_cons_of_mem _ hn)) hrest]
    · have hrest : ∃ n, n ∈ rest ∧ n.op_type = "BatchNormalization" ∧
          n.input[0]? = some out0 := by
        obtain ⟨n, hn, hnop, hnin⟩ := hex
        rcases List.mem_cons.mp hn with rfl | hn2
        · exact absurd hnop hop
        · exact ⟨n, hn2, hnop, hnin⟩
      simp [hop, ih (fun n hn => hwf n (List.mem_cons_of_mem _ hn)) hrest]

theorem Convert_node_eq_Conv {F : Type} [LinearOrderedField F] (env : Env F)
    (expected_binary_conv_outputs : List String) (st : Walk F) (node : NodeProto F)
    (hop : node.op_type = "Conv") (hr : st.has_reshape = false) :
    Convert_node env expected_binary_conv_outputs st node
      = Convert_Conv env expected_binary_conv_outputs st node := by
  unfold Convert_node
  rw [hr, hop]
  simp

theorem Convert_error_of_node_error {F : Type} [LinearOrderedField F] (env : Env F)
    (self : OnnxConverter F) (model_proto : ModelProto F) (filepath : String) (level : Level)
    (expected_binary_conv_outputs : List String) (st0 st : Walk F)
    (pre post : List (NodeProto F)) (node : NodeProto F) (e : String)
    (hprep : self.Convert_prepare env model_proto level = .ok st0)
    (hnodes : st0.self.model_proto_.graph.node = pre ++ node :: post)
    (hpre : pre.foldlM (Convert_node env expected_binary_conv_outputs) st0 = .ok st)
    (hstep : Convert_node env expected_binary_conv_outputs st node = .error e) :
    self.Convert env model_proto filepath level expected_binary_conv_outputs = .error e := by
  unfold OnnxConverter.Convert
  rw [hprep]
  simp only [bind, Except.bind]
  rw [hnodes, List.foldlM_append, hpre]
  simp only [bind, Except.bind, List.foldlM_cons, hstep]

/-- C10: a binary convolution must be read by a BatchNormalization. Let the walk reach a Conv
node that is binary (domain "dabnn", or output in the expected list) with well-formed
`pads`, `strides`, `dilations` and bias. If no BatchNormalization node of the graph has the
output of the convolution as its `input(0)`, the node and with it `Convert` fail with
"Binary convolutions should precede BatchNorm"; if one does, the check passes and the output
is recorded as a binary convolution output. -/
theorem Convert_binary_conv_needs_bn {F : Type} [LinearOrderedField F] (env : Env F)
    (self : OnnxConverter F) (model_proto : ModelProto F) (filepath : String) (level : Level)
    (expected_binary_conv_outputs : List String) (st0 st : Walk F)
    (pre post : List (NodeProto F)) (node : NodeProto F) (w out0 : String)
    (p : Option String × OnnxConverter F)
    (hprep : self.Convert_prepare env model_proto level = .ok st0)
    (hnodes : st0.self.model_proto_.graph.node = pre ++ node :: post)
    (hpre : pre.foldlM (Convert_node env expected_binary_conv_outputs) st0 = .ok st)
    (hr : st.has_reshape = false)
    (hop : node.op_type = "Conv")
    (hpads : (NodeAttrHelper.get_ints node "pads" [0, 0, 0, 0]).length = 4)
    (hstrides : (NodeAttrHelper.get_ints node "strides" [1, 1]).length = 2)
    (hdilations : (NodeAttrHelper.get_ints node "dilations" [1, 1]).length = 2)
    (hbias : Convert_Conv_bias st node = .ok p)
    (hw : node.input[1]? = some w) (hout : node.output[0]? = some out0)
    (hbin : node.domain = "dabnn" ∨ out0 ∈ expected_binary_conv_outputs)
    (hwf : ∀ node2, node2 ∈ st0.self.model_proto_.graph.node →
      node2.op_type = "BatchNormalization" → ∃ in0, node2.input[0]? = some in0) :
    ((¬ ∃ node2, node2 ∈ st0.self.model_proto_.graph.node ∧
          node2.op_type = "BatchNormalization" ∧ node2.input[0]? = some out0) →
      Convert_node env expected_binary_conv_outputs st node
          = .error "Binary convolutions should precede BatchNorm" ∧
        self.Convert env model_proto filepath level expected_binary_conv_outputs
          = .error "Binary convolutions should precede BatchNorm") ∧
    ((∃ node2, node2 ∈ st0.self.model_proto_.graph.node ∧
          node2.op_type = "BatchNormalization" ∧ node2.input[0]? = some out0) →
      Convert_Conv_binary p.2 true out0 st.binary_conv_outputs
        = .ok (st.binary_conv_outputs ++ [out0])) := by
  have hmp : p.2.model_proto_ = st0.self.model_proto_ :=
    (Convert_Conv_bias_model_proto st node p hbias).trans
      (foldlM_Convert_node_model_proto env expected_binary_conv_outputs pre st0 st hpre)
  have hb : ((node.domain == "dabnn") || expected_binary_conv_outputs.contains out0) = true := by
    rcases hbin with h | h
    · simp [h]
    · simp [h]
  constructor
  · intro hno
    have hfalse : precede_bn out0 p.2.model_proto_.graph.node = .ok false := by
      rw [hmp]
      apply precede_bn_false
      intro node2 hmem hbn
      obtain ⟨in0, hin0⟩ := hwf node2 hmem hbn
      refine ⟨in0, hin0, ?_⟩
      intro heq
      exact hno ⟨node2, hmem, hbn, by rw [hin0, heq]⟩
    have hstep : Convert_node env expected_binary_conv_outputs st node
        = .error "Binary convolutions should precede BatchNorm" := by
      rw [Convert_node_eq_Conv env expected_binary_conv_outputs st node hop hr]
      unfold Convert_Conv
      simp only [CHECK_EQ_size, hpads, hstrides, hdilations, if_true, hbias,
        input_at_ok node 1 w hw, output_at_ok node 0 out0 hout, hb, Convert_Conv_binary,
        hfalse, bind, Except.bind]
      rfl
    exact ⟨hstep, Convert_error_of_node_error env self model_proto filepath level
      expected_binary_conv_outputs st0 st pre post node _ hprep hnodes hpre hstep⟩
  · intro hex
    have htrue : precede_bn out0 p.2.model_proto_.graph.node = .ok true := by
      rw [hmp]
      exact precede_bn_true out0 _ hwf hex
    simp [Convert_Conv_binary, htrue, bind, Except.bind, pure, Except.pure]

/-- Witness of C10: the graph whose single node is a Conv with domain "dabnn". -/
theorem Convert_binary_conv_needs_bn_witness :
    Convert_node (⟨fun mp _ => mp, fun t => t, Real.sqrt, fun _ => 0, 1⟩ : Env ℝ) []
        ⟨⟨⟨⟨[⟨"conv", "Conv", "dabnn", ["x", "w"], ["c"], []⟩], [], []⟩⟩,
          [], [], [], [], [], [], []⟩, [], [], false⟩
        ⟨"conv", "Conv", "dabnn", ["x", "w"], ["c"], []⟩
      = .error "Binary convolutions should precede BatchNorm" ∧
    OnnxConverter.Convert (⟨fun mp _ => mp, fun t => t, Real.sqrt, fun _ => 0, 1⟩ : Env ℝ)
        ⟨⟨⟨[], [], []⟩⟩, [], [], [], [], [], [], []⟩
        ⟨⟨[⟨"conv", "Conv", "dabnn", ["x", "w"], ["c"], []⟩], [], []⟩⟩
        "model.dab" Level.kStrict []
      = .error "Binary convolutions should precede BatchNorm" :=
  (Convert_binary_conv_needs_bn
    (⟨fun mp _ => mp, fun t => t, Real.sqrt, fun _ => 0, 1⟩ : Env ℝ)
    ⟨⟨⟨[], [], []⟩⟩, [], [], [], [], [], [], []⟩
    ⟨⟨[⟨"conv", "Conv", "dabnn", ["x", "w"], ["c"], []⟩], [], []⟩⟩
    "model.dab" Level.kStrict []
    ⟨⟨⟨⟨[⟨"conv", "Conv", "dabnn", ["x", "w"], ["c"], []⟩], [], []⟩⟩,
      [], [], [], [], [], [], []⟩, [], [], false⟩
    ⟨⟨⟨⟨[⟨"conv", "Conv", "dabnn", ["x", "w"], ["c"], []⟩], [], []⟩⟩,
      [], [], [], [], [], [], []⟩, [], [], false⟩
    [] [] ⟨"conv", "Conv", "dabnn", ["x", "w"], ["c"], []⟩ "w" "c"
    (none, ⟨⟨⟨[⟨"conv", "Conv", "dabnn", ["x", "w"], ["c"], []⟩], [], []⟩⟩,
      [], [], [], [], [], [], []⟩)
    rfl rfl rfl rfl rfl rfl rfl rfl rfl rfl rfl (Or.inl rfl)
    (by
      intro node2 hmem hbn
      simp only [List.mem_singleton] at hmem
      subst hmem
      exact absurd hbn (by decide))).1
    (by
      rintro ⟨node2, hmem, hbn, _⟩
      simp only [List.mem_singleton] at hmem
      subst hmem
      exact absurd hbn (by decide))

/-! ### What the walk does to the local variables of `Convert` -/

theorem Convert_Pool_locals {F : Type}  (st st1 : Walk F)
    (node : NodeProto F) (h : Convert_Pool st node = .ok st1) :
    st1.binary_conv_outputs = st.binary_conv_outputs ∧ st1.has_reshape = st.has_reshape ∧
      st1.inputs = st.inputs := by
  unfold Convert_Pool at h
  simp only [bind, Except.bind, pure, Except.pure] at h
  repeat' split at h
  all_goals first | (cases h; exact ⟨rfl, rfl, rfl⟩) | cases h

theorem Convert_Relu_locals {F : Type}  (st st1 : Walk F)
    (node : NodeProto F) (h : Convert_Relu st node = .ok st1) :
    st1.binary_conv_outputs = st.binary_conv_outputs ∧ st1.has_reshape = st.has_reshape ∧
      st1.inputs = st.inputs := by
  unfold Convert_Relu at h
  simp only [bind, Except.bind, pure, Except.pure] at h
  repeat' split at h
  all_goals first | (cases h; exact ⟨rfl, rfl, rfl⟩) | cases h

theorem Convert_Add_locals {F : Type}  (st st1 : Walk F)
    (node : NodeProto F) (h : Convert_Add st node = .ok st1) :
    st1.binary_conv_outputs = st.binary_conv_outputs ∧ st1.has_reshape = st.has_reshape ∧
      st1.inputs = st.inputs := by
  unfold Convert_Add at h
  simp only [bind, Except.bind, pure, Except.pure] at h
  repeat' split at h
  all_goals first | (cases h; exact ⟨rfl, rfl, rfl⟩) | cases h

theorem Convert_Softmax_locals {F : Type}  (st st1 : Walk F)
    (node : NodeProto F) (h : Convert_Softmax st node = .ok st1) :
    st1.binary_conv_outputs = st.binary_conv_outputs ∧ st1.has_reshape = st.has_reshape ∧
      st1.inputs = st.inputs := by
  unfold Convert_Softmax at h
  simp only [bind, Except.bind, pure, Except.pure] at h
  repeat' split at h
  all_goals first | (cases h; exact ⟨rfl, rfl, rfl⟩) | cases h

theorem Convert_Concat_locals {F : Type}  (st st1 : Walk F)
    (node : NodeProto F) (h : Convert_Concat st node = .ok st1) :
    st1.binary_conv_outputs = st.binary_conv_outputs ∧ st1.has_reshape = st.has_reshape ∧
      st1.inputs = st.inputs := by
  unfold Convert_Concat at h
  simp only [bind, Except.bind, pure, Except.pure] at h
  repeat' split at h
  all_goals first | (cases h; exact ⟨rfl, rfl, rfl⟩) | cases h

theorem Convert_Dropout_locals {F : Type}  (st st1 : Walk F)
    (node : NodeProto F) (h : Convert_Dropout st node = .ok st1) :
    st1.binary_conv_outputs = st.binary_conv_outputs ∧ st1.has_reshape = st.has_reshape ∧
      st1.inputs = st.inputs := by
  unfold Convert_Dropout at h
  simp only [bind, Except.bind, pure, Except.pure] at h
  repeat' split at h
  all_goals first | (cases h; exact ⟨rfl, rfl, rfl⟩) | cases h

theorem Convert_PRelu_locals {F : Type} [LinearOrderedField F]  (st st1 : Walk F)
    (node : NodeProto F) (h : Convert_PRelu st node = .ok st1) :
    st1.binary_conv_outputs = st.binary_conv_outputs ∧ st1.has_reshape = st.has_reshape ∧
      st1.inputs = st.inputs := by
  unfold Convert_PRelu at h
  simp only [bind, Except.bind, pure, Except.pure] at h
  repeat' split at h
  all_goals first | (cases h; exact ⟨rfl, rfl, rfl⟩) | cases h

theorem Convert_Gemm_locals {F : Type} [LinearOrderedField F]  (st st1 : Walk F)
    (node : NodeProto F) (h : Convert_Gemm st node = .ok st1) :
    st1.binary_conv_outputs = st.binary_conv_outputs ∧ st1.has_reshape = st.has_reshape ∧
      st1.inputs = st.inputs := by
  unfold Convert_Gemm at h
  simp only [bind, Except.bind, pure, Except.pure] at h
  repeat' split at h
  all_goals first | (cases h; exact ⟨rfl, rfl, rfl⟩) | cases h

theorem Convert_BatchNormalization_locals {F : Type} [Field F]  (env : Env F) (st st1 : Walk F)
    (node : NodeProto F) (h : Convert_BatchNormalization env st node = .ok st1) :
    st1.binary_conv_outputs = st.binary_conv_outputs ∧ st1.has_reshape = st.has_reshape ∧
      st1.inputs = st.inputs := by
  unfold Convert_BatchNormalization at h
  simp only [bind, Except.bind, pure, Except.pure] at h
  repeat' split at h
  all_goals first | (cases h; exact ⟨rfl, rfl, rfl⟩) | cases h

theorem output_at_some {F : Type} (node : NodeProto F) (k : Nat) (s : String)
    (h : node.output_at k = .ok s) : node.output[k]? = some s := by
  unfold NodeProto.output_at at h
  split at h
  · cases h; assumption
  · cases h

theorem Convert_Conv_binary_ok {F : Type} (self1 : OnnxConverter F) (binary_conv : Bool)
    (out0 : String) (outs outs1 : List String)
    (h : Convert_Conv_binary self1 binary_conv out0 outs = .ok outs1) :
    outs1 = outs ++ (if binary_conv then [out0] else []) := by
  unfold Convert_Conv_binary at h
  simp only [bind, Except.bind, pure, Except.pure] at h
  repeat' split at h
  all_goals first | (cases h; simp_all) | cases h

theorem Convert_Conv_locals {F : Type} [LinearOrderedField F] (env : Env F)
    (expected_binary_conv_outputs : List String) (st st1 : Walk F) (node : NodeProto F)
    (h : Convert_Conv env expected_binary_conv_outputs st node = .ok st1) :
    (∃ out0, node.output[0]? = some out0 ∧
      st1.binary_conv_outputs = st.binary_conv_outputs ++
        (if (node.domain == "dabnn" || expected_binary_conv_outputs.contains out0) = true
          then [out0] else [])) ∧
      st1.has_reshape = st.has_reshape ∧ st1.inputs = st.inputs := by
  unfold Convert_Conv at h
  simp only [bind, Except.bind, pure, Except.pure] at h
  repeat' split at h
  all_goals first
    | (cases h
       rename_i _ _ ho _ _ hb _ _ _ _ _ _
       have h1 := output_at_some _ _ _ ho
       have h2 := Convert_Conv_binary_ok _ _ _ _ _ hb
       exact ⟨⟨_, h1, h2⟩, rfl, rfl⟩)
    | cases h

theorem binary_conv_output_of_not_Conv {F : Type} (expected_binary_conv_outputs : List String)
    (node : NodeProto F) (h : ¬ (node.op_type == "Conv") = true) :
    binary_conv_output expected_binary_conv_outputs node = none := by
  unfold binary_conv_output
  rw [if_neg h]

theorem Convert_node_locals {F : Type} [LinearOrderedField F] (env : Env F)
    (expected_binary_conv_outputs : List String) (st st1 : Walk F) (node : NodeProto F)
    (h : Convert_node env expected_binary_conv_outputs st node = .ok st1) :
    st1.binary_conv_outputs = st.binary_conv_outputs ++
        (binary_conv_output expected_binary_conv_outputs node).toList ∧
      st.has_reshape = false ∧ st1.inputs = st.inputs ∧
      (node.op_type ≠ "Reshape" → st1.has_reshape = false) := by
  unfold Convert_node at h
  by_cases c0 : st.has_reshape = true
  · rw [if_pos c0] at h; cases h
  rw [if_neg c0] at h
  have hr : st.has_reshape = false := by simpa using c0
  by_cases c1 : (node.op_type == "Conv") = true
  · rw [if_pos c1] at h
    obtain ⟨⟨out0, ho, hb⟩, hs, hi⟩ := Convert_Conv_locals _ _ _ _ _ h
    refine ⟨?_, hr, hi, fun _ => hs.trans hr⟩
    rw [hb]
    unfold binary_conv_output
    rw [if_pos c1, ho]
    by_cases hbin : (node.domain == "dabnn" || expected_binary_conv_outputs.contains out0) = true
    · simp only [if_pos hbin]; rfl
    · simp only [if_neg hbin]; rfl
  rw [if_neg c1] at h
  have hnone := binary_conv_output_of_not_Conv expected_binary_conv_outputs node c1
  rw [hnone]
  simp only [Option.toList, List.append_nil]
  by_cases c2 : (node.op_type == "AveragePool" || node.op_type == "MaxPool"
      || node.op_type == "GlobalAveragePool" || node.op_type == "GlobalMaxPool") = true
  · rw [if_pos c2] at h
    obtain ⟨hb, hs, hi⟩ := Convert_Pool_locals _ _ _ h
    exact ⟨hb, hr, hi, fun _ => hs.trans hr⟩
  rw [if_neg c2] at h
  by_cases c3 : (node.op_type == "PRelu") = true
  · rw [if_pos c3] at h
    obtain ⟨hb, hs, hi⟩ := Convert_PRelu_locals _ _ _ h
    exact ⟨hb, hr, hi, fun _ => hs.trans hr⟩
  rw [if_neg c3] at h
  by_cases c4 : (node.op_type == "Relu") = true
  · rw [if_pos c4] at h
    obtain ⟨hb, hs, hi⟩ := Convert_Relu_locals _ _ _ h
    exact ⟨hb, hr, hi, fun _ => hs.trans hr⟩
  rw [if_neg c4] at h
  by_cases c5 : (node.op_type == "Add") = true
  · rw [if_pos c5] at h
    obtain ⟨hb, hs, hi⟩ := Convert_Add_locals _ _ _ h
    exact ⟨hb, hr, hi, fun _ => hs.trans hr⟩
  rw [if_neg c5] at h
  by_cases c6 : (node.op_type == "Gemm") = true
  · rw [if_pos c6] at h
    obtain ⟨hb, hs, hi⟩ := Convert_Gemm_locals _ _ _ h
    exact ⟨hb, hr, hi, fun _ => hs.trans hr⟩
  rw [if_neg c6] at h
  by_cases c7 : (node.op_type == "Softmax") = true
  · rw [if_pos c7] at h
    obtain ⟨hb, hs, hi⟩ := Convert_Softmax_locals _ _ _ h
    exact ⟨hb, hr, hi, fun _ => hs.trans hr⟩
  rw [if_neg c7] at h
  by_cases c8 : (node.op_type == "Concat") = true
  · rw [if_pos c8] at h
    obtain ⟨hb, hs, hi⟩ := Convert_Concat_locals _ _ _ h
    exact ⟨hb, hr, hi, fun _ => hs.trans hr⟩
  rw [if_neg c8] at h
  by_cases c9 : (node.op_type == "Dropout") = true
  · rw [if_pos c9] at h
    obtain ⟨hb, hs, hi⟩ := Convert_Dropout_locals _ _ _ h
    exact ⟨hb, hr, hi, fun _ => hs.trans hr⟩
  rw [if_neg c9] at h
  by_cases c10 : (node.op_type == "Reshape") = true
  · rw [if_pos c10] at h; cases h
    exact ⟨rfl, hr, rfl, fun hne => absurd (by simpa using c10) hne⟩
  rw [if_neg c10] at h
  by_cases c11 : (node.op_type == "BatchNormalization") = true
  · rw [if_pos c11] at h
    obtain ⟨hb, hs, hi⟩ := Convert_BatchNormalization_locals _ _ _ _ h
    exact ⟨hb, hr, hi, fun _ => hs.trans hr⟩
  rw [if_neg c11] at h
  cases h

theorem foldlM_Convert_node_locals {F : Type} [LinearOrderedField F] (env : Env F)
    (expected_binary_conv_outputs : List String) (nodes : List (NodeProto F)) (st st1 : Walk F)
    (h : nodes.foldlM (Convert_node env expected_binary_conv_outputs) st = .ok st1) :
    st1.binary_conv_outputs = st.binary_conv_outputs ++
        binary_conv_outputs_of expected_binary_conv_outputs nodes ∧
      st1.inputs = st.inputs := by
  induction nodes generalizing st with
  | nil => cases h; simp [binary_conv_outputs_of]
  | cons node rest ih =>
    rw [List.foldlM_cons] at h
    cases hstep : Convert_node env expected_binary_conv_outputs st node with
    | error e => rw [hstep] at h; cases h
    | ok st2 =>
      rw [hstep] at h
      obtain ⟨hb, _, hi, _⟩ := Convert_node_locals _ _ _ _ _ hstep
      obtain ⟨hb2, hi2⟩ := ih st2 h
      refine ⟨?_, hi2.trans hi⟩
      rw [hb2, hb, List.append_assoc]
      congr 1
      unfold binary_conv_outputs_of
      rw [List.filterMap_cons]
      cases binary_conv_output expected_binary_conv_outputs node <;> rfl

theorem foldlM_Convert_node_steps {F : Type} [LinearOrderedField F] (env : Env F)
    (expected_binary_conv_outputs : List String) (nodes : List (NodeProto F)) (st st1 : Walk F)
    (h : nodes.foldlM (Convert_node env expected_binary_conv_outputs) st = .ok st1)
    (node : NodeProto F) (hmem : node ∈ nodes) :
    ∃ sa sb, Convert_node env expected_binary_conv_outputs sa node = .ok sb := by
  induction nodes generalizing st with
  | nil => cases hmem
  | cons node2 rest ih =>
    rw [List.foldlM_cons] at h
    cases hstep : Convert_node env expected_binary_conv_outputs st node2 with
    | error e => rw [hstep] at h; cases h
    | ok st2 =>
      rw [hstep] at h
      rcases List.mem_cons.mp hmem with rfl | hm
      · exact ⟨st, st2, hstep⟩
      · exact ih st2 h hm

theorem foldlM_Convert_node_has_reshape {F : Type} [LinearOrderedField F] (env : Env F)
    (expected_binary_conv_outputs : List String) (nodes : List (NodeProto F)) (st st1 : Walk F)
    (h : nodes.foldlM (Convert_node env expected_binary_conv_outputs) st = .ok st1)
    (hr : st.has_reshape = false) (hno : ∀ node, node ∈ nodes → node.op_type ≠ "Reshape") :
    st1.has_reshape = false := by
  induction nodes generalizing st with
  | nil => cases h; exact hr
  | cons node rest ih =>
    rw [List.foldlM_cons] at h
    cases hstep : Convert_node env expected_binary_conv_outputs st node with
    | error e => rw [hstep] at h; cases h
    | ok st2 =>
      rw [hstep] at h
      obtain ⟨_, _, _, hs⟩ := Convert_node_locals _ _ _ _ _ hstep
      exact ih st2 h (hs (hno node (List.mem_cons_self _ _)))
        (fun n hn => hno n (List.mem_cons_of_mem _ hn))

/-! ### The phases of `Convert` -/

theorem foldl_Convert_initializer {F : Type} (env : Env F) (l : List (TensorProto F))
    (self : OnnxConverter F) :
    (l.foldl (Convert_initializer env) self).model_proto_ = self.model_proto_ ∧
      (l.foldl (Convert_initializer env) self).operands_
        = self.operands_ ++ l.map (fun t => t.name) ∧
      (l.foldl (Convert_initializer env) self).shaper_ = self.shaper_ := by
  induction l generalizing self with
  | nil => simp
  | cons t rest ih =>
    obtain ⟨h1, h2, h3⟩ := ih (Convert_initializer env self t)
    rw [List.foldl_cons, h1, h2, h3]
    refine ⟨?_, ?_, ?_⟩
    · unfold Convert_initializer
      split <;> rfl
    · have : (Convert_initializer env self t).operands_ = self.operands_ ++ [t.name] := by
        unfold Convert_initializer
        split <;> rfl
      rw [this]
      simp
    · unfold Convert_initializer
      split <;> rfl

theorem check_expected_ok_iff (outs : List String) (l : List String) :
    check_expected outs l = .ok () ↔ ∀ e, e ∈ l → e ∈ outs := by
  induction l with
  | nil => simp [check_expected]
  | cons e rest ih =>
    unfold check_expected
    by_cases he : e ∈ outs
    · simp [he, ih]
    · simp [he]

theorem check_expected_first_missing (outs pre post : List String) (e : String)
    (hpre : ∀ p, p ∈ pre → p ∈ outs) (he : e ∉ outs) :
    check_expected outs (pre ++ e :: post)
      = .error (e ++
        " is in the list file but not in the ONNX model, please check your list file") := by
  induction pre with
  | nil =>
    simp [check_expected, he]
  | cons p rest ih =>
    have hp : p ∈ outs := hpre p (List.mem_cons_self _ _)
    rw [List.cons_append]
    unfold check_expected
    have hc : outs.contains p = true := by simpa using hp
    rw [if_pos hc]
    exact ih (fun q hq => hpre q (List.mem_cons_of_mem _ hq))

theorem Convert_ok {F : Type} [LinearOrderedField F] (env : Env F)
    (self : OnnxConverter F) (model_proto : ModelProto F) (filepath : String) (level : Level)
    (expected_binary_conv_outputs : List String) (c : Converted F)
    (h : self.Convert env model_proto filepath level expected_binary_conv_outputs = .ok c) :
    ∃ st0 st, self.Convert_prepare env model_proto level = .ok st0 ∧
      st0.self.model_proto_.graph.node.foldlM
        (Convert_node env expected_binary_conv_outputs) st0 = .ok st ∧
      check_expected st.binary_conv_outputs expected_binary_conv_outputs = .ok () ∧
      c = ⟨st.binary_conv_outputs, st.self, filepath,
        ⟨st.self.layers_, st.self.tensors_, st.inputs, env.BNN_LATEST_MODEL_VERSION⟩⟩ := by
  unfold OnnxConverter.Convert at h
  cases hp : self.Convert_prepare env model_proto level with
  | error e => rw [hp] at h; cases h
  | ok st0 =>
    rw [hp] at h
    simp only [bind, Except.bind] at h
    cases hw : st0.self.model_proto_.graph.node.foldlM
        (Convert_node env expected_binary_conv_outputs) st0 with
    | error e => rw [hw] at h; cases h
    | ok st =>
      rw [hw] at h
      simp only at h
      cases hc : check_expected st.binary_conv_outputs expected_binary_conv_outputs with
      | error e => rw [hc] at h; cases h
      | ok u =>
        rw [hc] at h
        simp only [pure, Except.pure] at h
        cases h
        exact ⟨st0, st, rfl, hw, hc, rfl⟩

theorem Convert_of_phases {F : Type} [LinearOrderedField F] (env : Env F)
    (self : OnnxConverter F) (model_proto : ModelProto F) (filepath : String) (level : Level)
    (expected_binary_conv_outputs : List String) (st0 st : Walk F)
    (hp : self.Convert_prepare env model_proto level = .ok st0)
    (hw : st0.self.model_proto_.graph.node.foldlM
        (Convert_node env expected_binary_conv_outputs) st0 = .ok st) :
    self.Convert env model_proto filepath level expected_binary_conv_outputs
      = (check_expected st.binary_conv_outputs expected_binary_conv_outputs).map (fun _ =>
          ⟨st.binary_conv_outputs, st.self, filepath,
            ⟨st.self.layers_, st.self.tensors_, st.inputs, env.BNN_LATEST_MODEL_VERSION⟩⟩) := by
  unfold OnnxConverter.Convert
  rw [hp]
  simp only [bind, Except.bind]
  rw [hw]
  simp only
  cases hc : check_expected st.binary_conv_outputs expected_binary_conv_outputs <;> rfl

/-! ### The inputs of the graph -/

theorem mapM_dim_value (dims : List (Option Int)) (shape : List Nat)
    (h : dims.mapM (fun d =>
      match d with
      | some v => Except.ok (to_uint32 v)
      | none => (Except.error "The input of graph doesn't have dim_value" : Except String Nat))
      = .ok shape) :
    shape = dims.map (fun d => to_uint32 (d.getD 0)) := by
  induction dims generalizing shape with
  | nil =>
    simp only [List.mapM_nil, pure, Except.pure] at h
    cases h
    rfl
  | cons d rest ih =>
    rw [List.mapM_cons] at h
    cases d with
    | none => simp only [bind, Except.bind] at h; cases h
    | some v =>
      simp only [bind, Except.bind] at h
      split at h
      · cases h
      · rename_i rs hrs
        simp only [pure, Except.pure] at h
        cases h
        rw [ih rs hrs]
        rfl

theorem mapM_dim_value_ok (vals : List Int) :
    (vals.map some).mapM (fun d =>
      match d with
      | some v => Except.ok (to_uint32 v)
      | none => (Except.error "The input of graph doesn't have dim_value" : Except String Nat))
      = .ok (vals.map to_uint32) := by
  induction vals with
  | nil => rfl
  | cons v rest ih =>
    rw [List.map_cons, List.mapM_cons, ih]
    rfl

theorem dim_of_ok_getD (l : List Nat) (i d : Nat) (h : dim_of l[i]? = .ok d) : d = l.getD i 0 := by
  unfold dim_of at h
  split at h
  · rename_i v hv
    cases h
    simp [List.getD, hv]
  · cases h

theorem Convert_input_skip {F : Type} (acc : OnnxConverter F × List Input)
    (input : ValueInfoProto) (h : acc.1.operands_.contains input.name = true) :
    Convert_input acc input = .ok acc := by
  unfold Convert_input
  rw [if_pos h]

theorem Convert_input_ok {F : Type} (acc acc1 : OnnxConverter F × List Input)
    (input : ValueInfoProto) (hn : ¬ acc.1.operands_.contains input.name = true)
    (h : Convert_input acc input = .ok acc1) :
    StrKeyMap.find acc.1.shaper_ input.name = none ∧
      acc1 = ({ acc.1 with
          shaper_ := (StrKeyMap.set acc.1.shaper_ input.name (input_nhwc_shape input)) },
        acc.2 ++ [⟨input_nhwc_shape input, input.name⟩]) := by
  unfold Convert_input at h
  rw [if_neg hn] at h
  simp only [bind, Except.bind] at h
  split at h
  · cases h
  · rename_i shape hshape
    have hs := mapM_dim_value _ _ hshape
    split at h
    · cases h
    · rename_i d0 h0
      split at h
      · cases h
      · rename_i d2 h2
        split at h
        · cases h
        · rename_i d3 h3
          split at h
          · cases h
          · rename_i d1 h1
            have e0 := dim_of_ok_getD _ _ _ h0
            have e1 := dim_of_ok_getD _ _ _ h1
            have e2 := dim_of_ok_getD _ _ _ h2
            have e3 := dim_of_ok_getD _ _ _ h3
            have hshp : [d0, d2, d3, d1] = input_nhwc_shape input := by
              unfold input_nhwc_shape
              rw [e0, e1, e2, e3, hs]
            rw [hshp] at h
            unfold Shaper.AddShape at h
            cases hf : StrKeyMap.find acc.1.shaper_ input.name with
            | some s =>
              rw [hf] at h
              cases h
            | none =>
              rw [hf] at h
              simp only [pure, Except.pure] at h
              cases h
              exact ⟨rfl, rfl⟩

theorem foldlM_Convert_input {F : Type} (ops : List String) (inputs : List ValueInfoProto)
    (acc acc1 : OnnxConverter F × List Input) (hops : acc.1.operands_ = ops)
    (h : inputs.foldlM Convert_input acc = .ok acc1) :
    acc1.2 = acc.2 ++ input_records ops inputs ∧
      acc1.1.model_proto_ = acc.1.model_proto_ ∧ acc1.1.operands_ = ops ∧
      (∀ k s, StrKeyMap.find acc.1.shaper_ k = some s →
        StrKeyMap.find acc1.1.shaper_ k = some s) ∧
      (∀ input, input ∈ inputs → ¬ ops.contains input.name = true →
        StrKeyMap.find acc1.1.shaper_ input.name = some (input_nhwc_shape input)) ∧
      (∀ k, (∀ input, input ∈ inputs → input.name = k → ops.contains input.name = true) →
        StrKeyMap.find acc1.1.shaper_ k = StrKeyMap.find acc.1.shaper_ k) := by
  induction inputs generalizing acc with
  | nil =>
    simp only [List.foldlM_nil, pure, Except.pure] at h
    cases h
    refine ⟨by simp [input_records], rfl, hops, fun _ _ hk => hk, ?_, fun _ _ => rfl⟩
    intro input hin
    cases hin
  | cons input rest ih =>
    rw [List.foldlM_cons] at h
    by_cases hc : ops.contains input.name = true
    · have hc1 : acc.1.operands_.contains input.name = true := by rw [hops]; exact hc
      rw [Convert_input_skip acc input hc1] at h
      simp only [bind, Except.bind] at h
      obtain ⟨h1, h2, h3, h4, h5, h6⟩ := ih acc hops h
      refine ⟨?_, h2, h3, h4, ?_, ?_⟩
      · rw [h1]
        have hm : input.name ∈ ops := by simpa using hc
        simp [input_records, List.filter_cons, hm]
      · intro i hi hni
        rcases List.mem_cons.mp hi with rfl | hi
        · exact absurd hc hni
        · exact h5 i hi hni
      · intro k hk
        exact h6 k (fun i hi => hk i (List.mem_cons_of_mem _ hi))
    · have hc1 : ¬ acc.1.operands_.contains input.name = true := by rw [hops]; exact hc
      cases hstep : Convert_input acc input with
      | error e =>
        rw [hstep] at h
        simp only [bind, Except.bind] at h
        cases h
      | ok acc2 =>
        rw [hstep] at h
        simp only [bind, Except.bind] at h
        obtain ⟨hf, hacc2⟩ := Convert_input_ok acc acc2 input hc1 hstep
        have hops2 : acc2.1.operands_ = ops := by rw [hacc2]; exact hops
        obtain ⟨h1, h2, h3, h4, h5, h6⟩ := ih acc2 hops2 h
        have hset : StrKeyMap.find acc2.1.shaper_ input.name
            = some (input_nhwc_shape input) := by
          rw [hacc2]
          exact find_set_self _ _ _
        refine ⟨?_, ?_, h3, ?_, ?_, ?_⟩
        · rw [h1, hacc2]
          have hm : input.name ∉ ops := by simpa using hc
          simp [input_records, List.filter_cons, hm]
        · rw [h2, hacc2]
        · intro k s hk
          apply h4
          rw [hacc2]
          by_cases hkn : k = input.name
          · rw [hkn, hf] at hk
            cases hk
          · show StrKeyMap.find (StrKeyMap.set acc.1.shaper_ input.name _) k = some s
            rw [find_set_ne _ _ _ _ hkn]
            exact hk
        · intro i hi hni
          rcases List.mem_cons.mp hi with rfl | hi
          · exact h4 _ _ hset
          · exact h5 i hi hni
        · intro k hk
          have hkn : k ≠ input.name := by
            intro hkn
            exact hc (hk input (List.mem_cons_self _ _) hkn.symm)
          rw [h6 k (fun i hi => hk i (List.mem_cons_of_mem _ hi)), hacc2]
          exact find_set_ne _ _ _ _ hkn

theorem Convert_prepare_ok {F : Type} (env : Env F) (self : OnnxConverter F)
    (model_proto : ModelProto F) (level : Level) (st0 : Walk F)
    (h : self.Convert_prepare env model_proto level = .ok st0) :
    st0.self.model_proto_ = env.Optimize model_proto (optimizers level) ∧
      st0.binary_conv_outputs = [] ∧ st0.has_reshape = false ∧
      (env.Optimize model_proto (optimizers level)).graph.input.foldlM Convert_input
        ((env.Optimize model_proto (optimizers level)).graph.initializer.foldl
          (Convert_initializer env)
          { self with model_proto_ := env.Optimize model_proto (optimizers level) }, [])
        = .ok (st0.self, st0.inputs) := by
  unfold OnnxConverter.Convert_prepare at h
  simp only [bind, Except.bind] at h
  obtain ⟨hm, ho, hs⟩ := foldl_Convert_initializer env
    (env.Optimize model_proto (optimizers level)).graph.initializer
    { self with model_proto_ := env.Optimize model_proto (optimizers level) }
  rw [hm] at h
  split at h
  · cases h
  · rename_i acc hacc
    simp only [pure, Except.pure] at h
    cases h
    obtain ⟨_, h2, _⟩ := foldlM_Convert_input _ _ _ _ rfl hacc
    refine ⟨?_, rfl, rfl, hacc⟩
    rw [h2, hm]

/-! ### The list `Convert` returns and the expected list -/

theorem binary_conv_output_some {F : Type} (expected : List String) (node : NodeProto F)
    (x : String) (h : binary_conv_output expected node = some x) :
    node.op_type = "Conv" ∧ node.output[0]? = some x := by
  unfold binary_conv_output at h
  split at h
  · rename_i hop
    split at h
    · rename_i out0 ho
      split at h
      · cases h
        exact ⟨by simpa using hop, ho⟩
      · cases h
    · cases h
  · cases h

theorem binary_conv_output_of_expected {F : Type} (expected : List String) (node : NodeProto F)
    (x : String) (hop : node.op_type = "Conv") (ho : node.output[0]? = some x)
    (hx : x ∈ expected) : binary_conv_output expected node = some x := by
  unfold binary_conv_output
  have hop1 : (node.op_type == "Conv") = true := by simpa using hop
  rw [if_pos hop1, ho]
  have hc : (node.domain == "dabnn" || expected.contains x) = true := by
    simp [hx]
  simp only [hc, if_true]

theorem Convert_walk_result {F : Type} [LinearOrderedField F] (env : Env F)
    (self : OnnxConverter F) (model_proto : ModelProto F) (level : Level)
    (expected_binary_conv_outputs : List String) (st0 st : Walk F)
    (hp : self.Convert_prepare env model_proto level = .ok st0)
    (hw : st0.self.model_proto_.graph.node.foldlM
        (Convert_node env expected_binary_conv_outputs) st0 = .ok st) :
    st.binary_conv_outputs = binary_conv_outputs_of expected_binary_conv_outputs
      (env.Optimize model_proto (optimizers level)).graph.node := by
  obtain ⟨hm, hb, _, _⟩ := Convert_prepare_ok env self model_proto level st0 hp
  have h := (foldlM_Convert_node_locals env expected_binary_conv_outputs _ st0 st hw).1
  rw [hb, hm] at h
  simpa using h

/-- C12: whenever `Convert` succeeds, the list it returns is exactly the sequence, in the order
of the nodes of the optimized graph, of the `output(0)` of every Conv node whose domain is
"dabnn" or whose `output(0)` occurs in the expected list, and every name of the expected list
occurs in the returned list. -/
theorem Convert_returned_list {F : Type} [LinearOrderedField F] (env : Env F)
    (self : OnnxConverter F) (model_proto : ModelProto F) (filepath : String) (level : Level)
    (expected_binary_conv_outputs : List String) (c : Converted F)
    (h : self.Convert env model_proto filepath level expected_binary_conv_outputs = .ok c) :
    c.binary_conv_outputs = binary_conv_outputs_of expected_binary_conv_outputs
        (env.Optimize model_proto (optimizers level)).graph.node ∧
      ∀ e, e ∈ expected_binary_conv_outputs → e ∈ c.binary_conv_outputs := by
  obtain ⟨st0, st, hp, hw, hc, rfl⟩ := Convert_ok env self model_proto filepath level
    expected_binary_conv_outputs c h
  exact ⟨Convert_walk_result env self model_proto level expected_binary_conv_outputs st0 st hp hw,
    (check_expected_ok_iff _ _).mp hc⟩

theorem Convert_returned_list_witness :
    ∃ c, OnnxConverter.Convert
      (⟨fun mp _ => mp,
        fun t => ⟨t.data,
          [t.shape.getD 0 0, t.shape.getD 2 0, t.shape.getD 3 0, t.shape.getD 1 0], false⟩,
        Real.sqrt, fun _ => 0, 1⟩ : Env ℝ)
      ⟨⟨⟨[], [], []⟩⟩, [], [], [], [], [], [], []⟩
      ⟨⟨[⟨"conv1", "Conv", "dabnn", ["x", "w"], ["c"], []⟩,
         ⟨"bn1", "BatchNormalization", "", ["c", "s", "b", "m", "v"], ["y"],
          [⟨"eps", 0, 0, []⟩]⟩,
         ⟨"conv2", "Conv", "", ["y", "w2"], ["d"], []⟩,
         ⟨"conv3", "Conv", "", ["d", "w3"], ["e"], []⟩,
         ⟨"bn3", "BatchNormalization", "", ["e", "s", "b", "m", "v"], ["z"],
          [⟨"eps", 0, 0, []⟩]⟩],
        [⟨"w", 1, [1, 3, 1, 1], [1, 1, 1], []⟩, ⟨"w2", 1, [1, 1, 1, 1], [1], []⟩,
         ⟨"w3", 1, [1, 1, 1, 1], [1], []⟩, ⟨"s", 1, [1], [1], []⟩,
         ⟨"b", 1, [1], [0], []⟩, ⟨"m", 1, [1], [0], []⟩, ⟨"v", 1, [1], [1], []⟩],
        [⟨"x", [some 1, some 3, some 4, some 4]⟩]⟩⟩
      "model.dab" Level.kStrict ["e"] = .ok c ∧
      c.binary_conv_outputs = ["c", "e"] ∧ "e" ∈ c.binary_conv_outputs := by
  refine Exists.imp (fun c hc => ⟨hc, ?_⟩) ⟨_, rfl⟩
  have h := Convert_returned_list _ _ _ _ _ _ c hc
  exact ⟨h.1.trans (by decide), h.2 "e" (List.mem_singleton.mpr rfl)⟩

/-- C11: when the expected list holds a name `e` that is not the `output(0)` of any Conv node of
the optimized graph, `Convert` does not succeed; and when the walk over the nodes raises no
error and `e` is the first such name of the list, the failure is the message
`e ++ " is in the list file but not in the ONNX model, please check your list file"`, an error
that carries no model. -/
theorem Convert_expected_list_enforced {F : Type} [LinearOrderedField F] (env : Env F)
    (self : OnnxConverter F) (model_proto : ModelProto F) (filepath : String) (level : Level)
    (expected_binary_conv_outputs : List String) (e : String)
    (he : e ∈ expected_binary_conv_outputs)
    (hno : ∀ node, node ∈ (env.Optimize model_proto (optimizers level)).graph.node →
      node.op_type = "Conv" → node.output[0]? ≠ some e) :
    (∀ c, self.Convert env model_proto filepath level expected_binary_conv_outputs ≠ .ok c) ∧
    (∀ st0 st pre post, self.Convert_prepare env model_proto level = .ok st0 →
      st0.self.model_proto_.graph.node.foldlM
        (Convert_node env expected_binary_conv_outputs) st0 = .ok st →
      expected_binary_conv_outputs = pre ++ e :: post →
      (∀ p, p ∈ pre → ∃ node, node ∈ (env.Optimize model_proto (optimizers level)).graph.node ∧
        node.op_type = "Conv" ∧ node.output[0]? = some p) →
      self.Convert env model_proto filepath level expected_binary_conv_outputs
        = .error (e ++
          " is in the list file but not in the ONNX model, please check your list file")) := by
  have hmiss : e ∉ binary_conv_outputs_of expected_binary_conv_outputs
      (env.Optimize model_proto (optimizers level)).graph.node := by
    intro hmem
    unfold binary_conv_outputs_of at hmem
    obtain ⟨node, hn, hb⟩ := List.mem_filterMap.mp hmem
    obtain ⟨hop, ho⟩ := binary_conv_output_some _ _ _ hb
    exact hno node hn hop ho
  constructor
  · intro c hc
    have h := Convert_returned_list env self model_proto filepath level
      expected_binary_conv_outputs c hc
    have hm := h.2 e he
    rw [h.1] at hm
    exact hmiss hm
  · intro st0 st pre post hp hw hsplit hpre
    have hres := Convert_walk_result env self model_proto level expected_binary_conv_outputs
      st0 st hp hw
    rw [Convert_of_phases env self model_proto filepath level expected_binary_conv_outputs
      st0 st hp hw, hres]
    have hfirst := check_expected_first_missing
      (binary_conv_outputs_of expected_binary_conv_outputs
        (env.Optimize model_proto (optimizers level)).graph.node) pre post e ?_ hmiss
    · rw [← hsplit] at hfirst
      rw [hfirst]
      rfl
    · intro p hpm
      obtain ⟨node, hn, hop, ho⟩ := hpre p hpm
      unfold binary_conv_outputs_of
      refine List.mem_filterMap.mpr ⟨node, hn, ?_⟩
      apply binary_conv_output_of_expected _ _ _ hop ho
      rw [hsplit]
      exact List.mem_append_left _ hpm

theorem Convert_expected_list_enforced_witness :
    OnnxConverter.Convert
      (⟨fun mp _ => mp,
        fun t => ⟨t.data,
          [t.shape.getD 0 0, t.shape.getD 2 0, t.shape.getD 3 0, t.shape.getD 1 0], false⟩,
        Real.sqrt, fun _ => 0, 1⟩ : Env ℝ)
      ⟨⟨⟨[], [], []⟩⟩, [], [], [], [], [], [], []⟩
      ⟨⟨[⟨"conv1", "Conv", "", ["x", "w"], ["c"], []⟩,
         ⟨"bn1", "BatchNormalization", "", ["c", "s", "b", "m", "v"], ["y"],
          [⟨"eps", 0, 0, []⟩]⟩,
         ⟨"relu", "Relu", "", ["y"], ["r"], []⟩],
        [⟨"w", 1, [1, 3, 1, 1], [1, 1, 1], []⟩, ⟨"s", 1, [1], [1], []⟩,
         ⟨"b", 1, [1], [0], []⟩, ⟨"m", 1, [1], [0], []⟩, ⟨"v", 1, [1], [1], []⟩],
        [⟨"x", [some 1, some 3, some 4, some 4]⟩]⟩⟩
      "model.dab" Level.kStrict ["c", "r", "y"]
      = .error "r is in the list file but not in the ONNX model, please check your list file" :=
  (Convert_expected_list_enforced _ _ _ _ _ _ "r" (by decide) (by decide)).2 _ _ ["c"] ["y"]
    rfl rfl rfl (by decide)

/-! ### Reshape and unsupported operators -/

theorem Convert_node_after_reshape {F : Type} [LinearOrderedField F] (env : Env F)
    (expected_binary_conv_outputs : List String) (st : Walk F) (node : NodeProto F)
    (hr : st.has_reshape = true) :
    Convert_node env expected_binary_conv_outputs st node
      = .error "Reshape can only be the last layer for now" := by
  unfold Convert_node
  rw [if_pos hr]

theorem Convert_node_eq_Reshape {F : Type} [LinearOrderedField F] (env : Env F)
    (expected_binary_conv_outputs : List String) (st : Walk F) (node : NodeProto F)
    (hop : node.op_type = "Reshape") (hr : st.has_reshape = false) :
    Convert_node env expected_binary_conv_outputs st node
      = .ok { st with has_reshape := true } := by
  unfold Convert_node
  rw [hr, hop]
  simp

/-- C13: Reshape must be the last node. Let the graph be `pre ++ reshape :: rest` with `reshape`
a Reshape node, and let no node of `pre` fail. If `rest` is not empty (whatever the kind of its
nodes), `Convert` fails with "Reshape can only be the last layer for now". If `rest` is empty
and `pre` has no Reshape node, the Reshape node only sets the flag: layers, tensors, shapes and
the other parts of the state are left as they are, and `Convert` goes on to the check of the
expected list, which is the only thing that can still fail. -/
theorem Convert_reshape_last {F : Type} [LinearOrderedField F] (env : Env F)
    (self : OnnxConverter F) (model_proto : ModelProto F) (filepath : String) (level : Level)
    (expected_binary_conv_outputs : List String) (st0 st : Walk F)
    (pre rest : List (NodeProto F)) (reshape : NodeProto F)
    (hprep : self.Convert_prepare env model_proto level = .ok st0)
    (hnodes : st0.self.model_proto_.graph.node = pre ++ reshape :: rest)
    (hop : reshape.op_type = "Reshape")
    (hpre : pre.foldlM (Convert_node env expected_binary_conv_outputs) st0 = .ok st) :
    (rest ≠ [] →
      self.Convert env model_proto filepath level expected_binary_conv_outputs
        = .error "Reshape can only be the last layer for now") ∧
    (rest = [] → (∀ node, node ∈ pre → node.op_type ≠ "Reshape") →
      Convert_node env expected_binary_conv_outputs st reshape
        = .ok { st with has_reshape := true } ∧
      self.Convert env model_proto filepath level expected_binary_conv_outputs
        = (check_expected st.binary_conv_outputs expected_binary_conv_outputs).map (fun _ =>
          ⟨st.binary_conv_outputs, st.self, filepath,
            ⟨st.self.layers_, st.self.tensors_, st.inputs, env.BNN_LATEST_MODEL_VERSION⟩⟩)) := by
  constructor
  · intro hrest
    cases hr : st.has_reshape with
    | true =>
      exact Convert_error_of_node_error env self model_proto filepath level
        expected_binary_conv_outputs st0 st pre rest reshape _ hprep hnodes hpre
        (Convert_node_after_reshape env expected_binary_conv_outputs st reshape hr)
    | false =>
      cases rest with
      | nil => exact absurd rfl hrest
      | cons next post =>
        have hstep := Convert_node_eq_Reshape env expected_binary_conv_outputs st reshape hop hr
        have hpre2 : (pre ++ [reshape]).foldlM (Convert_node env expected_binary_conv_outputs) st0
            = .ok { st with has_reshape := true } := by
          rw [List.foldlM_append, hpre]
          simp only [bind, Except.bind, List.foldlM_cons, hstep, List.foldlM_nil, pure,
            Except.pure]
        have hnodes2 : st0.self.model_proto_.graph.node = (pre ++ [reshape]) ++ next :: post := by
          rw [hnodes]
          simp
        exact Convert_error_of_node_error env self model_proto filepath level
          expected_binary_conv_outputs st0 _ (pre ++ [reshape]) post next _ hprep hnodes2 hpre2
          (Convert_node_after_reshape env expected_binary_conv_outputs _ next rfl)
  · intro hrest hno
    subst hrest
    have hr0 := (Convert_prepare_ok env self model_proto level st0 hprep).2.2.1
    have hr := foldlM_Convert_node_has_reshape env expected_binary_conv_outputs pre st0 st hpre
      hr0 hno
    have hstep := Convert_node_eq_Reshape env expected_binary_conv_outputs st reshape hop hr
    refine ⟨hstep, ?_⟩
    have hw : st0.self.model_proto_.graph.node.foldlM
        (Convert_node env expected_binary_conv_outputs) st0
          = .ok { st with has_reshape := true } := by
      rw [hnodes, List.foldlM_append, hpre]
      simp only [bind, Except.bind, List.foldlM_cons, hstep, List.foldlM_nil, pure, Except.pure]
    have hm := Convert_of_phases env self model_proto filepath level
      expected_binary_conv_outputs st0 _ hprep hw
    exact hm

theorem Convert_reshape_last_witness :
    (OnnxConverter.Convert
      (⟨fun mp _ => mp,
        fun t => ⟨t.data,
          [t.shape.getD 0 0, t.shape.getD 2 0, t.shape.getD 3 0, t.shape.getD 1 0], false⟩,
        Real.sqrt, fun _ => 0, 1⟩ : Env ℝ)
      ⟨⟨⟨[], [], []⟩⟩, [], [], [], [], [], [], []⟩
      ⟨⟨[⟨"relu", "Relu", "", ["x"], ["y"], []⟩,
         ⟨"reshape", "Reshape", "", ["y", "shape"], ["z"], []⟩,
         ⟨"tanh", "Tanh", "", ["z"], ["t"], []⟩],
        [],
        [⟨"x", [some 1, some 3, some 4, some 4]⟩]⟩⟩
      "model.dab" Level.kStrict []
      = .error "Reshape can only be the last layer for now") ∧
    (OnnxConverter.Convert
      (⟨fun mp _ => mp,
        fun t => ⟨t.data,
          [t.shape.getD 0 0, t.shape.getD 2 0, t.shape.getD 3 0, t.shape.getD 1 0], false⟩,
        Real.sqrt, fun _ => 0, 1⟩ : Env ℝ)
      ⟨⟨⟨[], [], []⟩⟩, [], [], [], [], [], [], []⟩
      ⟨⟨[⟨"relu", "Relu", "", ["x"], ["y"], []⟩,
         ⟨"reshape", "Reshape", "", ["y", "shape"], ["z"], []⟩],
        [],
        [⟨"x", [some 1, some 3, some 4, some 4]⟩]⟩⟩
      "model.dab" Level.kStrict []).map (fun c => (c.model.layers, c.model.tensors))
      = .ok ([Layer.Relu "x" "y"], []) :=
  ⟨(Convert_reshape_last _ _ _ _ _ _ _ _ [⟨"relu", "Relu", "", ["x"], ["y"], []⟩]
      [⟨"tanh", "Tanh", "", ["z"], ["t"], []⟩] ⟨"reshape", "Reshape", "", ["y", "shape"], ["z"], []⟩
      (by rfl) (by rfl) (by rfl) (by rfl)).1 (by simp),
   congrArg (Except.map (fun c => (c.model.layers, c.model.tensors)))
     ((Convert_reshape_last _ _ _ _ _ _ _ _ [⟨"relu", "Relu", "", ["x"], ["y"], []⟩]
      [] ⟨"reshape", "Reshape", "", ["y", "shape"], ["z"], []⟩
      (by rfl) (by rfl) (by rfl) (by rfl)).2 rfl (by decide)).2⟩

theorem Convert_node_unsupported {F : Type} [LinearOrderedField F] (env : Env F)
    (expected_binary_conv_outputs : List String) (st : Walk F) (node : NodeProto F)
    (hop : node.op_type ∉ ["Conv", "AveragePool", "MaxPool", "GlobalAveragePool",
      "GlobalMaxPool", "PRelu", "Relu", "Add", "Gemm", "Softmax", "Concat", "Dropout",
      "Reshape", "BatchNormalization"])
    (hr : st.has_reshape = false) :
    Convert_node env expected_binary_conv_outputs st node
      = .error ("Unsupported operator " ++ node.op_type) := by
  simp only [List.mem_cons, List.mem_singleton, List.not_mem_nil, or_false, not_or] at hop
  obtain ⟨h1, h2, h3, h4, h5, h6, h7, h8, h9, h10, h11, h12, h13, h14⟩ := hop
  unfold Convert_node
  rw [hr]
  simp [h1, h2, h3, h4, h5, h6, h7, h8, h9, h10, h11, h12, h13, h14]

/-- C14: an unsupported operator is fatal. When the optimized graph holds a node whose op type
is none of the fourteen handled ones, `Convert` never succeeds; and when the walk reaches that
node with no node before it failing and no Reshape before it, `Convert` fails with
"Unsupported operator " followed by the op type. -/
theorem Convert_unsupported_operator {F : Type} [LinearOrderedField F] (env : Env F)
    (self : OnnxConverter F) (model_proto : ModelProto F) (filepath : String) (level : Level)
    (expected_binary_conv_outputs : List String) (node : NodeProto F)
    (hmem : node ∈ (env.Optimize model_proto (optimizers level)).graph.node)
    (hop : node.op_type ∉ ["Conv", "AveragePool", "MaxPool", "GlobalAveragePool",
      "GlobalMaxPool", "PRelu", "Relu", "Add", "Gemm", "Softmax", "Concat", "Dropout",
      "Reshape", "BatchNormalization"]) :
    (∀ c, self.Convert env model_proto filepath level expected_binary_conv_outputs ≠ .ok c) ∧
    (∀ st0 st pre post, self.Convert_prepare env model_proto level = .ok st0 →
      (env.Optimize model_proto (optimizers level)).graph.node = pre ++ node :: post →
      pre.foldlM (Convert_node env expected_binary_conv_outputs) st0 = .ok st →
      (∀ n, n ∈ pre → n.op_type ≠ "Reshape") →
      self.Convert env model_proto filepath level expected_binary_conv_outputs
        = .error ("Unsupported operator " ++ node.op_type)) := by
  constructor
  · intro c hc
    obtain ⟨st0, st, hp, hw, _, _⟩ := Convert_ok env self model_proto filepath level
      expected_binary_conv_outputs c hc
    have hm := (Convert_prepare_ok env self model_proto level st0 hp).1
    rw [hm] at hw
    obtain ⟨sa, sb, hstep⟩ := foldlM_Convert_node_steps env expected_binary_conv_outputs _
      st0 st hw node hmem
    have hr := (Convert_node_locals env expected_binary_conv_outputs sa sb node hstep).2.1
    rw [Convert_node_unsupported env expected_binary_conv_outputs sa node hop hr] at hstep
    cases hstep
  · intro st0 st pre post hp hnodes hpre hno
    obtain ⟨hm, _, hr0, _⟩ := Convert_prepare_ok env self model_proto level st0 hp
    have hr := foldlM_Convert_node_has_reshape env expected_binary_conv_outputs pre st0 st hpre
      hr0 hno
    rw [← hm] at hnodes
    exact Convert_error_of_node_error env self model_proto filepath level
      expected_binary_conv_outputs st0 st pre post node _ hp hnodes hpre
      (Convert_node_unsupported env expected_binary_conv_outputs st node hop hr)

theorem Convert_unsupported_operator_witness :
    OnnxConverter.Convert
      (⟨fun mp _ => mp,
        fun t => ⟨t.data,
          [t.shape.getD 0 0, t.shape.getD 2 0, t.shape.getD 3 0, t.shape.getD 1 0], false⟩,
        Real.sqrt, fun _ => 0, 1⟩ : Env ℝ)
      ⟨⟨⟨[], [], []⟩⟩, [], [], [], [], [], [], []⟩
      ⟨⟨[⟨"relu", "Relu", "", ["x"], ["y"], []⟩,
         ⟨"tanh", "Tanh", "", ["y"], ["t"], []⟩,
         ⟨"relu2", "Relu", "", ["t"], ["u"], []⟩],
        [],
        [⟨"x", [some 1, some 3, some 4, some 4]⟩]⟩⟩
      "model.dab" Level.kStrict []
      = .error "Unsupported operator Tanh" :=
  (Convert_unsupported_operator _ _ _ _ _ _ ⟨"tanh", "Tanh", "", ["y"], ["t"], []⟩
    (by simp) (by decide)).2 _ _ [⟨"relu", "Relu", "", ["x"], ["y"], []⟩]
    [⟨"relu2", "Relu", "", ["t"], ["u"], []⟩] (by rfl) (by rfl) (by rfl) (by decide)

theorem to_uint32_of_lt (n : Nat) (h : n < 2 ^ 32) : to_uint32 (n : Int) = n := by
  unfold to_uint32
  have h1 : ((n : Int)) % 2 ^ 32 = (n : Int) := by
    apply Int.emod_eq_of_lt (Int.natCast_nonneg n)
    exact_mod_cast h
  rw [h1]
  exact Int.toNat_natCast n

theorem input_nhwc_shape_eq (input : ValueInfoProto) (N C H W : Int)
    (hd : input.dim = [some N, some C, some H, some W]) :
    input_nhwc_shape input = [to_uint32 N, to_uint32 H, to_uint32 W, to_uint32 C] := by
  unfold input_nhwc_shape
  rw [hd]
  rfl

theorem Convert_input_fresh {F : Type} (acc : OnnxConverter F × List Input)
    (input : ValueInfoProto) (N C H W : Int)
    (hn : ¬ acc.1.operands_.contains input.name = true)
    (hd : input.dim = [some N, some C, some H, some W])
    (hf : StrKeyMap.find acc.1.shaper_ input.name = none) :
    Convert_input acc input = .ok ({ acc.1 with
        shaper_ := (StrKeyMap.set acc.1.shaper_ input.name (input_nhwc_shape input)) },
      acc.2 ++ [⟨input_nhwc_shape input, input.name⟩]) := by
  rw [input_nhwc_shape_eq input N C H W hd]
  unfold Convert_input
  rw [if_neg hn, hd]
  simp only [List.mapM_cons, List.mapM_nil, bind, Except.bind, pure, Except.pure, dim_of,
    List.getElem?_cons_zero, List.getElem?_cons_succ, Shaper.AddShape, hf]

theorem foldlM_Convert_input_total {F : Type} (ops : List String)
    (inputs : List ValueInfoProto) (acc : OnnxConverter F × List Input)
    (hops : acc.1.operands_ = ops)
    (hd : ∀ input, input ∈ inputs → ¬ ops.contains input.name = true →
      ∃ N C H W : Int, input.dim = [some N, some C, some H, some W])
    (hf : ∀ input, input ∈ inputs → ¬ ops.contains input.name = true →
      StrKeyMap.find acc.1.shaper_ input.name = none)
    (hn : ((inputs.filter (fun input => !ops.contains input.name)).map
      (fun input => input.name)).Nodup) :
    ∃ acc1, inputs.foldlM Convert_input acc = .ok acc1 := by
  induction inputs generalizing acc with
  | nil => exact ⟨acc, rfl⟩
  | cons input rest ih =>
    rw [List.foldlM_cons]
    by_cases hc : ops.contains input.name = true
    · have hc1 : acc.1.operands_.contains input.name = true := by rw [hops]; exact hc
      rw [Convert_input_skip acc input hc1]
      simp only [bind, Except.bind]
      apply ih acc hops (fun i hi => hd i (List.mem_cons_of_mem _ hi))
        (fun i hi => hf i (List.mem_cons_of_mem _ hi))
      have hcf : ¬ (!ops.contains input.name) = true := by rw [hc]; decide
      rw [List.filter_cons, if_neg hcf] at hn
      exact hn
    · have hc1 : ¬ acc.1.operands_.contains input.name = true := by rw [hops]; exact hc
      obtain ⟨N, C, H, W, hdim⟩ := hd input (List.mem_cons_self _ _) hc
      rw [Convert_input_fresh acc input N C H W hc1 hdim
        (hf input (List.mem_cons_self _ _) hc)]
      simp only [bind, Except.bind]
      have hcf : (!ops.contains input.name) = true := by simpa using hc
      rw [List.filter_cons, if_pos hcf, List.map_cons, List.nodup_cons] at hn
      have hf2 : ∀ i, i ∈ rest → ¬ ops.contains i.name = true →
          StrKeyMap.find (StrKeyMap.set acc.1.shaper_ input.name (input_nhwc_shape input)) i.name
            = none := by
        intro i hi hni
        have hne : i.name ≠ input.name := by
          intro heq
          apply hn.1
          rw [← heq]
          refine List.mem_map.mpr ⟨i, List.mem_filter.mpr ⟨hi, ?_⟩, rfl⟩
          simpa using hni
        rw [find_set_ne _ _ _ _ hne]
        exact hf i (List.mem_cons_of_mem _ hi) hni
      exact ih ({ acc.1 with
          shaper_ := (StrKeyMap.set acc.1.shaper_ input.name (input_nhwc_shape input)) },
        acc.2 ++ [(⟨input_nhwc_shape input, input.name⟩ : Input)]) hops
        (fun i hi => hd i (List.mem_cons_of_mem _ hi)) hf2 hn.2

/-- C15: the inputs of the graph, on a converter that holds no operand yet (as constructed).
Whenever the part of `Convert` before the walk succeeds, the Input records are exactly one per
input of the optimized graph whose name is not the name of an initializer, in the order of the
graph, each with the name of the input and its `(N, C, H, W)` read as `(N, H, W, C)`; that
shape is registered under the name of the input; an input whose name is the name of an
initializer gets no record and no registration. For dimensions below `2 ^ 32` nothing is cut by
the cast. And that part does succeed when the converter holds no shape, every such input
has four dimensions with a `dim_value`, and these inputs have distinct names. -/
theorem Convert_graph_inputs {F : Type} (env : Env F) (self : OnnxConverter F)
    (model_proto : ModelProto F) (level : Level) (hops : self.operands_ = []) :
    (∀ st0, self.Convert_prepare env model_proto level = .ok st0 →
      st0.inputs = input_records
        ((env.Optimize model_proto (optimizers level)).graph.initializer.map (fun t => t.name))
        (env.Optimize model_proto (optimizers level)).graph.input ∧
      (∀ input, input ∈ (env.Optimize model_proto (optimizers level)).graph.input →
        input.name ∉ (env.Optimize model_proto (optimizers level)).graph.initializer.map
          (fun t => t.name) →
        StrKeyMap.find st0.self.shaper_ input.name = some (input_nhwc_shape input)) ∧
      (∀ input, input ∈ (env.Optimize model_proto (optimizers level)).graph.input →
        input.name ∈ (env.Optimize model_proto (optimizers level)).graph.initializer.map
          (fun t => t.name) →
        StrKeyMap.find st0.self.shaper_ input.name = StrKeyMap.find self.shaper_ input.name ∧
        ∀ r, r ∈ st0.inputs → r.name ≠ input.name)) ∧
    (∀ (input : ValueInfoProto) (N C H W : Nat), N < 2 ^ 32 → C < 2 ^ 32 → H < 2 ^ 32 →
      W < 2 ^ 32 → input.dim = [some (N : Int), some (C : Int), some (H : Int), some (W : Int)] →
      input_nhwc_shape input = [N, H, W, C]) ∧
    (self.shaper_ = [] →
      (∀ input, input ∈ (env.Optimize model_proto (optimizers level)).graph.input →
        input.name ∉ (env.Optimize model_proto (optimizers level)).graph.initializer.map
          (fun t => t.name) →
        ∃ N C H W : Int, input.dim = [some N, some C, some H, some W]) →
      (((env.Optimize model_proto (optimizers level)).graph.input.filter (fun input =>
        !((env.Optimize model_proto (optimizers level)).graph.initializer.map
          (fun t => t.name)).contains input.name)).map (fun input => input.name)).Nodup →
      ∃ st0, self.Convert_prepare env model_proto level = .ok st0) := by
  obtain ⟨hm, ho, hs⟩ := foldl_Convert_initializer env
    (env.Optimize model_proto (optimizers level)).graph.initializer
    { self with model_proto_ := env.Optimize model_proto (optimizers level) }
  have ho1 : ((env.Optimize model_proto (optimizers level)).graph.initializer.foldl
      (Convert_initializer env)
      { self with model_proto_ := env.Optimize model_proto (optimizers level) }).operands_
        = (env.Optimize model_proto (optimizers level)).graph.initializer.map
          (fun t => t.name) := by
    rw [ho]
    show self.operands_ ++ _ = _
    rw [hops, List.nil_append]
  refine ⟨?_, ?_, ?_⟩
  · intro st0 hp
    obtain ⟨_, _, _, hfold⟩ := Convert_prepare_ok env self model_proto level st0 hp
    obtain ⟨h1, _, _, _, h5, h6⟩ := foldlM_Convert_input _ _ _ _ ho1 hfold
    have hin : st0.inputs = input_records
        ((env.Optimize model_proto (optimizers level)).graph.initializer.map (fun t => t.name))
        (env.Optimize model_proto (optimizers level)).graph.input := by
      simpa using h1
    refine ⟨hin, ?_, ?_⟩
    · intro input hi hni
      exact h5 input hi (by simpa using hni)
    · intro input hi hmem
      constructor
      · have h := h6 input.name (fun i _ hname => by rw [hname]; simpa using hmem)
        exact h.trans (congrArg (fun s => StrKeyMap.find s input.name) hs)
      · intro r hr hname
        rw [hin] at hr
        unfold input_records at hr
        obtain ⟨i, hif, rfl⟩ := List.mem_map.mp hr
        have hnot := (List.mem_filter.mp hif).2
        simp only at hname
        rw [hname] at hnot
        simp [hmem] at hnot
  · intro input N C H W hN hC hH hW hd
    rw [input_nhwc_shape_eq input _ _ _ _ hd, to_uint32_of_lt N hN, to_uint32_of_lt C hC,
      to_uint32_of_lt H hH, to_uint32_of_lt W hW]
  · intro hshaper hd hn
    obtain ⟨acc1, hacc⟩ := foldlM_Convert_input_total
      ((env.Optimize model_proto (optimizers level)).graph.initializer.map (fun t => t.name))
      (env.Optimize model_proto (optimizers level)).graph.input
      ((env.Optimize model_proto (optimizers level)).graph.initializer.foldl
        (Convert_initializer env)
        { self with model_proto_ := env.Optimize model_proto (optimizers level) }, [])
      ho1 (fun i hi hni => hd i hi (by simpa using hni))
      (fun i _ _ => congrArg (fun s => StrKeyMap.find s i.name) (hs.trans hshaper)) hn
    refine ⟨⟨acc1.1, acc1.2, [], false⟩, ?_⟩
    unfold OnnxConverter.Convert_prepare
    simp only [bind, Except.bind]
    rw [hm, hacc]
    rfl

theorem Convert_graph_inputs_witness :
    (∃ st0, OnnxConverter.Convert_prepare
      (⟨fun mp _ => mp,
        fun t => ⟨t.data,
          [t.shape.getD 0 0, t.shape.getD 2 0, t.shape.getD 3 0, t.shape.getD 1 0], false⟩,
        Real.sqrt, fun _ => 0, 1⟩ : Env ℝ)
      ⟨⟨⟨[], [], []⟩⟩, [], [], [], [], [], [], []⟩
      ⟨⟨[⟨"relu", "Relu", "", ["x"], ["y"], []⟩],
        [⟨"w", 1, [1], [1], []⟩],
        [⟨"x", [some 1, some 3, some 4, some 4]⟩, ⟨"w", [some 1]⟩]⟩⟩
      Level.kStrict = .ok st0 ∧
      st0.inputs = [⟨[1, 4, 4, 3], "x"⟩] ∧
      StrKeyMap.find st0.self.shaper_ "x" = some [1, 4, 4, 3] ∧
      StrKeyMap.find st0.self.shaper_ "w" = none) ∧
    (OnnxConverter.Convert
      (⟨fun mp _ => mp,
        fun t => ⟨t.data,
          [t.shape.getD 0 0, t.shape.getD 2 0, t.shape.getD 3 0, t.shape.getD 1 0], false⟩,
        Real.sqrt, fun _ => 0, 1⟩ : Env ℝ)
      ⟨⟨⟨[], [], []⟩⟩, [], [], [], [], [], [], []⟩
      ⟨⟨[⟨"relu", "Relu", "", ["x"], ["y"], []⟩],
        [⟨"w", 1, [1], [1], []⟩],
        [⟨"x", [some 1, some 3, some 4, some 4]⟩, ⟨"w", [some 1]⟩]⟩⟩
      "model.dab" Level.kStrict []).map
        (fun c => (c.model.inputs, c.model.layers, StrKeyMap.find c.self.shaper_ "y"))
      = .ok ([⟨[1, 4, 4, 3], "x"⟩], [Layer.Relu "x" "y"], some [1, 4, 4, 3]) := by
  refine ⟨Exists.imp (fun st0 hp => ⟨hp, ?_⟩) ⟨_, rfl⟩, rfl⟩
  have h := (Convert_graph_inputs _ _ _ _ (by rfl)).1 st0 hp
  exact ⟨h.1.trans rfl,
    (h.2.1 ⟨"x", [some 1, some 3, some 4, some 4]⟩ (by simp) (by decide)).trans rfl,
    ((h.2.2 ⟨"w", [some 1]⟩ (by simp) (by decide)).1).trans rfl⟩

/-! ### The Concat case -/

theorem Convert_node_eq_Concat {F : Type} [LinearOrderedField F] (env : Env F)
    (expected_binary_conv_outputs : List String) (st : Walk F) (node : NodeProto F)
    (hop : node.op_type = "Concat") (hr : st.has_reshape = false) :
    Convert_node env expected_binary_conv_outputs st node = Convert_Concat st node := by
  unfold Convert_node
  rw [hr, hop]
  simp

/-- C16: the axis of a Concat node. Let the walk reach a Concat node with output `o` whose
`axis` attribute (1 when the attribute is absent) is `a` in `{0, 1, 2, 3}`. The shape inferer is
called with the mapped inputs in order, the source axis `a` and the mapped output, and when it
succeeds exactly one layer is appended: the Concat layer with the mapped inputs in order, the
target axis `0 -> 0, 1 -> 3, 2 -> 1, 3 -> 2` and the mapped output. -/
theorem Convert_node_Concat {F : Type} [LinearOrderedField F] (env : Env F)
    (expected_binary_conv_outputs : List String) (st : Walk F) (node : NodeProto F)
    (o : String) (a : Int) (hop : node.op_type = "Concat") (hr : st.has_reshape = false)
    (hout : node.output[0]? = some o)
    (haxis : NodeAttrHelper.get_int node "axis" 1 = a) (ha : a = 0 ∨ a = 1 ∨ a = 2 ∨ a = 3) :
    Convert_node env expected_binary_conv_outputs st node
      = (Shaper.Concat st.self.shaper_ (node.input.map st.self.m) a (st.self.m o)).map
        (fun shaper1 => { st with self := { st.self with
          shaper_ := shaper1,
          layers_ := st.self.layers_ ++ [Layer.Concat (node.input.map st.self.m)
            (if a = 0 then 0 else if a = 1 then 3 else if a = 2 then 1 else 2)
            (st.self.m o)] } }) ∧
      (NodeAttrHelper.find_attr node "axis" = none → a = 1) := by
  constructor
  · rw [Convert_node_eq_Concat env expected_binary_conv_outputs st node hop hr]
    unfold Convert_Concat
    simp only [haxis, output_at_ok node 0 o hout, bind, Except.bind, pure, Except.pure]
    cases Shaper.Concat st.self.shaper_ (node.input.map st.self.m) a (st.self.m o) with
    | error e => rfl
    | ok shaper1 =>
      rcases ha with rfl | rfl | rfl | rfl <;> rfl
  · intro hnone
    rw [← haxis]
    unfold NodeAttrHelper.get_int
    rw [hnone]

/-- Witness of C16: `y = Concat(x1, d)` with no `axis` attribute, where `d` is the output of a
Dropout of `x2`, on shapes `(1, 4, 4, 2)` and `(1, 4, 4, 3)`; and the same node with
`axis = 2`. -/
theorem Convert_node_Concat_witness :
    (Convert_node
        (⟨fun mp _ => mp, fun t => t, fun v => v, fun _ => 0, 1⟩ : Env ℚ) []
        ⟨⟨⟨⟨[], [], []⟩⟩, [("d", "x2")], [("x1", [1, 4, 4, 2]), ("x2", [1, 4, 4, 3])],
          [], [], [], [], []⟩, [], [], false⟩
        ⟨"cat", "Concat", "", ["x1", "d"], ["y"], []⟩).map
          (fun st1 => (st1.self.layers_, StrKeyMap.find st1.self.shaper_ "y"))
      = .ok ([Layer.Concat ["x1", "x2"] 3 "y"], some [1, 4, 4, 5]) ∧
    (Convert_node
        (⟨fun mp _ => mp, fun t => t, fun v => v, fun _ => 0, 1⟩ : Env ℚ) []
        ⟨⟨⟨⟨[], [], []⟩⟩, [], [("x1", [1, 4, 4, 2]), ("x2", [1, 5, 4, 2])],
          [], [], [], [], []⟩, [], [], false⟩
        ⟨"cat", "Concat", "", ["x1", "x2"], ["y"], [⟨"axis", 0, 2, []⟩]⟩).map
          (fun st1 => (st1.self.layers_, StrKeyMap.find st1.self.shaper_ "y"))
      = .ok ([Layer.Concat ["x1", "x2"] 1 "y"], some [1, 9, 4, 2]) :=
  ⟨(congrArg (Except.map (fun st1 => (st1.self.layers_, StrKeyMap.find st1.self.shaper_ "y")))
      (Convert_node_Concat
        (⟨fun mp _ => mp, fun t => t, fun v => v, fun _ => 0, 1⟩ : Env ℚ) []
        ⟨⟨⟨⟨[], [], []⟩⟩, [("d", "x2")], [("x1", [1, 4, 4, 2]), ("x2", [1, 4, 4, 3])],
          [], [], [], [], []⟩, [], [], false⟩
        ⟨"cat", "Concat", "", ["x1", "d"], ["y"], []⟩ "y" 1 rfl rfl rfl rfl
        (by decide)).1).trans rfl,
   (congrArg (Except.map (fun st1 => (st1.self.layers_, StrKeyMap.find st1.self.shaper_ "y")))
      (Convert_node_Concat
        (⟨fun mp _ => mp, fun t => t, fun v => v, fun _ => 0, 1⟩ : Env ℚ) []
        ⟨⟨⟨⟨[], [], []⟩⟩, [], [("x1", [1, 4, 4, 2]), ("x2", [1, 5, 4, 2])],
          [], [], [], [], []⟩, [], [], false⟩
        ⟨"cat", "Concat", "", ["x1", "x2"], ["y"], [⟨"axis", 0, 2, []⟩]⟩ "y" 2 rfl rfl rfl rfl
        (by decide)).1).trans rfl⟩

/-! ### The shape registered for a convolution -/

theorem AddConv_shaper_dilations {F : Type} [LinearOrderedField F] (env : Env F)
    (self : OnnxConverter F) (input_name : String) (strides pads dilations : List Int)
    (group : Int) (ori_weight_name : String) (bias_name : Option String) (output_name : String)
    (binary : Bool) :
    (self.AddConv env input_name strides pads dilations group ori_weight_name bias_name
        output_name binary).map (fun self1 => self1.shaper_)
      = (self.AddConv env input_name strides pads [1, 1] group ori_weight_name bias_name
        output_name binary).map (fun self1 => self1.shaper_) := by
  unfold OnnxConverter.AddConv OnnxConverter.AddBinConv OnnxConverter.AddFloatConv
  simp only [bind, Except.bind]
  repeat' (first | rfl | split)

/-- C17: the code evaluated on a convolution with a dilation. `AddConv` calls the shape inferer
with the constants `1, 1` where the dilations go, so over all arguments the shapes it registers
are those for dilations `(1, 1)`. On the graph `y = Conv(x, w)` with `x` of shape `(1, 3, 7, 7)`,
a `3 x 3` weight, strides `(1, 1)`, pads `0` and dilations `(2, 2)`, the layer carries the
dilations `(2, 2)` while the shape registered for `y` is `(1, 5, 5, 1)`; the formula of the
claim gives `(7 - 2 * (3 - 1) - 1) / 1 + 1 = 3`, which is what the shape inferer registers when
it is given the dilations of the node. -/
theorem Convert_conv_shape_ignores_dilations :
    (∀ (env : Env ℝ) (self : OnnxConverter ℝ) (input_name : String)
      (strides pads dilations : List Int) (group : Int) (ori_weight_name : String)
      (bias_name : Option String) (output_name : String) (binary : Bool),
      (self.AddConv env input_name strides pads dilations group ori_weight_name bias_name
          output_name binary).map (fun self1 => self1.shaper_)
        = (self.AddConv env input_name strides pads [1, 1] group ori_weight_name bias_name
          output_name binary).map (fun self1 => self1.shaper_)) ∧
    (OnnxConverter.Convert
      (⟨fun mp _ => mp,
        fun t => ⟨t.data,
          [t.shape.getD 0 0, t.shape.getD 2 0, t.shape.getD 3 0, t.shape.getD 1 0], false⟩,
        Real.sqrt, fun _ => 0, 1⟩ : Env ℝ)
      ⟨⟨⟨[], [], []⟩⟩, [], [], [], [], [], [], []⟩
      ⟨⟨[⟨"conv", "Conv", "", ["x", "w"], ["y"],
          [⟨"strides", 0, 0, [1, 1]⟩, ⟨"pads", 0, 0, [0, 0, 0, 0]⟩,
           ⟨"dilations", 0, 0, [2, 2]⟩]⟩],
        [⟨"w", 1, [1, 3, 3, 3], List.replicate 27 1, []⟩],
        [⟨"x", [some 1, some 3, some 7, some 7]⟩]⟩⟩
      "model.dab" Level.kStrict []).map
        (fun c => (c.model.layers, StrKeyMap.find c.self.shaper_ "x",
          StrKeyMap.find c.self.shaper_ "w_conv_w", StrKeyMap.find c.self.shaper_ "y"))
      = .ok ([Layer.FpConv2D "x" "w_conv_w" none [0, 0, 0, 0] [1, 1] [2, 2] "y"],
          some [1, 7, 7, 3], some [1, 3, 3, 3], some [1, 5, 5, 1]) ∧
    (Shaper.Conv [("w_conv_w", [1, 3, 3, 3]), ("x", [1, 7, 7, 3])] "x" 1 1 2 2 0 0 0 0
        "w_conv_w" "y").map (fun shaper1 => StrKeyMap.find shaper1 "y")
      = .ok (some [1, 3, 3, 1]) :=
  ⟨fun env self input_name strides pads dilations group ori_weight_name bias_name output_name
      binary => AddConv_shaper_dilations env self input_name strides pads dilations group
        ori_weight_name bias_name output_name binary,
    rfl, rfl⟩

/-! ### The PRelu case -/

theorem Convert_node_eq_PRelu {F : Type} [LinearOrderedField F] (env : Env F)
    (expected_binary_conv_outputs : List String) (st : Walk F) (node : NodeProto F)
    (hop : node.op_type = "PRelu") (hr : st.has_reshape = false) :
    Convert_node env expected_binary_conv_outputs st node = Convert_PRelu st node := by
  unfold Convert_node
  rw [hr, hop]
  simp

theorem get_of_find (shaper : StrKeyMap Shape) (name : String) (s : Shape)
    (h : StrKeyMap.find shaper name = some s) : Shaper.get shaper name = .ok s := by
  simp [Shaper.get, h]

theorem Convert_initializer_float {F : Type} (env : Env F) (self : OnnxConverter F)
    (t : TensorProto F) (h : t.data_type = TensorProto_DataType_FLOAT) :
    ∃ ft, StrKeyMap.find (Convert_initializer env self t).onnx_float_tensors_ t.name = some ft ∧
      ft.shape = t.dims.map to_uint32 ∧ ft.data.length = Product ft.shape := by
  unfold Convert_initializer
  rw [if_pos h]
  refine ⟨_, find_set_self _ _ _, rfl, ?_⟩
  simp

/-- C18: the slope of a PRelu node. Let the walk reach a PRelu node with input `i` of registered
shape `input_shape` and slope input `s` holding the stored tensor `slope`. When the input is 4-D
and the slope is three-dimensional with trailing dimensions 1, 1 or its data is the one-element
vector `[1]`, the node emits one Float32 tensor named after the slope, with declared shape
`[d0]` for `d0` the first dimension of the slope and with the data of the slope as it is, and one
PRelu layer. In particular a slope of shape `(K, 1, 1)` is emitted with shape `[K]` for every
`K`: the first dimension of the slope is not compared with the channel count of the input, so
on an input with `C` channels a slope of shape `(C, 1, 1)` gives the shape `[C]` and a slope of
shape `(K, 1, 1)` with `K` different from `C` is accepted as well and gives `[K]`; a scalar
slope `[1]` of shape `(1)` gives the shape `[1]` and one value. A slope that is neither
three-dimensional with trailing dimensions 1, 1 nor has the data `[1]` fails with "PRelu only
support scalr slope or per-channel slope for now", an input that is not 4-D with "PRelu only
support 4-d tensor input for now", and a failing node makes `Convert` fail. A Float initializer
is stored with as many values as the product of its dimensions. -/
theorem Convert_node_PRelu {F : Type} [LinearOrderedField F] (env : Env F)
    (expected_binary_conv_outputs : List String) (st : Walk F) (node : NodeProto F)
    (i s : String) (slope : FTensor F) (input_shape : Shape)
    (hop : node.op_type = "PRelu") (hr : st.has_reshape = false)
    (hin0 : node.input[0]? = some i) (hin1 : node.input[1]? = some s)
    (hslope : StrKeyMap.find st.self.onnx_float_tensors_ (st.self.m s) = some slope)
    (hshape : StrKeyMap.find st.self.shaper_ (st.self.m i) = some input_shape) :
    (∀ d0 o, input_shape.length = 4 →
      ((slope.shape.length = 3 ∧ slope.shape[1]? = some 1 ∧ slope.shape[2]? = some 1)
        ∨ slope.data = [1]) →
      slope.shape[0]? = some d0 → node.output[0]? = some o →
      Convert_node env expected_binary_conv_outputs st node
        = (Shaper.Relu st.self.shaper_ (st.self.m i) (st.self.m o)).map (fun shaper1 =>
          { st with self := { st.self with
            shaper_ := shaper1,
            tensors_ := st.self.tensors_ ++
              [⟨DataType.Float32, [], slope.data, [d0], st.self.m s, false⟩],
            layers_ := st.self.layers_ ++
              [Layer.PRelu (st.self.m i) (st.self.m s) (st.self.m o)] } })) ∧
    (∀ N H W C K o, input_shape = [N, H, W, C] → slope.shape = [K, 1, 1] →
      node.output[0]? = some o →
      Convert_node env expected_binary_conv_outputs st node
        = (Shaper.Relu st.self.shaper_ (st.self.m i) (st.self.m o)).map (fun shaper1 =>
          { st with self := { st.self with
            shaper_ := shaper1,
            tensors_ := st.self.tensors_ ++
              [⟨DataType.Float32, [], slope.data, [K], st.self.m s, false⟩],
            layers_ := st.self.layers_ ++
              [Layer.PRelu (st.self.m i) (st.self.m s) (st.self.m o)] } })) ∧
    (input_shape.length = 4 →
      ¬ (slope.shape.length = 3 ∧ slope.shape[1]? = some 1 ∧ slope.shape[2]? = some 1) →
      slope.data ≠ [1] →
      Convert_node env expected_binary_conv_outputs st node
        = .error "PRelu only support scalr slope or per-channel slope for now") ∧
    (input_shape.length ≠ 4 →
      Convert_node env expected_binary_conv_outputs st node
        = .error "PRelu only support 4-d tensor input for now") ∧
    (∀ (self0 : OnnxConverter F) (model_proto : ModelProto F) (filepath : String)
      (level : Level) (st0 : Walk F) (pre post : List (NodeProto F)) (e : String),
      self0.Convert_prepare env model_proto level = .ok st0 →
      st0.self.model_proto_.graph.node = pre ++ node :: post →
      pre.foldlM (Convert_node env expected_binary_conv_outputs) st0 = .ok st →
      Convert_node env expected_binary_conv_outputs st node = .error e →
      self0.Convert env model_proto filepath level expected_binary_conv_outputs = .error e) ∧
    (∀ (self0 : OnnxConverter F) (t : TensorProto F),
      t.data_type = TensorProto_DataType_FLOAT →
      ∃ ft, StrKeyMap.find (Convert_initializer env self0 t).onnx_float_tensors_ t.name
          = some ft ∧
        ft.shape = t.dims.map to_uint32 ∧ ft.data.length = Product ft.shape) := by
  rw [Convert_node_eq_PRelu env expected_binary_conv_outputs st node hop hr]
  have hacc : ∀ d0 o, input_shape.length = 4 →
      ((slope.shape.length = 3 ∧ slope.shape[1]? = some 1 ∧ slope.shape[2]? = some 1)
        ∨ slope.data = [1]) →
      slope.shape[0]? = some d0 → node.output[0]? = some o →
      Convert_PRelu st node
        = (Shaper.Relu st.self.shaper_ (st.self.m i) (st.self.m o)).map (fun shaper1 =>
          { st with self := { st.self with
            shaper_ := shaper1,
            tensors_ := st.self.tensors_ ++
              [⟨DataType.Float32, [], slope.data, [d0], st.self.m s, false⟩],
            layers_ := st.self.layers_ ++
              [Layer.PRelu (st.self.m i) (st.self.m s) (st.self.m o)] } }) := by
    intro d0 o h4 hacc hd0 hout
    have hn : ¬ ¬ ((slope.shape.length = 3 ∧ slope.shape[1]? = some 1 ∧
        slope.shape[2]? = some 1) ∨ slope.data = [1]) := not_not_intro hacc
    have hl : ¬ input_shape.length ≠ 4 := not_not_intro h4
    unfold Convert_PRelu
    simp only [input_at_ok node 0 i hin0, input_at_ok node 1 s hin1,
      at_of_find _ _ _ hslope, get_of_find _ _ _ hshape, output_at_ok node 0 o hout,
      bind, Except.bind, pure, Except.pure, if_neg hl, if_neg hn, hd0, dim_of]
    cases Shaper.Relu st.self.shaper_ (st.self.m i) (st.self.m o) <;> rfl
  refine ⟨hacc, ?_, ?_, ?_, ?_, ?_⟩
  · intro N H W C K o hi hK hout
    exact hacc K o (by rw [hi]; rfl) (Or.inl (by rw [hK]; exact ⟨rfl, rfl, rfl⟩))
      (by rw [hK]; rfl) hout
  · intro h4 hs hd
    have hl : ¬ input_shape.length ≠ 4 := not_not_intro h4
    have hn : ¬ ((slope.shape.length = 3 ∧ slope.shape[1]? = some 1 ∧
        slope.shape[2]? = some 1) ∨ slope.data = [1]) := by
      rintro (h | h)
      · exact hs h
      · exact hd h
    unfold Convert_PRelu
    simp only [input_at_ok node 0 i hin0, input_at_ok node 1 s hin1,
      at_of_find _ _ _ hslope, get_of_find _ _ _ hshape,
      bind, Except.bind, if_neg hl, if_pos hn]
  · intro h4
    unfold Convert_PRelu
    simp only [input_at_ok node 0 i hin0, input_at_ok node 1 s hin1,
      at_of_find _ _ _ hslope, get_of_find _ _ _ hshape,
      bind, Except.bind, if_pos h4]
  · intro self0 model_proto filepath level st0 pre post e hp hnodes hpre hstep
    rw [← Convert_node_eq_PRelu env expected_binary_conv_outputs st node hop hr] at hstep
    exact Convert_error_of_node_error env self0 model_proto filepath level
      expected_binary_conv_outputs st0 st pre post node e hp hnodes hpre hstep
  · intro self0 t ht
    exact Convert_initializer_float env self0 t ht

/-- Witness of C18: a per-channel slope of shape `(3, 1, 1)` on an input of shape `(1, 2, 2, 3)`
is emitted with shape `[3]` and its three values; a slope of shape `(5, 1, 1)` on the same
input, which has three channels, is accepted and emitted with shape `[5]` and its five values;
a slope of shape `(2)` with the two values `2, 3` is refused. -/
theorem Convert_node_PRelu_witness :
    (Convert_node
        (⟨fun mp _ => mp, fun t => t, fun v => v, fun _ => 0, 1⟩ : Env ℚ) []
        ⟨⟨⟨⟨[], [], []⟩⟩, [], [("x", [1, 2, 2, 3])], [("s", ⟨[2, 3, 4], [3, 1, 1], false⟩)],
          [], [], [], []⟩, [], [], false⟩
        ⟨"prelu", "PRelu", "", ["x", "s"], ["y"], []⟩).map
          (fun st1 => (st1.self.layers_,
            st1.self.tensors_.map (fun t => (t.name, t.data_type, t.shape, t.float_data))))
      = .ok ([Layer.PRelu "x" "s" "y"], [("s", DataType.Float32, [3], [2, 3, 4])]) ∧
    (Convert_node
        (⟨fun mp _ => mp, fun t => t, fun v => v, fun _ => 0, 1⟩ : Env ℚ) []
        ⟨⟨⟨⟨[], [], []⟩⟩, [], [("x", [1, 2, 2, 3])],
          [("s", ⟨[2, 3, 4, 5, 6], [5, 1, 1], false⟩)],
          [], [], [], []⟩, [], [], false⟩
        ⟨"prelu", "PRelu", "", ["x", "s"], ["y"], []⟩).map
          (fun st1 => (st1.self.layers_,
            st1.self.tensors_.map (fun t => (t.name, t.data_type, t.shape, t.float_data))))
      = .ok ([Layer.PRelu "x" "s" "y"], [("s", DataType.Float32, [5], [2, 3, 4, 5, 6])]) ∧
    Convert_node
        (⟨fun mp _ => mp, fun t => t, fun v => v, fun _ => 0, 1⟩ : Env ℚ) []
        ⟨⟨⟨⟨[], [], []⟩⟩, [], [("x", [1, 2, 2, 3])], [("s", ⟨[2, 3], [2], false⟩)],
          [], [], [], []⟩, [], [], false⟩
        ⟨"prelu", "PRelu", "", ["x", "s"], ["y"], []⟩
      = .error "PRelu only support scalr slope or per-channel slope for now" :=
  ⟨(congrArg (Except.map (fun st1 => (st1.self.layers_,
        st1.self.tensors_.map (fun t => (t.name, t.data_type, t.shape, t.float_data)))))
      ((Convert_node_PRelu
        (⟨fun mp _ => mp, fun t => t, fun v => v, fun _ => 0, 1⟩ : Env ℚ) []
        ⟨⟨⟨⟨[], [], []⟩⟩, [], [("x", [1, 2, 2, 3])], [("s", ⟨[2, 3, 4], [3, 1, 1], false⟩)],
          [], [], [], []⟩, [], [], false⟩
        ⟨"prelu", "PRelu", "", ["x", "s"], ["y"], []⟩ "x" "s" ⟨[2, 3, 4], [3, 1, 1], false⟩
        [1, 2, 2, 3] rfl rfl rfl rfl rfl rfl).1 3 "y" rfl (Or.inl ⟨rfl, rfl, rfl⟩) rfl
        rfl)).trans rfl,
   (congrArg (Except.map (fun st1 => (st1.self.layers_,
        st1.self.tensors_.map (fun t => (t.name, t.data_type, t.shape, t.float_data)))))
      ((Convert_node_PRelu
        (⟨fun mp _ => mp, fun t => t, fun v => v, fun _ => 0, 1⟩ : Env ℚ) []
        ⟨⟨⟨⟨[], [], []⟩⟩, [], [("x", [1, 2, 2, 3])],
          [("s", ⟨[2, 3, 4, 5, 6], [5, 1, 1], false⟩)],
          [], [], [], []⟩, [], [], false⟩
        ⟨"prelu", "PRelu", "", ["x", "s"], ["y"], []⟩ "x" "s"
        ⟨[2, 3, 4, 5, 6], [5, 1, 1], false⟩
        [1, 2, 2, 3] rfl rfl rfl rfl rfl rfl).2.1 1 2 2 3 5 "y" rfl rfl rfl)).trans rfl,
   (Convert_node_PRelu
        (⟨fun mp _ => mp, fun t => t, fun v => v, fun _ => 0, 1⟩ : Env ℚ) []
        ⟨⟨⟨⟨[], [], []⟩⟩, [], [("x", [1, 2, 2, 3])], [("s", ⟨[2, 3], [2], false⟩)],
          [], [], [], []⟩, [], [], false⟩
        ⟨"prelu", "PRelu", "", ["x", "s"], ["y"], []⟩ "x" "s" ⟨[2, 3], [2], false⟩
        [1, 2, 2, 3] rfl rfl rfl rfl rfl rfl).2.2.1 rfl (by decide) (by simp)⟩

/-- C18, counterexample: two graphs `y = PRelu(x, s)` with `x` of shape `(1, 3, 2, 2)`, hence
`C = 3`. With the scalar slope `s = [1]` of shape `(1)` the node is accepted, and the emitted
slope tensor has the declared shape `[1]` and one value, not `[3]` and three. With a slope of
shape `(5, 1, 1)`, which is neither of shape `(3, 1, 1)` nor the vector `[1]`, the conversion
does not fail: the node is accepted and the emitted slope tensor has the declared shape `[5]`
and five values. -/
theorem Convert_PRelu_slope_not_per_channel :
    (OnnxConverter.Convert
      (⟨fun mp _ => mp, fun t => t, fun v => v, fun _ => 0, 1⟩ : Env ℚ)
      ⟨⟨⟨[], [], []⟩⟩, [], [], [], [], [], [], []⟩
      ⟨⟨[⟨"prelu", "PRelu", "", ["x", "s"], ["y"], []⟩],
        [⟨"s", 1, [1], [1], []⟩],
        [⟨"x", [some 1, some 3, some 2, some 2]⟩]⟩⟩
      "model.dab" Level.kStrict []).map
        (fun c => (c.model.layers, StrKeyMap.find c.self.shaper_ "x",
          c.model.tensors.map (fun t => (t.name, t.data_type, t.shape, t.float_data.length))))
      = .ok ([Layer.PRelu "x" "s" "y"], some [1, 2, 2, 3],
          [("s", DataType.Float32, [1], 1)]) ∧
    (OnnxConverter.Convert
      (⟨fun mp _ => mp, fun t => t, fun v => v, fun _ => 0, 1⟩ : Env ℚ)
      ⟨⟨⟨[], [], []⟩⟩, [], [], [], [], [], [], []⟩
      ⟨⟨[⟨"prelu", "PRelu", "", ["x", "s"], ["y"], []⟩],
        [⟨"s", 1, [5, 1, 1], [2, 3, 4, 5, 6], []⟩],
        [⟨"x", [some 1, some 3, some 2, some 2]⟩]⟩⟩
      "model.dab" Level.kStrict []).map
        (fun c => (c.model.layers, StrKeyMap.find c.self.shaper_ "x",
          c.model.tensors.map (fun t => (t.name, t.data_type, t.shape, t.float_data))))
      = .ok ([Layer.PRelu "x" "s" "y"], some [1, 2, 2, 3],
          [("s", DataType.Float32, [5], [2, 3, 4, 5, 6])]) :=
  ⟨rfl, rfl⟩

/-! ### The Gemm case -/

theorem Convert_node_eq_Gemm {F : Type} [LinearOrderedField F] (env : Env F)
    (expected_binary_conv_outputs : List String) (st : Walk F) (node : NodeProto F)
    (hop : node.op_type = "Gemm") (hr : st.has_reshape = false) :
    Convert_node env expected_binary_conv_outputs st node = Convert_Gemm st node := by
  unfold Convert_node
  rw [hr, hop]
  simp

theorem AddShape_of_find_none (shaper : StrKeyMap Shape) (name : String) (shape : Shape)
    (h : StrKeyMap.find shaper name = none) :
    Shaper.AddShape shaper name shape = .ok (StrKeyMap.set shaper name shape) := by
  simp [Shaper.AddShape, h]

/-- C19: the configuration check of a Gemm node, where an absent `transA` or `transB` reads 0 and
an absent `alpha` or `beta` reads 1, and a present `transA` or `transB` reads as the 32-bit
`int` the code takes it as. Let the walk reach a Gemm node. Unless `transA = 0`,
`transB = 1`, `alpha = 1` and `beta = 1`, in particular when the node has no `transB`
attribute, the node fails with "Only transA == 0, transB == 1, alpha == 1.0 and beta == 1.0
is supported.", so nothing is emitted and `Convert` fails. With that configuration, a stored
weight and no shape yet under its name, the node appends the weight and, with a third input,
the bias as Float32 tensors and, when the shape inferer succeeds, exactly one FC layer. -/
theorem Convert_node_Gemm {F : Type} [LinearOrderedField F] (env : Env F)
    (expected_binary_conv_outputs : List String) (st : Walk F) (node : NodeProto F)
    (hop : node.op_type = "Gemm") (hr : st.has_reshape = false) :
    (¬ (NodeAttrHelper.get_int node "transA" 0 = 0 ∧ NodeAttrHelper.get_int node "transB" 0 = 1 ∧
        NodeAttrHelper.get_float node "alpha" (1 : F) = 1 ∧
        NodeAttrHelper.get_float node "beta" (1 : F) = 1) →
      Convert_node env expected_binary_conv_outputs st node
        = .error "Only transA == 0, transB == 1, alpha == 1.0 and beta == 1.0 is supported.") ∧
    (NodeAttrHelper.find_attr node "transB" = none →
      Convert_node env expected_binary_conv_outputs st node
        = .error "Only transA == 0, transB == 1, alpha == 1.0 and beta == 1.0 is supported.") ∧
    (∀ (self0 : OnnxConverter F) (model_proto : ModelProto F) (filepath : String)
      (level : Level) (st0 : Walk F) (pre post : List (NodeProto F)) (e : String),
      self0.Convert_prepare env model_proto level = .ok st0 →
      st0.self.model_proto_.graph.node = pre ++ node :: post →
      pre.foldlM (Convert_node env expected_binary_conv_outputs) st0 = .ok st →
      Convert_node env expected_binary_conv_outputs st node = .error e →
      self0.Convert env model_proto filepath level expected_binary_conv_outputs = .error e) ∧
    (NodeAttrHelper.get_int node "transA" 0 = 0 ∧ NodeAttrHelper.get_int node "transB" 0 = 1 ∧
        NodeAttrHelper.get_float node "alpha" (1 : F) = 1 ∧
        NodeAttrHelper.get_float node "beta" (1 : F) = 1 →
      ∀ i w o wt, node.input[0]? = some i → node.input[1]? = some w →
        node.output[0]? = some o →
        StrKeyMap.find st.self.onnx_float_tensors_ (st.self.m w) = some wt →
        StrKeyMap.find st.self.shaper_ (st.self.m w) = none →
        (node.input.length < 3 →
          Convert_node env expected_binary_conv_outputs st node
            = (Shaper.FC (StrKeyMap.set st.self.shaper_ (st.self.m w) wt.shape)
                (st.self.m i) (st.self.m w) (st.self.m o)).map (fun shaper2 =>
              { st with self := { st.self with
                bnn_tensors_ := (StrKeyMap.set st.self.bnn_tensors_ (st.self.m w) wt),
                shaper_ := shaper2,
                tensors_ := st.self.tensors_ ++
                  [⟨DataType.Float32, [], wt.data, wt.shape, st.self.m w, false⟩],
                layers_ := st.self.layers_ ++
                  [Layer.FC (st.self.m i) (st.self.m w) none (st.self.m o)] } })) ∧
        (∀ b bt, node.input[2]? = some b →
          StrKeyMap.find st.self.onnx_float_tensors_ (st.self.m b) = some bt →
          Convert_node env expected_binary_conv_outputs st node
            = (Shaper.FC (StrKeyMap.set st.self.shaper_ (st.self.m w) wt.shape)
                (st.self.m i) (st.self.m w) (st.self.m o)).map (fun shaper2 =>
              { st with self := { st.self with
                bnn_tensors_ := (StrKeyMap.set
                  (StrKeyMap.set st.self.bnn_tensors_ (st.self.m w) wt) (st.self.m b) bt),
                shaper_ := shaper2,
                tensors_ := st.self.tensors_ ++
                  [⟨DataType.Float32, [], wt.data, wt.shape, st.self.m w, false⟩,
                   ⟨DataType.Float32, [], bt.data, bt.shape, st.self.m b, false⟩],
                layers_ := st.self.layers_ ++
                  [Layer.FC (st.self.m i) (st.self.m w) (some (st.self.m b))
                    (st.self.m o)] } }))) := by
  have herr : ¬ (NodeAttrHelper.get_int node "transA" 0 = 0 ∧
      NodeAttrHelper.get_int node "transB" 0 = 1 ∧
      NodeAttrHelper.get_float node "alpha" (1 : F) = 1 ∧
      NodeAttrHelper.get_float node "beta" (1 : F) = 1) →
      Convert_node env expected_binary_conv_outputs st node
        = .error "Only transA == 0, transB == 1, alpha == 1.0 and beta == 1.0 is supported." := by
    intro hcfg
    rw [Convert_node_eq_Gemm env expected_binary_conv_outputs st node hop hr]
    unfold Convert_Gemm
    simp only [if_neg hcfg]
  refine ⟨herr, ?_, ?_, ?_⟩
  · intro hnone
    apply herr
    rintro ⟨_, hb, _⟩
    unfold NodeAttrHelper.get_int at hb
    rw [hnone] at hb
    exact absurd hb (by decide : ¬ ((0 : Int) = 1))
  · intro self0 model_proto filepath level st0 pre post e hp hnodes hpre hstep
    exact Convert_error_of_node_error env self0 model_proto filepath level
      expected_binary_conv_outputs st0 st pre post node e hp hnodes hpre hstep
  · intro hcfg i w o wt hi hw ho hwt hfree
    rw [Convert_node_eq_Gemm env expected_binary_conv_outputs st node hop hr]
    have hmo : ∀ (a : StrKeyMap Shape) (b : StrKeyMap (FTensor F)) (c : List Layer)
        (d : List (Tensor F)),
        (⟨st.self.model_proto_, st.self.name_map_, a, st.self.onnx_float_tensors_, b,
          st.self.operands_, c, d⟩ : OnnxConverter F).m o = st.self.m o :=
      fun _ _ _ _ => rfl
    constructor
    · intro hlen
      have hl : ¬ node.input.length ≥ 3 := by omega
      unfold Convert_Gemm Convert_Gemm_bias
      simp only [if_pos hcfg, input_at_ok node 0 i hi, input_at_ok node 1 w hw,
        at_of_find _ _ _ hwt, AddShape_of_find_none _ _ _ hfree, output_at_ok node 0 o ho,
        if_neg hl, bind, Except.bind, pure, Except.pure, hmo]
      cases Shaper.FC (StrKeyMap.set st.self.shaper_ (st.self.m w) wt.shape)
        (st.self.m i) (st.self.m w) (st.self.m o) <;> rfl
    · intro b bt hb hbt
      have hl : node.input.length ≥ 3 := by
        have := (List.getElem?_eq_some.mp hb).1
        omega
      have hmb : ∀ (a : StrKeyMap Shape) (b2 : StrKeyMap (FTensor F)) (c : List Layer)
          (d : List (Tensor F)),
          (⟨st.self.model_proto_, st.self.name_map_, a, st.self.onnx_float_tensors_, b2,
            st.self.operands_, c, d⟩ : OnnxConverter F).m b = st.self.m b :=
        fun _ _ _ _ => rfl
      unfold Convert_Gemm Convert_Gemm_bias
      simp only [if_pos hcfg, input_at_ok node 0 i hi, input_at_ok node 1 w hw,
        input_at_ok node 2 b hb, at_of_find _ _ _ hwt, AddShape_of_find_none _ _ _ hfree,
        output_at_ok node 0 o ho, if_pos hl, bind, Except.bind, pure, Except.pure, hmo, hmb,
        at_of_find _ _ _ hbt, List.append_assoc, List.singleton_append]
      cases Shaper.FC (StrKeyMap.set st.self.shaper_ (st.self.m w) wt.shape)
        (st.self.m i) (st.self.m w) (st.self.m o) <;> rfl

/-- Witness of C19: `y = Gemm(x, w, b)` with `transB = 1` is lowered to one FC layer with its
weight and bias tensors; the same node without attributes is refused; and `y = Gemm(x, w)`
whose 64-bit attribute `transB` holds `2 ^ 32 + 1`, which the code reads as the `int` 1, is
lowered to one FC layer. -/
theorem Convert_node_Gemm_witness :
    (Convert_node
        (⟨fun mp _ => mp, fun t => t, fun v => v, fun _ => 0, 1⟩ : Env ℚ) []
        ⟨⟨⟨⟨[], [], []⟩⟩, [], [("x", [1, 4])],
          [("w", ⟨[1, 2, 3, 4, 5, 6, 7, 8], [2, 4], false⟩), ("b", ⟨[0, 0], [2], false⟩)],
          [], [], [], []⟩, [], [], false⟩
        ⟨"fc", "Gemm", "", ["x", "w", "b"], ["y"], [⟨"transB", 0, 1, []⟩]⟩).map
          (fun st1 => (st1.self.layers_,
            st1.self.tensors_.map (fun t => (t.name, t.data_type, t.shape)),
            StrKeyMap.find st1.self.shaper_ "y"))
      = .ok ([Layer.FC "x" "w" (some "b") "y"],
          [("w", DataType.Float32, [2, 4]), ("b", DataType.Float32, [2])], some [1, 2]) ∧
    Convert_node
        (⟨fun mp _ => mp, fun t => t, fun v => v, fun _ => 0, 1⟩ : Env ℚ) []
        ⟨⟨⟨⟨[], [], []⟩⟩, [], [("x", [1, 4])],
          [("w", ⟨[1, 2, 3, 4, 5, 6, 7, 8], [2, 4], false⟩), ("b", ⟨[0, 0], [2], false⟩)],
          [], [], [], []⟩, [], [], false⟩
        ⟨"fc", "Gemm", "", ["x", "w", "b"], ["y"], []⟩
      = .error "Only transA == 0, transB == 1, alpha == 1.0 and beta == 1.0 is supported." ∧
    (Convert_node
        (⟨fun mp _ => mp, fun t => t, fun v => v, fun _ => 0, 1⟩ : Env ℚ) []
        ⟨⟨⟨⟨[], [], []⟩⟩, [], [("x", [1, 4])],
          [("w", ⟨[1, 2, 3, 4, 5, 6, 7, 8], [2, 4], false⟩)],
          [], [], [], []⟩, [], [], false⟩
        ⟨"fc", "Gemm", "", ["x", "w"], ["y"], [⟨"transB", 0, 4294967297, []⟩]⟩).map
          (fun st1 => (st1.self.layers_,
            st1.self.tensors_.map (fun t => (t.name, t.data_type, t.shape)),
            StrKeyMap.find st1.self.shaper_ "y"))
      = .ok ([Layer.FC "x" "w" none "y"], [("w", DataType.Float32, [2, 4])], some [1, 2]) :=
  ⟨(congrArg (Except.map (fun st1 => (st1.self.layers_,
        st1.self.tensors_.map (fun t => (t.name, t.data_type, t.shape)),
        StrKeyMap.find st1.self.shaper_ "y")))
      (((Convert_node_Gemm
        (⟨fun mp _ => mp, fun t => t, fun v => v, fun _ => 0, 1⟩ : Env ℚ) []
        ⟨⟨⟨⟨[], [], []⟩⟩, [], [("x", [1, 4])],
          [("w", ⟨[1, 2, 3, 4, 5, 6, 7, 8], [2, 4], false⟩), ("b", ⟨[0, 0], [2], false⟩)],
          [], [], [], []⟩, [], [], false⟩
        ⟨"fc", "Gemm", "", ["x", "w", "b"], ["y"], [⟨"transB", 0, 1, []⟩]⟩ rfl rfl).2.2.2
        ⟨rfl, rfl, rfl, rfl⟩ "x" "w" "y" ⟨[1, 2, 3, 4, 5, 6, 7, 8], [2, 4], false⟩
        rfl rfl rfl rfl rfl).2 "b" ⟨[0, 0], [2], false⟩ rfl rfl)).trans rfl,
   (Convert_node_Gemm
        (⟨fun mp _ => mp, fun t => t, fun v => v, fun _ => 0, 1⟩ : Env ℚ) []
        ⟨⟨⟨⟨[], [], []⟩⟩, [], [("x", [1, 4])],
          [("w", ⟨[1, 2, 3, 4, 5, 6, 7, 8], [2, 4], false⟩), ("b", ⟨[0, 0], [2], false⟩)],
          [], [], [], []⟩, [], [], false⟩
        ⟨"fc", "Gemm", "", ["x", "w", "b"], ["y"], []⟩ rfl rfl).2.1 rfl,
   (congrArg (Except.map (fun st1 => (st1.self.layers_,
        st1.self.tensors_.map (fun t => (t.name, t.data_type, t.shape)),
        StrKeyMap.find st1.self.shaper_ "y")))
      (((Convert_node_Gemm
        (⟨fun mp _ => mp, fun t => t, fun v => v, fun _ => 0, 1⟩ : Env ℚ) []
        ⟨⟨⟨⟨[], [], []⟩⟩, [], [("x", [1, 4])],
          [("w", ⟨[1, 2, 3, 4, 5, 6, 7, 8], [2, 4], false⟩)],
          [], [], [], []⟩, [], [], false⟩
        ⟨"fc", "Gemm", "", ["x", "w"], ["y"], [⟨"transB", 0, 4294967297, []⟩]⟩ rfl rfl).2.2.2
        ⟨rfl, rfl, rfl, rfl⟩ "x" "w" "y" ⟨[1, 2, 3, 4, 5, 6, 7, 8], [2, 4], false⟩
        rfl rfl rfl rfl rfl).1 (by decide))).trans rfl⟩

/-! ### The pooling case -/

theorem Convert_node_eq_Pool {F : Type} [LinearOrderedField F] (env : Env F)
    (expected_binary_conv_outputs : List String) (st : Walk F) (node : NodeProto F)
    (hop : node.op_type = "AveragePool" ∨ node.op_type = "MaxPool" ∨
      node.op_type = "GlobalAveragePool" ∨ node.op_type = "GlobalMaxPool")
    (hr : st.has_reshape = false) :
    Convert_node env expected_binary_conv_outputs st node = Convert_Pool st node := by
  unfold Convert_node
  rcases hop with h | h | h | h <;>
  · rw [hr, h]
    simp

theorem Convert_Pool_rejects {F : Type} (st st1 : Walk F) (node : NodeProto F)
    (hop : node.op_type = "AveragePool" ∨ node.op_type = "MaxPool")
    (hattr : NodeAttrHelper.get_int node "count_include_pad" 0 = 1 ∨
      NodeAttrHelper.get_int node "storage_order" 0 = 1 ∨
      NodeAttrHelper.has_attr node "auto_pad" = true) :
    Convert_Pool st node ≠ .ok st1 := by
  intro h
  have hopb : (node.op_type == "AveragePool" || node.op_type == "MaxPool") = true := by
    rcases hop with h1 | h1 <;> simp [h1]
  unfold Convert_Pool at h
  simp only [bind, Except.bind, hopb, if_true] at h
  cases h0 : node.input_at 0 with
  | error e => rw [h0] at h; cases h
  | ok in0 =>
    cases h1 : node.output_at 0 with
    | error e => rw [h0, h1] at h; cases h
    | ok out0 =>
      rw [h0, h1] at h
      simp only at h
      by_cases c1 : NodeAttrHelper.get_int node "count_include_pad" 0 = 1
      · rw [if_pos c1] at h; cases h
      · rw [if_neg c1] at h
        by_cases c2 : NodeAttrHelper.get_int node "storage_order" 0 = 1
        · rw [if_pos c2] at h; cases h
        · rw [if_neg c2] at h
          have c3 : NodeAttrHelper.has_attr node "auto_pad" = true := by
            rcases hattr with h3 | h3 | h3
            · exact absurd h3 c1
            · exact absurd h3 c2
            · exact h3
          rw [if_pos c3] at h
          cases h

/-- C20: the attributes of a pooling node, where `count_include_pad` and `storage_order` read as
the 32-bit `int` the code takes them as and 0 when absent. An AveragePool or MaxPool node with
`count_include_pad = 1`, or `storage_order = 1`, or an `auto_pad` attribute is never lowered, and
`Convert` does not succeed on a graph that holds one. An AveragePool or MaxPool node with none
of the three and with 2 strides, 4 pads and 2 kernel dims passes the validation: the walk goes
on to the shape inferer and, when it succeeds, appends the one pooling layer. For
GlobalAveragePool and GlobalMaxPool the attributes are not read: the node goes to the shape
inferer with the global kernel `(-1, -1)` whatever its attributes are. -/
theorem Convert_node_Pool {F : Type} [LinearOrderedField F] (env : Env F)
    (expected_binary_conv_outputs : List String) (st : Walk F) (node : NodeProto F)
    (i o : String) (hr : st.has_reshape = false)
    (hin : node.input[0]? = some i) (hout : node.output[0]? = some o) :
    (node.op_type = "AveragePool" ∨ node.op_type = "MaxPool" →
      NodeAttrHelper.get_int node "count_include_pad" 0 = 1 ∨
        NodeAttrHelper.get_int node "storage_order" 0 = 1 ∨
        NodeAttrHelper.has_attr node "auto_pad" = true →
      (∀ sa sb, Convert_node env expected_binary_conv_outputs sa node ≠ .ok sb) ∧
      (∀ (self : OnnxConverter F) (model_proto : ModelProto F) (filepath : String)
        (level : Level), node ∈ (env.Optimize model_proto (optimizers level)).graph.node →
        ∀ c, self.Convert env model_proto filepath level expected_binary_conv_outputs
          ≠ .ok c)) ∧
    (node.op_type = "AveragePool" ∨ node.op_type = "MaxPool" →
      ¬ NodeAttrHelper.get_int node "count_include_pad" 0 = 1 →
      ¬ NodeAttrHelper.get_int node "storage_order" 0 = 1 →
      ¬ NodeAttrHelper.has_attr node "auto_pad" = true →
      ∀ s0 s1 p0 p1 p2 p3 k0 k1,
        NodeAttrHelper.get_ints node "strides" [1, 1] = [s0, s1] →
        NodeAttrHelper.get_ints node "pads" [0, 0, 0, 0] = [p0, p1, p2, p3] →
        NodeAttrHelper.get_ints node "kernel_shape" [0, 0] = [k0, k1] →
        Convert_node env expected_binary_conv_outputs st node
          = (Shaper.Pool st.self.shaper_ (st.self.m i) s1 s0 p2 p3 p0 p1 k0 k1
              (st.self.m o)).map (fun shaper1 =>
            { st with self := { st.self with
              shaper_ := shaper1,
              layers_ := st.self.layers_ ++
                [if node.op_type = "AveragePool" then
                  Layer.AvePool (st.self.m i) [k0, k1] [p0, p1, p2, p3] [s0, s1] (st.self.m o)
                 else
                  Layer.MaxPool (st.self.m i) [k0, k1] [p0, p1, p2, p3] [s0, s1]
                    (st.self.m o)] } })) ∧
    (node.op_type = "GlobalAveragePool" ∨ node.op_type = "GlobalMaxPool" →
      Convert_node env expected_binary_conv_outputs st node
        = (Shaper.Pool st.self.shaper_ (st.self.m i) 0 0 0 0 0 0 (-1) (-1)
            (st.self.m o)).map (fun shaper1 =>
          { st with self := { st.self with
            shaper_ := shaper1,
            layers_ := st.self.layers_ ++
              [if node.op_type = "GlobalAveragePool" then
                Layer.AvePool (st.self.m i) [-1, -1] [0, 0, 0, 0] [0, 0] (st.self.m o)
               else
                Layer.MaxPool (st.self.m i) [-1, -1] [0, 0, 0, 0] [0, 0] (st.self.m o)] } })) := by
  refine ⟨?_, ?_, ?_⟩
  · intro hop hattr
    have hstep : ∀ sa sb, Convert_node env expected_binary_conv_outputs sa node ≠ .ok sb := by
      intro sa sb h
      have hra := (Convert_node_locals env expected_binary_conv_outputs sa sb node h).2.1
      rw [Convert_node_eq_Pool env expected_binary_conv_outputs sa node
        (by rcases hop with h1 | h1
            · exact Or.inl h1
            · exact Or.inr (Or.inl h1)) hra] at h
      exact Convert_Pool_rejects sa sb node hop hattr h
    refine ⟨hstep, ?_⟩
    intro self model_proto filepath level hmem c hc
    obtain ⟨st0, st2, hp, hw, _, _⟩ := Convert_ok env self model_proto filepath level
      expected_binary_conv_outputs c hc
    have hm := (Convert_prepare_ok env self model_proto level st0 hp).1
    rw [hm] at hw
    obtain ⟨sa, sb, hs⟩ := foldlM_Convert_node_steps env expected_binary_conv_outputs _
      st0 st2 hw node hmem
    exact hstep sa sb hs
  · intro hop c1 c2 c3 s0 s1 p0 p1 p2 p3 k0 k1 hs hp hk
    rw [Convert_node_eq_Pool env expected_binary_conv_outputs st node
      (by rcases hop with h1 | h1
          · exact Or.inl h1
          · exact Or.inr (Or.inl h1)) hr]
    have hopb : (node.op_type == "AveragePool" || node.op_type == "MaxPool") = true := by
      rcases hop with h1 | h1 <;> simp [h1]
    unfold Convert_Pool
    simp only [bind, Except.bind, pure, Except.pure, hopb, if_true, input_at_ok node 0 i hin,
      output_at_ok node 0 o hout, if_neg c1, if_neg c2, if_neg c3, hs, hp, hk, CHECK_EQ_size,
      int_at, List.length_cons, List.length_nil, List.getElem?_cons_zero,
      List.getElem?_cons_succ]
    generalize Shaper.Pool _ _ _ _ _ _ _ _ _ _ _ = x
    cases x with
    | error e => rfl
    | ok shaper1 =>
      rcases hop with h1 | h1 <;> simp [h1, Except.map]
  · intro hop
    rw [Convert_node_eq_Pool env expected_binary_conv_outputs st node
      (by rcases hop with h1 | h1
          · exact Or.inr (Or.inr (Or.inl h1))
          · exact Or.inr (Or.inr (Or.inr h1))) hr]
    have hopb : (node.op_type == "AveragePool" || node.op_type == "MaxPool") = false := by
      rcases hop with h1 | h1 <;> simp [h1]
    unfold Convert_Pool
    simp only [bind, Except.bind, pure, Except.pure, hopb, Bool.false_eq_true, if_false,
      input_at_ok node 0 i hin, output_at_ok node 0 o hout, CHECK_EQ_size,
      int_at, List.length_cons, List.length_nil, List.getElem?_cons_zero,
      List.getElem?_cons_succ]
    generalize Shaper.Pool _ _ _ _ _ _ _ _ _ _ _ = x
    cases x with
    | error e => rfl
    | ok shaper1 =>
      rcases hop with h1 | h1 <;> simp [h1, Except.map]

/-- Witness of C20: a graph with an AveragePool node that has `count_include_pad = 1` is not
converted, a MaxPool node with a `2 x 2` kernel and strides `(2, 2)` on an input of shape
`(1, 4, 4, 3)` is lowered to one MaxPool layer, and a graph with an AveragePool node whose
64-bit attribute `count_include_pad` holds `2 ^ 32 + 1`, which the code reads as the `int` 1, is
not converted. -/
theorem Convert_node_Pool_witness :
    (¬ ∃ c, OnnxConverter.Convert
      (⟨fun mp _ => mp, fun t => t, fun v => v, fun _ => 0, 1⟩ : Env ℚ)
      ⟨⟨⟨[], [], []⟩⟩, [], [], [], [], [], [], []⟩
      ⟨⟨[⟨"pool", "AveragePool", "", ["x"], ["y"],
          [⟨"kernel_shape", 0, 0, [2, 2]⟩, ⟨"count_include_pad", 0, 1, []⟩]⟩],
        [],
        [⟨"x", [some 1, some 3, some 4, some 4]⟩]⟩⟩
      "model.dab" Level.kStrict [] = .ok c) ∧
    (Convert_node
        (⟨fun mp _ => mp, fun t => t, fun v => v, fun _ => 0, 1⟩ : Env ℚ) []
        ⟨⟨⟨⟨[], [], []⟩⟩, [], [("x", [1, 4, 4, 3])], [], [], [], [], []⟩, [], [], false⟩
        ⟨"pool", "MaxPool", "", ["x"], ["y"],
          [⟨"kernel_shape", 0, 0, [2, 2]⟩, ⟨"strides", 0, 0, [2, 2]⟩]⟩).map
          (fun st1 => (st1.self.layers_, StrKeyMap.find st1.self.shaper_ "y"))
      = .ok ([Layer.MaxPool "x" [2, 2] [0, 0, 0, 0] [2, 2] "y"], some [1, 2, 2, 3]) ∧
    (¬ ∃ c, OnnxConverter.Convert
      (⟨fun mp _ => mp, fun t => t, fun v => v, fun _ => 0, 1⟩ : Env ℚ)
      ⟨⟨⟨[], [], []⟩⟩, [], [], [], [], [], [], []⟩
      ⟨⟨[⟨"pool", "AveragePool", "", ["x"], ["y"],
          [⟨"kernel_shape", 0, 0, [2, 2]⟩, ⟨"count_include_pad", 0, 4294967297, []⟩]⟩],
        [],
        [⟨"x", [some 1, some 3, some 4, some 4]⟩]⟩⟩
      "model.dab" Level.kStrict [] = .ok c) :=
  ⟨fun ⟨c, hc⟩ => ((Convert_node_Pool
        (⟨fun mp _ => mp, fun t => t, fun v => v, fun _ => 0, 1⟩ : Env ℚ) []
        ⟨⟨⟨⟨[], [], []⟩⟩, [], [("x", [1, 4, 4, 3])], [], [], [], [], []⟩, [], [], false⟩
        ⟨"pool", "AveragePool", "", ["x"], ["y"],
          [⟨"kernel_shape", 0, 0, [2, 2]⟩, ⟨"count_include_pad", 0, 1, []⟩]⟩
        "x" "y" rfl rfl rfl).1 (Or.inl rfl) (Or.inl rfl)).2 _ _ _ _
        (List.mem_singleton.mpr rfl) c hc,
   (congrArg (Except.map (fun st1 => (st1.self.layers_, StrKeyMap.find st1.self.shaper_ "y")))
      ((Convert_node_Pool
        (⟨fun mp _ => mp, fun t => t, fun v => v, fun _ => 0, 1⟩ : Env ℚ) []
        ⟨⟨⟨⟨[], [], []⟩⟩, [], [("x", [1, 4, 4, 3])], [], [], [], [], []⟩, [], [], false⟩
        ⟨"pool", "MaxPool", "", ["x"], ["y"],
          [⟨"kernel_shape", 0, 0, [2, 2]⟩, ⟨"strides", 0, 0, [2, 2]⟩]⟩
        "x" "y" rfl rfl rfl).2.1 (Or.inr rfl) (by decide) (by decide) (by decide)
        2 2 0 0 0 0 2 2 rfl rfl rfl)).trans rfl,
   fun ⟨c, hc⟩ => ((Convert_node_Pool
        (⟨fun mp _ => mp, fun t => t, fun v => v, fun _ => 0, 1⟩ : Env ℚ) []
        ⟨⟨⟨⟨[], [], []⟩⟩, [], [("x", [1, 4, 4, 3])], [], [], [], [], []⟩, [], [], false⟩
        ⟨"pool", "AveragePool", "", ["x"], ["y"],
          [⟨"kernel_shape", 0, 0, [2, 2]⟩, ⟨"count_include_pad", 0, 4294967297, []⟩]⟩
        "x" "y" rfl rfl rfl).1 (Or.inl rfl) (Or.inl rfl)).2 _ _ _ _
        (List.mem_singleton.mpr rfl) c hc⟩

/-- C20, counterexample: the graph `y = GlobalAveragePool(x)` whose node has
`count_include_pad = 1`, `storage_order = 1` and an `auto_pad` attribute is converted: the node
is lowered to an AvePool layer with the global kernel. -/
theorem Convert_global_pool_attributes :
    (OnnxConverter.Convert
      (⟨fun mp _ => mp, fun t => t, fun v => v, fun _ => 0, 1⟩ : Env ℚ)
      ⟨⟨⟨[], [], []⟩⟩, [], [], [], [], [], [], []⟩
      ⟨⟨[⟨"pool", "GlobalAveragePool", "", ["x"], ["y"],
          [⟨"count_include_pad", 0, 1, []⟩, ⟨"storage_order", 0, 1, []⟩,
           ⟨"auto_pad", 0, 0, []⟩]⟩],
        [],
        [⟨"x", [some 1, some 3, some 4, some 4]⟩]⟩⟩
      "model.dab" Level.kStrict []).map
        (fun c => (c.model.layers, StrKeyMap.find c.self.shaper_ "y"))
      = .ok ([Layer.AvePool "x" [-1, -1] [0, 0, 0, 0] [0, 0] "y"], some [1, 1, 1, 3]) ∧
    NodeAttrHelper.get_int (⟨"pool", "GlobalAveragePool", "", ["x"], ["y"],
          [⟨"count_include_pad", 0, 1, []⟩, ⟨"storage_order", 0, 1, []⟩,
           ⟨"auto_pad", 0, 0, []⟩]⟩ : NodeProto ℚ) "count_include_pad" 0 = 1 :=
  ⟨rfl, rfl⟩

/-! ### The optimizer passes -/

/-- C22: the passes handed to the optimizer. The list is `eliminate_nop_pad`,
`extract_constant_to_initializer`, `dabnn_bconv_strict` at level strict, that list followed by
`dabnn_bconv_moderate` at level moderate, and that one followed by `dabnn_bconv_aggressive` at
level aggressive, so the list of a level is a prefix of the list of the next level; and the
graph `Convert` works on is what the optimizer returns for the model and that list. -/
theorem optimizers_by_level {F : Type} (env : Env F) (self : OnnxConverter F)
    (model_proto : ModelProto F) (level : Level) :
    optimizers Level.kStrict
      = ["eliminate_nop_pad", "extract_constant_to_initializer", "dabnn_bconv_strict"] ∧
    optimizers Level.kModerate
      = ["eliminate_nop_pad", "extract_constant_to_initializer", "dabnn_bconv_strict",
         "dabnn_bconv_moderate"] ∧
    optimizers Level.kAggressive
      = ["eliminate_nop_pad", "extract_constant_to_initializer", "dabnn_bconv_strict",
         "dabnn_bconv_moderate", "dabnn_bconv_aggressive"] ∧
    optimizers Level.kModerate = optimizers Level.kStrict ++ ["dabnn_bconv_moderate"] ∧
    optimizers Level.kAggressive = optimizers Level.kModerate ++ ["dabnn_bconv_aggressive"] ∧
    List.IsPrefix (optimizers Level.kStrict) (optimizers Level.kModerate) ∧
    List.IsPrefix (optimizers Level.kModerate) (optimizers Level.kAggressive) ∧
    (self.Convert_prepare env model_proto level).map (fun st0 => st0.self.model_proto_)
      = (self.Convert_prepare env model_proto level).map
        (fun _ => env.Optimize model_proto (optimizers level)) := by
  refine ⟨rfl, rfl, rfl, rfl, rfl, ⟨["dabnn_bconv_moderate"], rfl⟩,
    ⟨["dabnn_bconv_aggressive"], rfl⟩, ?_⟩
  cases h : self.Convert_prepare env model_proto level with
  | error e => rfl
  | ok st0 =>
    show Except.ok st0.self.model_proto_ = Except.ok (env.Optimize model_proto (optimizers level))
    rw [(Convert_prepare_ok env self model_proto level st0 h).1]

/-! ### The axis table of Concat and the layout of the inputs -/

/-- C25: the axis table of the Concat case agrees with the permutation applied to the inputs of
the graph. For an input of the graph read with the source shape `s = (N, C, H, W)` (the four
`dim_value`s cast to `uint32_t`), the loop over the inputs registers and records the target
shape `t = (s[0], s[2], s[3], s[1])`, and `t[axis_nchw_to_nhwc[k]] = s[k]` for every source axis
`k` in `{0, 1, 2, 3}`; the table is a permutation of `{0, 1, 2, 3}`. -/
theorem axis_nchw_to_nhwc_agrees {F : Type} (acc : OnnxConverter F × List Input)
    (input : ValueInfoProto) (N C H W : Int)
    (hn : ¬ acc.1.operands_.contains input.name = true)
    (hd : input.dim = [some N, some C, some H, some W])
    (hf : StrKeyMap.find acc.1.shaper_ input.name = none) :
    ∃ t : Shape,
      Convert_input acc input
        = .ok ({ acc.1 with shaper_ := (StrKeyMap.set acc.1.shaper_ input.name t) },
            acc.2 ++ [⟨t, input.name⟩]) ∧
      t = [to_uint32 N, to_uint32 H, to_uint32 W, to_uint32 C] ∧
      (∀ k, k < 4 →
        t.getD (axis_nchw_to_nhwc.getD k 0) 0
          = [to_uint32 N, to_uint32 C, to_uint32 H, to_uint32 W].getD k 0) ∧
      List.Perm axis_nchw_to_nhwc [0, 1, 2, 3] := by
  refine ⟨input_nhwc_shape input, Convert_input_fresh acc input N C H W hn hd hf,
    input_nhwc_shape_eq input N C H W hd, ?_, by decide⟩
  rw [input_nhwc_shape_eq input N C H W hd]
  intro k hk
  interval_cases k <;> rfl

/-- Witness of C25: the input `x` of shape `(1, 3, 4, 5)` is recorded as `(1, 4, 5, 3)`, and
the source axes 0, 1, 2, 3 are found at the target axes 0, 3, 1, 2. -/
theorem axis_nchw_to_nhwc_agrees_witness :
    ∃ t : Shape,
      Convert_input
          ((⟨⟨⟨[], [], []⟩⟩, [], [], [], [], [], [], []⟩ : OnnxConverter ℚ), [])
          ⟨"x", [some 1, some 3, some 4, some 5]⟩
        = .ok (⟨⟨⟨[], [], []⟩⟩, [], [("x", t)], [], [], [], [], []⟩, [⟨t, "x"⟩]) ∧
      t = [1, 4, 5, 3] ∧
      t.getD (axis_nchw_to_nhwc.getD 1 0) 0 = 3 ∧ t.getD (axis_nchw_to_nhwc.getD 2 0) 0 = 4 ∧
      t.getD (axis_nchw_to_nhwc.getD 3 0) 0 = 5 := by
  obtain ⟨t, h1, h2, h3, _⟩ := axis_nchw_to_nhwc_agrees
    ((⟨⟨⟨[], [], []⟩⟩, [], [], [], [], [], [], []⟩ : OnnxConverter ℚ), [])
    ⟨"x", [some 1, some 3, some 4, some 5]⟩ 1 3 4 5 (by decide) rfl rfl
  exact ⟨t, h1, h2, h3 1 (by decide), h3 2 (by decide), h3 3 (by decide)⟩

/-! ### The reads of the bit packer -/

theorem bitpack_stride_eq_calls {F : Type} [Zero F] [LT F]
    [DecidableRel (fun (a b : F) => a < b)] (beyond : Nat → F) (data : List F)
    (HWC n i : Nat) :
    bitpack_stride beyond data HWC n i
      = (bitpack_stride_calls HWC n i).map (fun call =>
          pack_64_bitset (fun j => deref data beyond (call.1 + j)) call.2) := rfl

theorem bitpack_eq_calls {F : Type} [Zero F] [LT F] [DecidableRel (fun (a b : F) => a < b)]
    (beyond : Nat → F) (ftensor : FTensor F) :
    (bitpack beyond ftensor).map (fun r => r.data)
      = (bitpack_calls ftensor).map (fun calls => calls.map (fun call =>
          pack_64_bitset (fun j => deref ftensor.data beyond (call.1 + j)) call.2)) := by
  unfold bitpack bitpack_calls
  cases Shaper.kn ftensor.shape <;> cases Shaper.kc ftensor.shape <;>
    cases ftensor.shape[0]? <;> cases ftensor.shape[1]? <;> cases ftensor.shape[2]? <;>
    cases ftensor.shape[3]? <;> try rfl
  rename_i N C s0 s1 s2 s3
  by_cases hN : N = 0
  · simp [hN]
  · by_cases hC : (C != 64) = true
    · simp only [if_neg hN, if_pos hC, Option.map_some', List.map_flatMap,
        bitpack_stride_eq_calls]
    · simp only [if_neg hN, if_neg hC, Option.map_some', List.map_map]
      rfl

theorem second_eff_bits (eff_bits : Nat) (h : eff_bits ≤ 128) :
    min (max 0 (size_t_sub eff_bits 64)) 64 = if eff_bits < 64 then 64 else eff_bits - 64 := by
  unfold size_t_sub
  norm_num
  split_ifs <;> omega

theorem bitpack_calls_aligned {F : Type} (data : List F) (N H W C : Nat) (al : Bool)
    (hN : 0 < N) (hC : C ≠ 64) :
    bitpack_calls ⟨data, [N, H, W, C], al⟩
      = some ((FORZ N).flatMap (fun n =>
          (FORZS (H * W * C) 128).flatMap (fun i => bitpack_stride_calls (H * W * C) n i))) := by
  have hdiv : Shaper.total [N, H, W, C] / N = H * W * C := by
    rw [total_four]; exact Nat.mul_div_cancel_left _ hN
  simp only [bitpack_calls, Shaper.kn, Shaper.kc, List.getElem?_cons_zero,
    List.getElem?_cons_succ, hdiv]
  simp [Nat.pos_iff_ne_zero.mp hN, hC]

theorem bitpack_calls_sequential {F : Type} (data : List F) (N H W : Nat) (al : Bool)
    (hN : 0 < N) :
    bitpack_calls ⟨data, [N, H, W, 64], al⟩
      = some ((FORZS (Shaper.total [N, H, W, 64]) 64).map (fun i => (i, 64))) := by
  simp only [bitpack_calls, Shaper.kn, Shaper.kc, List.getElem?_cons_zero,
    List.getElem?_cons_succ]
  simp [Nat.pos_iff_ne_zero.mp hN]

theorem mem_FORZS (n s i : Nat) : i ∈ FORZS n s ↔ ∃ k, k < (n + (s - 1)) / s ∧ i = k * s := by
  unfold FORZS
  simp only [List.mem_map, List.mem_range]
  constructor
  · rintro ⟨k, hk, rfl⟩
    exact ⟨k, hk, rfl⟩
  · rintro ⟨k, hk, rfl⟩
    exact ⟨k, hk, rfl⟩

theorem mem_aligned_calls (N HWC : Nat) (call : Nat × Nat) :
    call ∈ (FORZ N).flatMap (fun n =>
        (FORZS HWC 128).flatMap (fun i => bitpack_stride_calls HWC n i)) ↔
      ∃ n k, n < N ∧ k * 128 < HWC ∧
        (call = (n * HWC + k * 128, min (min (HWC - k * 128) 128) 64) ∨
         call = (n * HWC + k * 128 + 64,
           min (max 0 (size_t_sub (min (HWC - k * 128) 128) 64)) 64)) := by
  simp only [List.mem_flatMap, FORZ, List.mem_range, mem_FORZS, bitpack_stride_calls,
    List.mem_cons, List.mem_singleton, List.not_mem_nil, or_false]
  constructor
  · rintro ⟨n, hn, i, ⟨k, hk, rfl⟩, h⟩
    exact ⟨n, k, hn, by omega, h⟩
  · rintro ⟨n, k, hn, hk, h⟩
    exact ⟨n, hn, k * 128, ⟨k, by omega, rfl⟩, h⟩

theorem aligned_calls_in_range (N HWC : Nat)
    (hrem : HWC % 128 = 0 ∨ 64 ≤ HWC % 128) (call : Nat × Nat)
    (hmem : call ∈ (FORZ N).flatMap (fun n =>
        (FORZS HWC 128).flatMap (fun i => bitpack_stride_calls HWC n i))) :
    call_in_range (N * HWC) call := by
  obtain ⟨n, k, hn, hk, h⟩ := (mem_aligned_calls N HWC call).mp hmem
  have hle : n * HWC + HWC ≤ N * HWC := by
    have := Nat.mul_le_mul_right HWC (Nat.succ_le_of_lt hn)
    rwa [Nat.succ_mul] at this
  unfold call_in_range
  right
  rcases h with rfl | rfl
  · show n * HWC + k * 128 + min (min (HWC - k * 128) 128) 64 ≤ N * HWC
    omega
  · show n * HWC + k * 128 + 64
      + min (max 0 (size_t_sub (min (HWC - k * 128) 128) 64)) 64 ≤ N * HWC
    rw [second_eff_bits _ (Nat.min_le_right _ _)]
    have heff : 64 ≤ min (HWC - k * 128) 128 := by omega
    rw [if_neg (by omega)]
    omega

theorem aligned_calls_out_of_range (N HWC : Nat) (hN : 0 < N)
    (h0 : 0 < HWC % 128) (h1 : HWC % 128 < 64) :
    ((N - 1) * HWC + HWC / 128 * 128 + 64, 64) ∈ (FORZ N).flatMap (fun n =>
        (FORZS HWC 128).flatMap (fun i => bitpack_stride_calls HWC n i)) ∧
      ¬ call_in_range (N * HWC) ((N - 1) * HWC + HWC / 128 * 128 + 64, 64) := by
  constructor
  · refine (mem_aligned_calls N HWC _).mpr ⟨N - 1, HWC / 128, by omega, by omega, Or.inr ?_⟩
    rw [second_eff_bits _ (Nat.min_le_right _ _), if_pos (by omega)]
  · unfold call_in_range
    have hle : (N - 1) * HWC + HWC = N * HWC := by
      have : N - 1 + 1 = N := by omega
      rw [← Nat.succ_mul, Nat.succ_eq_add_one, this]
    show ¬ (64 = 0 ∨ (N - 1) * HWC + HWC / 128 * 128 + 64 + 64 ≤ N * HWC)
    omega

theorem sequential_calls_in_range (N H W : Nat) (call : Nat × Nat)
    (hmem : call ∈ (FORZS (Shaper.total [N, H, W, 64]) 64).map (fun i => (i, 64))) :
    call_in_range (N * (H * W * 64)) call := by
  rw [total_four] at hmem
  obtain ⟨i, hi, rfl⟩ := List.mem_map.mp hmem
  obtain ⟨k, hk, rfl⟩ := (mem_FORZS _ _ _).mp hi
  unfold call_in_range
  right
  show k * 64 + 64 ≤ N * (H * W * 64)
  have h64 : N * (H * W * 64) = N * (H * W) * 64 := by ring
  rw [h64] at hk ⊢
  omega

theorem mapM_option_none {α β : Type} (f : α → Option β) (l : List α) (c : α) (hc : c ∈ l)
    (hf : f c = none) : l.mapM f = none := by
  induction l with
  | nil => cases hc
  | cons a rest ih =>
    rw [List.mapM_cons]
    rcases List.mem_cons.mp hc with rfl | hm
    · rw [hf]
      rfl
    · rw [ih hm]
      cases f a <;> rfl

theorem pack_64_bitset_checked_none {F : Type} [Zero F] [LT F]
    [DecidableRel (fun (a b : F) => a < b)] (data : List F) (start eff_bits : Nat)
    (h0 : 0 < eff_bits) (h64 : eff_bits ≤ 64) (hlen : data.length < start + eff_bits) :
    pack_64_bitset_checked data start eff_bits = none := by
  unfold pack_64_bitset_checked
  rw [mapM_option_none _ _ (eff_bits - 1) (List.mem_range.mpr (by omega))]
  · rfl
  · rw [if_pos (by omega), List.getElem?_eq_none (by omega)]
    rfl

theorem bitpack_checked_none {F : Type} [Zero F] [LT F]
    [DecidableRel (fun (a b : F) => a < b)] (data : List F) (N H W C : Nat) (al : Bool)
    (hN : 0 < N) (hC : C ≠ 64) (hlen : data.length = N * (H * W * C))
    (h0 : 0 < (H * W * C) % 128) (h1 : (H * W * C) % 128 < 64) :
    bitpack_checked ⟨data, [N, H, W, C], al⟩ = none := by
  unfold bitpack_checked
  rw [bitpack_calls_aligned data N H W C al hN hC]
  obtain ⟨hmem, hout⟩ := aligned_calls_out_of_range N (H * W * C) hN h0 h1
  show List.mapM _ _ = none
  apply mapM_option_none _ _ _ hmem
  apply pack_64_bitset_checked_none _ _ _ (show 0 < 64 by decide) (show 64 ≤ 64 by decide)
  unfold call_in_range at hout
  show data.length < (N - 1) * (H * W * C) + H * W * C / 128 * 128 + 64 + 64
  rw [hlen]
  simp only [not_or, not_le] at hout
  exact hout.2

theorem mapM_option_some {α β : Type} (f : α → Option β) (g : α → β) (l : List α)
    (bs : List β) (hfg : ∀ a, a ∈ l → ∀ b, f a = some b → b = g a)
    (h : l.mapM f = some bs) : bs = l.map g := by
  induction l generalizing bs with
  | nil =>
    simp only [List.mapM_nil, pure] at h
    cases h
    rfl
  | cons a rest ih =>
    rw [List.mapM_cons] at h
    cases hfa : f a with
    | none =>
      rw [hfa] at h
      cases h
    | some b =>
      rw [hfa] at h
      cases hrest : rest.mapM f with
      | none =>
        rw [hrest] at h
        cases h
      | some bs1 =>
        rw [hrest] at h
        cases h
        rw [List.map_cons, ← hfg a (List.mem_cons_self _ _) b hfa,
          ← ih bs1 (fun x hx => hfg x (List.mem_cons_of_mem _ hx)) hrest]

theorem pack_64_bitset_checked_some {F : Type} [Zero F] [LT F]
    [DecidableRel (fun (a b : F) => a < b)] (data : List F) (beyond : Nat → F)
    (start eff_bits w : Nat) (h : pack_64_bitset_checked data start eff_bits = some w) :
    pack_64_bitset (fun j => deref data beyond (start + j)) eff_bits = w := by
  unfold pack_64_bitset_checked at h
  cases hm : (List.range 64).mapM (fun i =>
      if i < eff_bits then (data[start + i]?).map (fun x => decide (0 < x)) else some false) with
  | none =>
    rw [hm] at h
    cases h
  | some bs =>
    rw [hm] at h
    cases h
    unfold pack_64_bitset
    rw [mapM_option_some _
      (fun i => if i < eff_bits then decide (0 < deref data beyond (start + i)) else false)
      _ bs ?_ hm]
    intro i _ b hb
    show b = if i < eff_bits then decide (0 < deref data beyond (start + i)) else false
    by_cases hi : i < eff_bits
    · rw [if_pos hi] at hb
      rw [if_pos hi]
      unfold deref
      cases hd : data[start + i]? with
      | none =>
        rw [hd] at hb
        cases hb
      | some x =>
        rw [hd] at hb
        cases hb
        rfl
    · rw [if_neg hi] at hb
      rw [if_neg hi]
      cases hb
      rfl

theorem bitpack_checked_some {F : Type} [Zero F] [LT F]
    [DecidableRel (fun (a b : F) => a < b)] (beyond : Nat → F) (ftensor : FTensor F)
    (ws : List Nat) (h : bitpack_checked ftensor = some ws) :
    (bitpack beyond ftensor).map (fun r => r.data) = some ws := by
  rw [bitpack_eq_calls]
  unfold bitpack_checked at h
  cases hc : bitpack_calls ftensor with
  | none =>
    rw [hc] at h
    cases h
  | some calls =>
    rw [hc] at h
    have hm := mapM_option_some _
      (fun call => pack_64_bitset (fun j => deref ftensor.data beyond (call.1 + j)) call.2)
      calls ws (fun call _ w hw =>
        (pack_64_bitset_checked_some ftensor.data beyond call.1 call.2 w hw).symm) h
    rw [hm]
    rfl

/-- C23: the reads of `bitpack`, evaluated on the code. For the filter of shape `(1, 3, 3, 3)`
with its 27 values, `bitpack` calls the packing helper at index 0 with 27 effective bits and at
index 64 with 64 effective bits: the `size_t` difference `eff_bits - 64` wraps, so the second
call reads the elements 64 to 127 of a buffer of 27, with checked reads the result is `none`,
and with raw reads the second word is whatever the memory past the buffer gives; where the checked
packer gives words, the raw one gives the same. The same
happens for every shape with `C != 64` whose `H * W * C` leaves a remainder strictly between 0
and 64 modulo 128: the second call of the last stride of the last filter reads past the end. In
the other cases (`C = 64`, or a remainder that is 0 or at least 64) every call stays inside the
buffer. -/
theorem bitpack_reads_past_the_end :
    bitpack_calls (⟨List.replicate 27 1, [1, 3, 3, 3], false⟩ : FTensor Int)
      = some [(0, 27), (64, 64)] ∧
    ¬ call_in_range 27 (64, 64) ∧
    bitpack_checked (⟨List.replicate 27 1, [1, 3, 3, 3], false⟩ : FTensor Int) = none ∧
    (bitpack (fun _ => (1 : Int)) ⟨List.replicate 27 1, [1, 3, 3, 3], false⟩).map
        (fun r => r.data) = some [2 ^ 27 - 1, 2 ^ 64 - 1] ∧
    (bitpack (fun _ => (0 : Int)) ⟨List.replicate 27 1, [1, 3, 3, 3], false⟩).map
        (fun r => r.data) = some [2 ^ 27 - 1, 0] ∧
    (∀ (beyond : Nat → Int) (ftensor : FTensor Int),
      (bitpack beyond ftensor).map (fun r => r.data)
        = (bitpack_calls ftensor).map (fun calls => calls.map (fun call =>
            pack_64_bitset (fun j => deref ftensor.data beyond (call.1 + j)) call.2))) ∧
    (∀ (beyond : Nat → Int) (ftensor : FTensor Int) (ws : List Nat),
      bitpack_checked ftensor = some ws →
      (bitpack beyond ftensor).map (fun r => r.data) = some ws) ∧
    (∀ (data : List Int) (N H W C : Nat) (al : Bool), 0 < N → C ≠ 64 →
      data.length = N * (H * W * C) → 0 < (H * W * C) % 128 → (H * W * C) % 128 < 64 →
      (∃ calls call, bitpack_calls ⟨data, [N, H, W, C], al⟩ = some calls ∧ call ∈ calls ∧
        ¬ call_in_range data.length call) ∧
      bitpack_checked ⟨data, [N, H, W, C], al⟩ = none) ∧
    (∀ (data : List Int) (N H W C : Nat) (al : Bool), 0 < N → C ≠ 64 →
      data.length = N * (H * W * C) → (H * W * C) % 128 = 0 ∨ 64 ≤ (H * W * C) % 128 →
      ∃ calls, bitpack_calls ⟨data, [N, H, W, C], al⟩ = some calls ∧
        ∀ call, call ∈ calls → call_in_range data.length call) ∧
    (∀ (data : List Int) (N H W : Nat) (al : Bool), 0 < N →
      data.length = N * (H * W * 64) →
      ∃ calls, bitpack_calls ⟨data, [N, H, W, 64], al⟩ = some calls ∧
        ∀ call, call ∈ calls → call_in_range data.length call) := by
  refine ⟨by decide, by decide, by set_option maxRecDepth 100000 in decide,
    by set_option maxRecDepth 100000 in decide, by set_option maxRecDepth 100000 in decide,
    fun beyond ftensor => bitpack_eq_calls beyond ftensor,
    fun beyond ftensor ws h => bitpack_checked_some beyond ftensor ws h, ?_, ?_, ?_⟩
  · intro data N H W C al hN hC hlen h0 h1
    obtain ⟨hmem, hout⟩ := aligned_calls_out_of_range N (H * W * C) hN h0 h1
    refine ⟨⟨_, _, bitpack_calls_aligned data N H W C al hN hC, hmem, ?_⟩,
      bitpack_checked_none data N H W C al hN hC hlen h0 h1⟩
    rw [hlen]
    exact hout
  · intro data N H W C al hN hC hlen hrem
    refine ⟨_, bitpack_calls_aligned data N H W C al hN hC, ?_⟩
    intro call hmem
    rw [hlen]
    exact aligned_calls_in_range N (H * W * C) hrem call hmem
  · intro data N H W al hN hlen
    refine ⟨_, bitpack_calls_sequential data N H W al hN, ?_⟩
    intro call hmem
    rw [hlen]
    exact sequential_calls_in_range N H W call hmem

/-! ### The name map -/

theorem m_of_find_some {F : Type} (self : OnnxConverter F) (s v : String)
    (h : StrKeyMap.find self.name_map_ s = some v) : self.m s = v := by
  unfold OnnxConverter.m
  rw [h]

theorem m_of_find_none {F : Type} (self : OnnxConverter F) (s : String)
    (h : StrKeyMap.find self.name_map_ s = none) : self.m s = s := by
  unfold OnnxConverter.m
  rw [h]

theorem m_set {F : Type} (self : OnnxConverter F) (o x s : String) :
    ({ self with name_map_ := (StrKeyMap.set self.name_map_ o x) } : OnnxConverter F).m s
      = if s = o then x else self.m s := by
  by_cases hs : s = o
  · rw [if_pos hs, hs]
    exact m_of_find_some _ o x (find_set_self _ _ _)
  · rw [if_neg hs]
    cases hf : StrKeyMap.find self.name_map_ s with
    | none =>
      rw [m_of_find_none self s hf]
      exact m_of_find_none _ s ((find_set_ne _ _ _ _ hs).trans hf)
    | some v =>
      rw [m_of_find_some self s v hf]
      exact m_of_find_some _ s v ((find_set_ne _ _ _ _ hs).trans hf)

theorem mem_set {V : Type} (m : StrKeyMap V) (key : String) (v : V) (p : String × V) :
    p ∈ StrKeyMap.set m key v ↔ p = (key, v) ∨ (p ∈ m ∧ p.1 ≠ key) := by
  simp [StrKeyMap.set, List.mem_filter]

theorem mem_of_find {V : Type} (m : StrKeyMap V) (key : String) (v : V)
    (h : StrKeyMap.find m key = some v) : (key, v) ∈ m := by
  unfold StrKeyMap.find at h
  induction m with
  | nil => cases h
  | cons e rest ih =>
    rw [List.lookup_cons] at h
    by_cases hk : (key == e.1) = true
    · rw [hk] at h
      cases h
      have : key = e.1 := by simpa using hk
      rw [this]
      exact List.mem_cons_self _ _
    · have hk2 : (key == e.1) = false := by simpa using hk
      rw [hk2] at h
      exact List.mem_cons_of_mem _ (ih h)

theorem m_idempotent_of_values {F : Type} (self : OnnxConverter F)
    (h : ∀ p, p ∈ self.name_map_ → self.m p.2 = p.2) (n : String) :
    self.m (self.m n) = self.m n := by
  cases hf : StrKeyMap.find self.name_map_ n with
  | none => rw [m_of_find_none self n hf, m_of_find_none self n hf]
  | some v =>
    rw [m_of_find_some self n v hf]
    exact h (n, v) (mem_of_find _ _ _ hf)

theorem values_resolved_of_no_key {F : Type} (self : OnnxConverter F)
    (h : ∀ p, p ∈ self.name_map_ → StrKeyMap.find self.name_map_ p.2 = none) :
    ∀ p, p ∈ self.name_map_ → self.m p.2 = p.2 :=
  fun p hp => m_of_find_none self p.2 (h p hp)

theorem set_values_resolved {F : Type} (self : OnnxConverter F) (i o : String)
    (hJ : ∀ p, p ∈ self.name_map_ → self.m p.2 = p.2)
    (hval : ∀ p, p ∈ self.name_map_ → p.2 ≠ o) :
    ∀ p, p ∈ StrKeyMap.set self.name_map_ o (self.m i) →
      ({ self with name_map_ := (StrKeyMap.set self.name_map_ o (self.m i)) } :
        OnnxConverter F).m p.2 = p.2 := by
  intro p hp
  rw [m_set]
  rcases (mem_set _ _ _ _).mp hp with rfl | ⟨hm, _⟩
  · show (if self.m i = o then self.m i else self.m (self.m i)) = self.m i
    rw [m_idempotent_of_values self hJ i]
    split <;> rfl
  · rw [if_neg (hval p hm)]
    exact hJ p hm

theorem set_no_value_is_key {F : Type} (self : OnnxConverter F) (i o : String)
    (hK : ∀ p, p ∈ self.name_map_ → StrKeyMap.find self.name_map_ p.2 = none)
    (hval : ∀ p, p ∈ self.name_map_ → p.2 ≠ o) (hio : i ≠ o) :
    ∀ p, p ∈ StrKeyMap.set self.name_map_ o (self.m i) →
      StrKeyMap.find (StrKeyMap.set self.name_map_ o (self.m i)) p.2 = none := by
  intro p hp
  rcases (mem_set _ _ _ _).mp hp with rfl | ⟨hm, _⟩
  · show StrKeyMap.find (StrKeyMap.set self.name_map_ o (self.m i)) (self.m i) = none
    cases hf : StrKeyMap.find self.name_map_ i with
    | none =>
      rw [m_of_find_none self i hf, find_set_ne _ _ _ _ hio]
      exact hf
    | some v =>
      have hmem := mem_of_find _ _ _ hf
      rw [m_of_find_some self i v hf, find_set_ne _ _ _ _ (hval (i, v) hmem)]
      exact hK (i, v) hmem
  · rw [find_set_ne _ _ _ _ (hval p hm)]
    exact hK p hm

theorem Convert_node_Dropout_eq {F : Type} [LinearOrderedField F] (env : Env F)
    (expected_binary_conv_outputs : List String) (st : Walk F) (node : NodeProto F)
    (i o : String) (hop : node.op_type = "Dropout") (hr : st.has_reshape = false)
    (hin : node.input[0]? = some i) (hout : node.output[0]? = some o) :
    Convert_node env expected_binary_conv_outputs st node
      = .ok { st with self := { st.self with
          name_map_ := (StrKeyMap.set st.self.name_map_ o (st.self.m i)) } } := by
  rw [Convert_node_eq_Dropout env expected_binary_conv_outputs st node hop hr]
  simp only [Convert_Dropout, input_at_ok node 0 i hin, output_at_ok node 0 o hout,
    bind, Except.bind, pure, Except.pure]

theorem foldlM_invariant {σ α : Type} (f : σ → α → Except String σ) (Inv : σ → Prop)
    (Fresh : σ → α → Prop)
    (hstep : ∀ s a s1, Inv s → Fresh s a → f s a = .ok s1 → Inv s1)
    (l : List α) (s : σ) (h0 : Inv s)
    (hfresh : ∀ pre a post s1, l = pre ++ a :: post → pre.foldlM f s = .ok s1 → Fresh s1 a)
    (pre post : List α) (s1 : σ) (hl : l = pre ++ post) (hpre : pre.foldlM f s = .ok s1) :
    Inv s1 := by
  induction pre generalizing l s with
  | nil =>
    simp only [List.foldlM_nil, pure, Except.pure] at hpre
    cases hpre
    exact h0
  | cons a rest ih =>
    rw [List.foldlM_cons] at hpre
    cases hfa : f s a with
    | error e =>
      rw [hfa] at hpre
      cases hpre
    | ok s2 =>
      rw [hfa] at hpre
      have hf0 : Fresh s a := hfresh [] a (rest ++ post) s (by rw [hl]; rfl) rfl
      refine ih (rest ++ post) s2 (hstep s a s2 h0 hf0 hfa) ?_ rfl hpre
      intro pre2 a2 post2 s3 hsplit hfold
      refine hfresh (a :: pre2) a2 post2 s3 (by rw [hl, List.cons_append, hsplit]; rfl) ?_
      rw [List.foldlM_cons, hfa]
      exact hfold

theorem foldlM_total {σ α : Type} (f : σ → α → Except String σ) (Inv : σ → Prop)
    (l : List α) (s : σ) (h0 : Inv s)
    (hstep : ∀ s a, a ∈ l → Inv s → ∃ s1, f s a = .ok s1 ∧ Inv s1) :
    ∃ s1, l.foldlM f s = .ok s1 ∧ Inv s1 := by
  induction l generalizing s with
  | nil => exact ⟨s, rfl, h0⟩
  | cons a rest ih =>
    obtain ⟨s2, hfa, h2⟩ := hstep s a (List.mem_cons_self _ _) h0
    obtain ⟨s1, hs1, h1⟩ := ih s2 h2 (fun s a ha => hstep s a (List.mem_cons_of_mem _ ha))
    refine ⟨s1, ?_, h1⟩
    rw [List.foldlM_cons, hfa]
    exact hs1

theorem Dropout_chain_fold {F : Type} [LinearOrderedField F] (env : Env F)
    (expected_binary_conv_outputs : List String) (names : List String) (y x : String)
    (st : Walk F) (nodes : List (NodeProto F)) (hr : st.has_reshape = false)
    (hy : st.self.m y = x)
    (hchain : List.Forall₂ (fun (node : NodeProto F) (p : String × String) =>
      node.op_type = "Dropout" ∧ node.input[0]? = some p.1 ∧ node.output[0]? = some p.2)
      nodes ((y :: names).zip names)) :
    ∃ st1, nodes.foldlM (Convert_node env expected_binary_conv_outputs) st = .ok st1 ∧
      st1.has_reshape = false ∧ (∀ z, z ∈ names → st1.self.m z = x) ∧
      (∀ s, s ∉ names → st1.self.m s = st.self.m s) := by
  induction names generalizing y st nodes with
  | nil =>
    simp only [List.zip_nil_right] at hchain
    cases hchain
    exact ⟨st, rfl, hr, fun z hz => absurd hz (List.not_mem_nil z), fun _ _ => rfl⟩
  | cons z rest ih =>
    rw [List.zip_cons_cons] at hchain
    cases hchain with
    | cons hnode htail =>
      rename_i node nodes1
      obtain ⟨hop, hin, hout⟩ := hnode
      have hstep := Convert_node_Dropout_eq env expected_binary_conv_outputs st node y z hop hr
        hin hout
      rw [hy] at hstep
      have hz : ({ st.self with name_map_ := (StrKeyMap.set st.self.name_map_ z x) } :
          OnnxConverter F).m z = x := by
        rw [m_set, if_pos rfl]
      obtain ⟨st1, hfold, hr1, hnames, hframe⟩ := ih z
        { st with self := { st.self with
          name_map_ := (StrKeyMap.set st.self.name_map_ z x) } } nodes1 hr hz htail
      refine ⟨st1, ?_, hr1, ?_, ?_⟩
      · rw [List.foldlM_cons, hstep]
        exact hfold
      · intro w hw
        by_cases hwr : w ∈ rest
        · exact hnames w hwr
        · rcases List.mem_cons.mp hw with rfl | hw2
          · rw [hframe w hwr]
            exact hz
          · exact absurd hw2 hwr
      · intro s hs
        have hs1 : s ≠ z := fun h => hs (h ▸ List.mem_cons_self _ _)
        have hs2 : s ∉ rest := fun h => hs (List.mem_cons_of_mem _ h)
        rw [hframe s hs2]
        show ({ st.self with name_map_ := (StrKeyMap.set st.self.name_map_ z x) } :
          OnnxConverter F).m s = st.self.m s
        rw [m_set, if_neg hs1]

/-- C24: resolution through the name map is idempotent. Let a sequence of Dropout nodes, each
with an input and an output, be processed in order from a state in which no Reshape has been
seen, the output of each being fresh when its turn comes: not a key of the name map and not the
value of an entry. Then every node is processed without error. If at the start every value of
the name map resolves to itself, then after every step it still does and `m (m n) = m n` for
every name `n`. If at the start no value of the name map is a key and the output of each node
differs from its input, then after every step no value of the name map is a key. And a chain
`z1 = Dropout(x)`, `z2 = Dropout(z1)`, ... resolves every `zk` to what `x` resolved to, which
is `x` itself when `x` is not mapped. -/
theorem Dropout_name_map_resolved {F : Type} [LinearOrderedField F] (env : Env F)
    (expected_binary_conv_outputs : List String) (st : Walk F) (nodes : List (NodeProto F))
    (hr : st.has_reshape = false)
    (hnodes : ∀ node, node ∈ nodes → node.op_type = "Dropout" ∧
      ∃ i o, node.input[0]? = some i ∧ node.output[0]? = some o)
    (hfresh : ∀ pre node post st1, nodes = pre ++ node :: post →
      pre.foldlM (Convert_node env expected_binary_conv_outputs) st = .ok st1 →
      ∀ o, node.output[0]? = some o →
        StrKeyMap.find st1.self.name_map_ o = none ∧ ∀ p, p ∈ st1.self.name_map_ → p.2 ≠ o) :
    (∃ st1, nodes.foldlM (Convert_node env expected_binary_conv_outputs) st = .ok st1) ∧
    ((∀ p, p ∈ st.self.name_map_ → st.self.m p.2 = p.2) →
      ∀ pre post st1, nodes = pre ++ post →
        pre.foldlM (Convert_node env expected_binary_conv_outputs) st = .ok st1 →
        (∀ p, p ∈ st1.self.name_map_ → st1.self.m p.2 = p.2) ∧
        ∀ n, st1.self.m (st1.self.m n) = st1.self.m n) ∧
    ((∀ p, p ∈ st.self.name_map_ → StrKeyMap.find st.self.name_map_ p.2 = none) →
      (∀ node, node ∈ nodes → ∀ i o, node.input[0]? = some i → node.output[0]? = some o →
        i ≠ o) →
      ∀ pre post st1, nodes = pre ++ post →
        pre.foldlM (Convert_node env expected_binary_conv_outputs) st = .ok st1 →
        (∀ p, p ∈ st1.self.name_map_ → StrKeyMap.find st1.self.name_map_ p.2 = none) ∧
        ∀ n, st1.self.m (st1.self.m n) = st1.self.m n) ∧
    (∀ (x : String) (names : List String) (chain : List (NodeProto F)) (st2 : Walk F),
      st2.has_reshape = false →
      List.Forall₂ (fun (node : NodeProto F) (p : String × String) =>
        node.op_type = "Dropout" ∧ node.input[0]? = some p.1 ∧ node.output[0]? = some p.2)
        chain ((x :: names).zip names) →
      ∃ st3, chain.foldlM (Convert_node env expected_binary_conv_outputs) st2 = .ok st3 ∧
        (∀ z, z ∈ names → st3.self.m z = st2.self.m x) ∧
        (StrKeyMap.find st2.self.name_map_ x = none → ∀ z, z ∈ names → st3.self.m z = x)) := by
  refine ⟨?_, ?_, ?_, ?_⟩
  · obtain ⟨st1, h, _⟩ := foldlM_total (Convert_node env expected_binary_conv_outputs)
      (fun s => s.has_reshape = false) nodes st hr (by
        intro s node hmem hs
        obtain ⟨hop, i, o, hin, hout⟩ := hnodes node hmem
        exact ⟨_, Convert_node_Dropout_eq env expected_binary_conv_outputs s node i o hop hs
          hin hout, hs⟩)
    exact ⟨st1, h⟩
  · intro hJ pre post st1 hl hpre
    have key := foldlM_invariant (Convert_node env expected_binary_conv_outputs)
      (fun s => s.has_reshape = false ∧ ∀ p, p ∈ s.self.name_map_ → s.self.m p.2 = p.2)
      (fun s node => node.op_type = "Dropout" ∧ ∃ i o, node.input[0]? = some i ∧
        node.output[0]? = some o ∧ ∀ p, p ∈ s.self.name_map_ → p.2 ≠ o)
      (by
        rintro s node s1 ⟨hs, hJs⟩ ⟨hop, i, o, hin, hout, hval⟩ hstep
        rw [Convert_node_Dropout_eq env expected_binary_conv_outputs s node i o hop hs hin
          hout] at hstep
        cases hstep
        exact ⟨hs, set_values_resolved s.self i o hJs hval⟩)
      nodes st ⟨hr, hJ⟩ (by
        intro pre2 node post2 s1 hsplit hfold
        have hmem : node ∈ nodes := by rw [hsplit]; simp
        obtain ⟨hop, i, o, hin, hout⟩ := hnodes node hmem
        exact ⟨hop, i, o, hin, hout, (hfresh pre2 node post2 s1 hsplit hfold o hout).2⟩)
      pre post st1 hl hpre
    exact ⟨key.2, m_idempotent_of_values st1.self key.2⟩
  · intro hK hio pre post st1 hl hpre
    have key := foldlM_invariant (Convert_node env expected_binary_conv_outputs)
      (fun s => s.has_reshape = false ∧
        ∀ p, p ∈ s.self.name_map_ → StrKeyMap.find s.self.name_map_ p.2 = none)
      (fun s node => node.op_type = "Dropout" ∧ ∃ i o, node.input[0]? = some i ∧
        node.output[0]? = some o ∧ i ≠ o ∧ ∀ p, p ∈ s.self.name_map_ → p.2 ≠ o)
      (by
        rintro s node s1 ⟨hs, hKs⟩ ⟨hop, i, o, hin, hout, hne, hval⟩ hstep
        rw [Convert_node_Dropout_eq env expected_binary_conv_outputs s node i o hop hs hin
          hout] at hstep
        cases hstep
        exact ⟨hs, set_no_value_is_key s.self i o hKs hval hne⟩)
      nodes st ⟨hr, hK⟩ (by
        intro pre2 node post2 s1 hsplit hfold
        have hmem : node ∈ nodes := by rw [hsplit]; simp
        obtain ⟨hop, i, o, hin, hout⟩ := hnodes node hmem
        exact ⟨hop, i, o, hin, hout, hio node hmem i o hin hout,
          (hfresh pre2 node post2 s1 hsplit hfold o hout).2⟩)
      pre post st1 hl hpre
    exact ⟨key.2, m_idempotent_of_values st1.self
      (values_resolved_of_no_key st1.self key.2)⟩
  · intro x names chain st2 hr2 hchain
    obtain ⟨st3, hfold, _, hnames, _⟩ := Dropout_chain_fold env expected_binary_conv_outputs
      names x (st2.self.m x) st2 chain hr2 rfl hchain
    exact ⟨st3, hfold, hnames, fun hx z hz => by
      rw [hnames z hz, m_of_find_none st2.self x hx]⟩

/-- Witness of C24: the chain `z1 = Dropout(x)`, `z2 = Dropout(z1)` on an empty name map. -/
theorem Dropout_name_map_resolved_witness :
    ∃ st1, [(⟨"d1", "Dropout", "", ["x"], ["z1"], []⟩ : NodeProto ℚ),
        ⟨"d2", "Dropout", "", ["z1"], ["z2"], []⟩].foldlM
        (Convert_node (⟨fun mp _ => mp, fun t => t, fun v => v, fun _ => 0, 1⟩ : Env ℚ) [])
        ⟨⟨⟨⟨[], [], []⟩⟩, [], [("x", [1, 4, 4, 3])], [], [], [], [], []⟩, [], [], false⟩
        = .ok st1 ∧
      (∀ p, p ∈ st1.self.name_map_ → StrKeyMap.find st1.self.name_map_ p.2 = none) ∧
      (∀ n, st1.self.m (st1.self.m n) = st1.self.m n) ∧
      st1.self.name_map_ = [("z2", "x"), ("z1", "x")] := by
  have T := Dropout_name_map_resolved
    (⟨fun mp _ => mp, fun t => t, fun v => v, fun _ => 0, 1⟩ : Env ℚ) []
    ⟨⟨⟨⟨[], [], []⟩⟩, [], [("x", [1, 4, 4, 3])], [], [], [], [], []⟩, [], [], false⟩
    [⟨"d1", "Dropout", "", ["x"], ["z1"], []⟩, ⟨"d2", "Dropout", "", ["z1"], ["z2"], []⟩]
    rfl
    (by
      intro node hmem
      simp only [List.mem_cons, List.mem_singleton, List.not_mem_nil, or_false] at hmem
      rcases hmem with rfl | rfl
      · exact ⟨rfl, "x", "z1", rfl, rfl⟩
      · exact ⟨rfl, "z1", "z2", rfl, rfl⟩)
    (by
      intro pre node post st1 hsplit hfold o ho
      rcases pre with _ | ⟨a, _ | ⟨b, rest⟩⟩
      · simp only [List.nil_append, List.cons.injEq] at hsplit
        obtain ⟨rfl, _⟩ := hsplit
        cases hfold
        cases ho
        exact ⟨rfl, by decide⟩
      · simp only [List.cons_append, List.nil_append, List.cons.injEq] at hsplit
        obtain ⟨rfl, rfl, _⟩ := hsplit
        have h2 : (Except.ok _ : Except String (Walk ℚ)) = Except.ok st1 := hfold
        cases h2
        cases ho
        exact ⟨rfl, by decide⟩
      · simp at hsplit)
  obtain ⟨st1, h1⟩ := T.1
  have h3 := T.2.2.1 (by decide)
    (by
      intro node hmem i o hi ho
      simp only [List.mem_cons, List.mem_singleton, List.not_mem_nil, or_false] at hmem
      rcases hmem with rfl | rfl
      · cases hi; cases ho; decide
      · cases hi; cases ho; decide)
    _ [] st1 (List.append_nil _).symm h1
  have h4 : (Except.ok _ : Except String (Walk ℚ)) = Except.ok st1 := h1
  refine ⟨st1, h1, h3.1, h3.2, ?_⟩
  cases h4
  rfl

/-- C24, counterexample: the node `z = Dropout(z)` processed on an empty name map. Its output `z`
is fresh, being no key and no value of the empty map, and after the step the name map holds the
one entry `z -> z`, whose value is a key; resolution stays idempotent there. -/
theorem Dropout_output_is_input :
    StrKeyMap.find
      (⟨⟨⟨⟨[], [], []⟩⟩, [], [], [], [], [], [], []⟩, [], [], false⟩ : Walk ℚ).self.name_map_
      "z" = none ∧
    (∀ p, p ∈ (⟨⟨⟨⟨[], [], []⟩⟩, [], [], [], [], [], [], []⟩, [], [], false⟩ :
        Walk ℚ).self.name_map_ → p.2 ≠ "z") ∧
    ([(⟨"d", "Dropout", "", ["z"], ["z"], []⟩ : NodeProto ℚ)].foldlM
        (Convert_node (⟨fun mp _ => mp, fun t => t, fun v => v, fun _ => 0, 1⟩ : Env ℚ) [])
        ⟨⟨⟨⟨[], [], []⟩⟩, [], [], [], [], [], [], []⟩, [], [], false⟩).map
          (fun st1 => (st1.self.name_map_, StrKeyMap.find st1.self.name_map_ "z",
            st1.self.m (st1.self.m "z")))
      = .ok ([("z", "z")], some "z", "z") := by
  refine ⟨rfl, by decide, rfl⟩

/-! ### `Convert` never resets the member state -/

theorem keeps_refl {F : Type} (a : OnnxConverter F) : a.keeps a :=
  ⟨rfl, fun _ _ h => h, List.prefix_refl _, List.prefix_refl _⟩

theorem keeps_trans {F : Type} (a b c : OnnxConverter F) (h1 : a.keeps b) (h2 : b.keeps c) :
    a.keeps c :=
  ⟨h2.1.trans h1.1, fun k s h => h2.2.1 k s (h1.2.1 k s h), h1.2.2.1.trans h2.2.2.1,
    h1.2.2.2.trans h2.2.2.2⟩

theorem AddShape_mono (shaper shaper1 : StrKeyMap Shape) (name : String) (shape : Shape)
    (h : Shaper.AddShape shaper name shape = .ok shaper1) :
    ∀ k s, StrKeyMap.find shaper k = some s → StrKeyMap.find shaper1 k = some s := by
  unfold Shaper.AddShape at h
  cases hf : StrKeyMap.find shaper name with
  | some v => rw [hf] at h; cases h
  | none =>
    rw [hf] at h
    cases h
    intro k s hk
    have hne : k ≠ name := by
      intro heq
      rw [heq, hf] at hk
      cases hk
    rw [find_set_ne _ _ _ _ hne]
    exact hk

theorem Shaper_Conv_mono (shaper shaper1 : StrKeyMap Shape) (a : String) (i1 i2 i3 i4 i5 i6 i7 i8 : Int) (w o : String)
    (h : Shaper.Conv shaper a i1 i2 i3 i4 i5 i6 i7 i8 w o = .ok shaper1) :
    ∀ k s, StrKeyMap.find shaper k = some s → StrKeyMap.find shaper1 k = some s := by
  unfold Shaper.Conv at h
  simp only [bind, Except.bind, pure, Except.pure] at h
  repeat' split at h
  all_goals first | exact AddShape_mono _ _ _ _ h | cases h

theorem Shaper_Pool_mono (shaper shaper1 : StrKeyMap Shape) (a : String) (i1 i2 i3 i4 i5 i6 i7 i8 : Int) (o : String)
    (h : Shaper.Pool shaper a i1 i2 i3 i4 i5 i6 i7 i8 o = .ok shaper1) :
    ∀ k s, StrKeyMap.find shaper k = some s → StrKeyMap.find shaper1 k = some s := by
  unfold Shaper.Pool at h
  simp only [bind, Except.bind, pure, Except.pure] at h
  repeat' split at h
  all_goals first | exact AddShape_mono _ _ _ _ h | cases h

theorem Shaper_Relu_mono (shaper shaper1 : StrKeyMap Shape) (a o : String)
    (h : Shaper.Relu shaper a o = .ok shaper1) :
    ∀ k s, StrKeyMap.find shaper k = some s → StrKeyMap.find shaper1 k = some s := by
  unfold Shaper.Relu at h
  simp only [bind, Except.bind, pure, Except.pure] at h
  repeat' split at h
  all_goals first | exact AddShape_mono _ _ _ _ h | cases h

theorem Shaper_Softmax_mono (shaper shaper1 : StrKeyMap Shape) (a o : String)
    (h : Shaper.Softmax shaper a o = .ok shaper1) :
    ∀ k s, StrKeyMap.find shaper k = some s → StrKeyMap.find shaper1 k = some s := by
  unfold Shaper.Softmax at h
  simp only [bind, Except.bind, pure, Except.pure] at h
  repeat' split at h
  all_goals first | exact AddShape_mono _ _ _ _ h | cases h

theorem Shaper_Affine_mono (shaper shaper1 : StrKeyMap Shape) (a o : String)
    (h : Shaper.Affine shaper a o = .ok shaper1) :
    ∀ k s, StrKeyMap.find shaper k = some s → StrKeyMap.find shaper1 k = some s := by
  unfold Shaper.Affine at h
  simp only [bind, Except.bind, pure, Except.pure] at h
  repeat' split at h
  all_goals first | exact AddShape_mono _ _ _ _ h | cases h

theorem Shaper_Eltwise_mono (shaper shaper1 : StrKeyMap Shape) (a b o : String)
    (h : Shaper.Eltwise shaper a b o = .ok shaper1) :
    ∀ k s, StrKeyMap.find shaper k = some s → StrKeyMap.find shaper1 k = some s := by
  unfold Shaper.Eltwise at h
  simp only [bind, Except.bind, pure, Except.pure] at h
  repeat' split at h
  all_goals first | exact AddShape_mono _ _ _ _ h | cases h

theorem Shaper_FC_mono (shaper shaper1 : StrKeyMap Shape) (a w o : String)
    (h : Shaper.FC shaper a w o = .ok shaper1) :
    ∀ k s, StrKeyMap.find shaper k = some s → StrKeyMap.find shaper1 k = some s := by
  unfold Shaper.FC at h
  simp only [bind, Except.bind, pure, Except.pure] at h
  repeat' split at h
  all_goals first | exact AddShape_mono _ _ _ _ h | cases h

theorem Shaper_Concat_mono (shaper shaper1 : StrKeyMap Shape) (l : List String) (axis : Int) (o : String)
    (h : Shaper.Concat shaper l axis o = .ok shaper1) :
    ∀ k s, StrKeyMap.find shaper k = some s → StrKeyMap.find shaper1 k = some s := by
  unfold Shaper.Concat at h
  simp only [bind, Except.bind, pure, Except.pure] at h
  repeat' split at h
  all_goals first | exact AddShape_mono _ _ _ _ h | cases h

theorem AddConv_keeps {F : Type} [LinearOrderedField F] (env : Env F)
    (self self1 : OnnxConverter F) (input_name : String) (strides pads dilations : List Int)
    (group : Int) (ori_weight_name : String) (bias_name : Option String) (output_name : String)
    (binary : Bool)
    (h : self.AddConv env input_name strides pads dilations group ori_weight_name bias_name
      output_name binary = .ok self1) :
    self.keeps self1 := by
  unfold OnnxConverter.AddConv OnnxConverter.AddBinConv OnnxConverter.AddFloatConv at h
  simp only [bind, Except.bind, pure, Except.pure] at h
  repeat' split at h
  all_goals first
    | (cases h
       refine ⟨rfl, ?_, ?_, ?_⟩
       all_goals first
      | exact fun k s hk => Shaper_Conv_mono _ _ _ _ _ _ _ _ _ _ _ _ _ (by assumption) k s
          (AddShape_mono _ _ _ _ (by assumption) k s hk)
      | exact List.prefix_append _ _)
    | cases h

theorem CalculateCoeff_keeps {F : Type} [Field F] (sqrt : F → F)
    (self self1 : OnnxConverter F) (node : NodeProto F) (coeff_a_name coeff_b_name : String)
    (h : self.CalculateCoeff sqrt node coeff_a_name coeff_b_name = .ok self1) :
    self.keeps self1 := by
  unfold OnnxConverter.CalculateCoeff at h
  simp only [bind, Except.bind, pure, Except.pure] at h
  repeat' split at h
  all_goals first | (cases h; exact keeps_refl _) | cases h

theorem Convert_Conv_bias_keeps {F : Type} (st : Walk F) (node : NodeProto F)
    (p : Option String × OnnxConverter F) (h : Convert_Conv_bias st node = .ok p) :
    st.self.keeps p.2 := by
  unfold Convert_Conv_bias at h
  simp only [bind, Except.bind, pure, Except.pure] at h
  repeat' split at h
  all_goals first
    | (cases h
       refine ⟨rfl, ?_, ?_, ?_⟩
       all_goals first
      | exact fun _ _ hk => hk
      | exact List.prefix_refl _
      | exact List.prefix_append _ _)
    | cases h

theorem Convert_Gemm_bias_keeps {F : Type} (self1 : OnnxConverter F)
    (node : NodeProto F) (p : Option String × OnnxConverter F)
    (h : Convert_Gemm_bias self1 node = .ok p) :
    self1.keeps p.2 := by
  unfold Convert_Gemm_bias at h
  simp only [bind, Except.bind, pure, Except.pure] at h
  repeat' split at h
  all_goals first
    | (cases h
       refine ⟨rfl, ?_, ?_, ?_⟩
       all_goals first
      | exact fun _ _ hk => hk
      | exact List.prefix_refl _
      | exact List.prefix_append _ _)
    | cases h

theorem Convert_Pool_keeps {F : Type}  (st st1 : Walk F)
    (node : NodeProto F) (h : Convert_Pool st node = .ok st1) :
    st.self.keeps st1.self := by
  unfold Convert_Pool at h
  simp only [bind, Except.bind, pure, Except.pure] at h
  repeat' split at h
  all_goals first
    | (cases h
       refine ⟨rfl, ?_, ?_, ?_⟩
       all_goals first
      | exact Shaper_Pool_mono _ _ _ _ _ _ _ _ _ _ _ _ (by assumption)
      | exact List.prefix_refl _
      | exact List.prefix_append _ _)
    | cases h

theorem Convert_Relu_keeps {F : Type}  (st st1 : Walk F)
    (node : NodeProto F) (h : Convert_Relu st node = .ok st1) :
    st.self.keeps st1.self := by
  unfold Convert_Relu at h
  simp only [bind, Except.bind, pure, Except.pure] at h
  repeat' split at h
  all_goals first
    | (cases h
       refine ⟨rfl, ?_, ?_, ?_⟩
       all_goals first
      | exact Shaper_Relu_mono _ _ _ _ (by assumption)
      | exact List.prefix_refl _
      | exact List.prefix_append _ _)
    | cases h

theorem Convert_Add_keeps {F : Type}  (st st1 : Walk F)
    (node : NodeProto F) (h : Convert_Add st node = .ok st1) :
    st.self.keeps st1.self := by
  unfold Convert_Add at h
  simp only [bind, Except.bind, pure, Except.pure] at h
  repeat' split at h
  all_goals first
    | (cases h
       refine ⟨rfl, ?_, ?_, ?_⟩
       all_goals first
      | exact Shaper_Eltwise_mono _ _ _ _ _ (by assumption)
      | exact List.prefix_refl _
      | exact List.prefix_append _ _)
    | cases h

theorem Convert_Softmax_keeps {F : Type}  (st st1 : Walk F)
    (node : NodeProto F) (h : Convert_Softmax st node = .ok st1) :
    st.self.keeps st1.self := by
  unfold Convert_Softmax at h
  simp only [bind, Except.bind, pure, Except.pure] at h
  repeat' split at h
  all_goals first
    | (cases h
       refine ⟨rfl, ?_, ?_, ?_⟩
       all_goals first
      | exact Shaper_Softmax_mono _ _ _ _ (by assumption)
      | exact List.prefix_refl _
      | exact List.prefix_append _ _)
    | cases h

theorem Convert_Concat_keeps {F : Type}  (st st1 : Walk F)
    (node : NodeProto F) (h : Convert_Concat st node = .ok st1) :
    st.self.keeps st1.self := by
  unfold Convert_Concat at h
  simp only [bind, Except.bind, pure, Except.pure] at h
  repeat' split at h
  all_goals first
    | (cases h
       refine ⟨rfl, ?_, ?_, ?_⟩
       all_goals first
      | exact Shaper_Concat_mono _ _ _ _ _ (by assumption)
      | exact List.prefix_refl _
      | exact List.prefix_append _ _)
    | cases h

theorem Convert_Dropout_keeps {F : Type}  (st st1 : Walk F)
    (node : NodeProto F) (h : Convert_Dropout st node = .ok st1) :
    st.self.keeps st1.self := by
  unfold Convert_Dropout at h
  simp only [bind, Except.bind, pure, Except.pure] at h
  repeat' split at h
  all_goals first
    | (cases h
       refine ⟨rfl, ?_, ?_, ?_⟩
       all_goals first
      | exact fun _ _ hk => hk
      | exact List.prefix_refl _)
    | cases h

theorem Convert_PRelu_keeps {F : Type} [LinearOrderedField F] (st st1 : Walk F)
    (node : NodeProto F) (h : Convert_PRelu st node = .ok st1) :
    st.self.keeps st1.self := by
  unfold Convert_PRelu at h
  simp only [bind, Except.bind, pure, Except.pure] at h
  repeat' split at h
  all_goals first
    | (cases h
       refine ⟨rfl, ?_, ?_, ?_⟩
       all_goals first
      | exact Shaper_Relu_mono _ _ _ _ (by assumption)
      | exact List.prefix_append _ _)
    | cases h

theorem Convert_Gemm_keeps {F : Type} [LinearOrderedField F] (st st1 : Walk F)
    (node : NodeProto F) (h : Convert_Gemm st node = .ok st1) :
    st.self.keeps st1.self := by
  unfold Convert_Gemm at h
  simp only [bind, Except.bind, pure, Except.pure] at h
  repeat' split at h
  all_goals first
    | (cases h
       have hb := Convert_Gemm_bias_keeps _ _ _ (by assumption)
       refine keeps_trans _ _ _ ?_ (keeps_trans _ _ _ hb ?_)
       · refine ⟨rfl, ?_, ?_, ?_⟩
         all_goals first
      | exact AddShape_mono _ _ _ _ (by assumption)
      | exact List.prefix_refl _
      | exact List.prefix_append _ _
       · refine ⟨rfl, ?_, ?_, ?_⟩
         all_goals first
      | exact Shaper_FC_mono _ _ _ _ _ (by assumption)
      | exact List.prefix_refl _
      | exact List.prefix_append _ _)
    | cases h

theorem Convert_BatchNormalization_keeps {F : Type} [Field F] (env : Env F)
    (st st1 : Walk F) (node : NodeProto F)
    (h : Convert_BatchNormalization env st node = .ok st1) :
    st.self.keeps st1.self := by
  unfold Convert_BatchNormalization at h
  simp only [bind, Except.bind, pure, Except.pure] at h
  repeat' split at h
  all_goals first
    | (cases h
       have hc := CalculateCoeff_keeps _ _ _ _ _ _ (by assumption)
       refine keeps_trans _ _ _ hc ?_
       refine ⟨rfl, ?_, ?_, ?_⟩
       all_goals first
      | exact Shaper_Affine_mono _ _ _ _ (by assumption)
      | exact List.prefix_append _ _)
    | cases h

theorem Convert_Conv_keeps {F : Type} [LinearOrderedField F] (env : Env F)
    (expected_binary_conv_outputs : List String) (st st1 : Walk F) (node : NodeProto F)
    (h : Convert_Conv env expected_binary_conv_outputs st node = .ok st1) :
    st.self.keeps st1.self := by
  unfold Convert_Conv at h
  simp only [bind, Except.bind, pure, Except.pure] at h
  repeat' split at h
  all_goals first
    | (cases h
       have hb := Convert_Conv_bias_keeps _ _ _ (by assumption)
       have ha := AddConv_keeps _ _ _ _ _ _ _ _ _ _ _ _ (by assumption)
       exact keeps_trans _ _ _ hb ha)
    | cases h

theorem Convert_node_keeps {F : Type} [LinearOrderedField F] (env : Env F)
    (expected_binary_conv_outputs : List String) (st st1 : Walk F) (node : NodeProto F)
    (h : Convert_node env expected_binary_conv_outputs st node = .ok st1) :
    st.self.keeps st1.self := by
  unfold Convert_node at h
  by_cases c0 : st.has_reshape = true
  · rw [if_pos c0] at h; cases h
  rw [if_neg c0] at h
  by_cases c1 : (node.op_type == "Conv") = true
  · rw [if_pos c1] at h; exact Convert_Conv_keeps _ _ _ _ _ h
  rw [if_neg c1] at h
  by_cases c2 : (node.op_type == "AveragePool" || node.op_type == "MaxPool"
      || node.op_type == "GlobalAveragePool" || node.op_type == "GlobalMaxPool") = true
  · rw [if_pos c2] at h; exact Convert_Pool_keeps _ _ _ h
  rw [if_neg c2] at h
  by_cases c3 : (node.op_type == "PRelu") = true
  · rw [if_pos c3] at h; exact Convert_PRelu_keeps _ _ _ h
  rw [if_neg c3] at h
  by_cases c4 : (node.op_type == "Relu") = true
  · rw [if_pos c4] at h; exact Convert_Relu_keeps _ _ _ h
  rw [if_neg c4] at h
  by_cases c5 : (node.op_type == "Add") = true
  · rw [if_pos c5] at h; exact Convert_Add_keeps _ _ _ h
  rw [if_neg c5] at h
  by_cases c6 : (node.op_type == "Gemm") = true
  · rw [if_pos c6] at h; exact Convert_Gemm_keeps _ _ _ h
  rw [if_neg c6] at h
  by_cases c7 : (node.op_type == "Softmax") = true
  · rw [if_pos c7] at h; exact Convert_Softmax_keeps _ _ _ h
  rw [if_neg c7] at h
  by_cases c8 : (node.op_type == "Concat") = true
  · rw [if_pos c8] at h; exact Convert_Concat_keeps _ _ _ h
  rw [if_neg c8] at h
  by_cases c9 : (node.op_type == "Dropout") = true
  · rw [if_pos c9] at h; exact Convert_Dropout_keeps _ _ _ h
  rw [if_neg c9] at h
  by_cases c10 : (node.op_type == "Reshape") = true
  · rw [if_pos c10] at h; cases h; exact keeps_refl _
  rw [if_neg c10] at h
  by_cases c11 : (node.op_type == "BatchNormalization") = true
  · rw [if_pos c11] at h; exact Convert_BatchNormalization_keeps _ _ _ _ h
  rw [if_neg c11] at h
  cases h

theorem foldlM_Convert_node_keeps {F : Type} [LinearOrderedField F] (env : Env F)
    (expected_binary_conv_outputs : List String) (nodes : List (NodeProto F)) (st st1 : Walk F)
    (h : nodes.foldlM (Convert_node env expected_binary_conv_outputs) st = .ok st1) :
    st.self.keeps st1.self := by
  induction nodes generalizing st with
  | nil => cases h; exact keeps_refl _
  | cons node rest ih =>
    rw [List.foldlM_cons] at h
    cases hstep : Convert_node env expected_binary_conv_outputs st node with
    | error e => rw [hstep] at h; cases h
    | ok st2 =>
      rw [hstep] at h
      exact keeps_trans _ _ _ (Convert_node_keeps _ _ _ _ _ hstep) (ih st2 h)

theorem foldl_Convert_initializer_records {F : Type} (env : Env F) (l : List (TensorProto F))
    (self : OnnxConverter F) :
    (l.foldl (Convert_initializer env) self).layers_ = self.layers_ ∧
      (l.foldl (Convert_initializer env) self).tensors_ = self.tensors_ := by
  induction l generalizing self with
  | nil => exact ⟨rfl, rfl⟩
  | cons t rest ih =>
    obtain ⟨h1, h2⟩ := ih (Convert_initializer env self t)
    rw [List.foldl_cons, h1, h2]
    constructor <;>
    · unfold Convert_initializer
      split <;> rfl

theorem foldlM_Convert_input_records {F : Type} (inputs : List ValueInfoProto)
    (acc acc1 : OnnxConverter F × List Input) (h : inputs.foldlM Convert_input acc = .ok acc1) :
    acc1.1.layers_ = acc.1.layers_ ∧ acc1.1.tensors_ = acc.1.tensors_ := by
  induction inputs generalizing acc with
  | nil =>
    simp only [List.foldlM_nil, pure, Except.pure] at h
    cases h
    exact ⟨rfl, rfl⟩
  | cons input rest ih =>
    rw [List.foldlM_cons] at h
    cases hstep : Convert_input acc input with
    | error e =>
      rw [hstep] at h
      cases h
    | ok acc2 =>
      rw [hstep] at h
      obtain ⟨h1, h2⟩ := ih acc2 h
      by_cases hc : acc.1.operands_.contains input.name = true
      · rw [Convert_input_skip acc input hc] at hstep
        cases hstep
        exact ⟨h1, h2⟩
      · obtain ⟨_, hacc2⟩ := Convert_input_ok acc acc2 input hc hstep
        rw [h1, h2, hacc2]
        exact ⟨rfl, rfl⟩

theorem foldlM_Convert_input_unregistered {F : Type} (ops : List String)
    (inputs : List ValueInfoProto) (acc acc1 : OnnxConverter F × List Input)
    (hops : acc.1.operands_ = ops) (h : inputs.foldlM Convert_input acc = .ok acc1)
    (input : ValueInfoProto) (hmem : input ∈ inputs)
    (hnot : ¬ ops.contains input.name = true) :
    StrKeyMap.find acc.1.shaper_ input.name = none := by
  induction inputs generalizing acc with
  | nil => cases hmem
  | cons i rest ih =>
    rw [List.foldlM_cons] at h
    cases hstep : Convert_input acc i with
    | error e =>
      rw [hstep] at h
      cases h
    | ok acc2 =>
      rw [hstep] at h
      rcases List.mem_cons.mp hmem with rfl | hm
      · have hc : ¬ acc.1.operands_.contains input.name = true := by rw [hops]; exact hnot
        exact (Convert_input_ok acc acc2 input hc hstep).1
      · have hone : [i].foldlM Convert_input acc = .ok acc2 := by
          rw [List.foldlM_cons, hstep]
          rfl
        obtain ⟨_, _, hops2, hmono, _, _⟩ := foldlM_Convert_input ops [i] acc acc2 hops hone
        have hnone := ih acc2 hops2 h hm
        cases hf : StrKeyMap.find acc.1.shaper_ input.name with
        | none => rfl
        | some s =>
          rw [hmono _ _ hf] at hnone
          cases hnone

/-! ### Runs of `Convert` and the state they leave -/

theorem Convert_leaves {F : Type} [LinearOrderedField F] (env : Env F)
    (self : OnnxConverter F) (model_proto : ModelProto F) (filepath : String) (level : Level)
    (expected_binary_conv_outputs : List String) (c : Converted F)
    (h : self.Convert env model_proto filepath level expected_binary_conv_outputs = .ok c) :
    c.self.operands_ = self.operands_ ++
        (env.Optimize model_proto (optimizers level)).graph.initializer.map (fun t => t.name) ∧
      (∀ k s, StrKeyMap.find self.shaper_ k = some s →
        StrKeyMap.find c.self.shaper_ k = some s) ∧
      List.IsPrefix self.layers_ c.model.layers ∧ List.IsPrefix self.tensors_ c.model.tensors ∧
      c.self.layers_ = c.model.layers ∧ c.self.tensors_ = c.model.tensors ∧
      (∀ input, input ∈ (env.Optimize model_proto (optimizers level)).graph.input →
        input.name ∉ self.operands_ ++
          (env.Optimize model_proto (optimizers level)).graph.initializer.map
            (fun t => t.name) →
        StrKeyMap.find c.self.shaper_ input.name = some (input_nhwc_shape input)) := by
  obtain ⟨st0, st, hp, hw, _, rfl⟩ := Convert_ok env self model_proto filepath level
    expected_binary_conv_outputs c h
  obtain ⟨_, _, _, hfold⟩ := Convert_prepare_ok env self model_proto level st0 hp
  obtain ⟨_, ho, hs⟩ := foldl_Convert_initializer env
    (env.Optimize model_proto (optimizers level)).graph.initializer
    { self with model_proto_ := env.Optimize model_proto (optimizers level) }
  obtain ⟨hl, ht⟩ := foldl_Convert_initializer_records env
    (env.Optimize model_proto (optimizers level)).graph.initializer
    { self with model_proto_ := env.Optimize model_proto (optimizers level) }
  obtain ⟨_, _, h3, h4, h5, _⟩ := foldlM_Convert_input _ _ _ _ ho hfold
  obtain ⟨hl2, ht2⟩ := foldlM_Convert_input_records _ _ _ hfold
  obtain ⟨k1, k2, k3, k4⟩ := foldlM_Convert_node_keeps env expected_binary_conv_outputs _
    st0 st hw
  refine ⟨k1.trans h3, ?_, ?_, ?_, rfl, rfl, ?_⟩
  · intro k s hk
    apply k2
    apply h4
    exact (congrArg (fun sh => StrKeyMap.find sh k) hs).trans hk
  · have : st0.self.layers_ = self.layers_ := hl2.trans hl
    rw [← this]
    exact k3
  · have : st0.self.tensors_ = self.tensors_ := ht2.trans ht
    rw [← this]
    exact k4
  · intro input hmem hnot
    apply k2
    exact h5 input hmem (by simpa using hnot)

theorem Convert_rerun_fails {F : Type} [LinearOrderedField F] (env : Env F)
    (self : OnnxConverter F) (model_proto : ModelProto F) (filepath : String) (level : Level)
    (expected_binary_conv_outputs : List String) (c : Converted F)
    (h : self.Convert env model_proto filepath level expected_binary_conv_outputs = .ok c)
    (input : ValueInfoProto)
    (hmem : input ∈ (env.Optimize model_proto (optimizers level)).graph.input)
    (hnot : input.name ∉ self.operands_ ++
      (env.Optimize model_proto (optimizers level)).graph.initializer.map (fun t => t.name))
    (filepath2 : String) (expected2 : List String) (c2 : Converted F) :
    c.self.Convert env model_proto filepath2 level expected2 ≠ .ok c2 := by
  intro h2
  obtain ⟨hops, _, _, _, _, _, hreg⟩ := Convert_leaves env self model_proto filepath level
    expected_binary_conv_outputs c h
  obtain ⟨st0, st, hp, _, _, _⟩ := Convert_ok env c.self model_proto filepath2 level
    expected2 c2 h2
  obtain ⟨_, _, _, hfold⟩ := Convert_prepare_ok env c.self model_proto level st0 hp
  obtain ⟨_, ho, hs⟩ := foldl_Convert_initializer env
    (env.Optimize model_proto (optimizers level)).graph.initializer
    { c.self with model_proto_ := env.Optimize model_proto (optimizers level) }
  have hnot2 : ¬ (c.self.operands_ ++
      (env.Optimize model_proto (optimizers level)).graph.initializer.map
        (fun t => t.name)).contains input.name = true := by
    rw [hops]
    simp only [List.contains_eq_any_beq, List.any_eq_true, beq_iff_eq, not_exists, not_and]
    intro x hx hxe
    apply hnot
    rw [hxe]
    rcases List.mem_append.mp hx with hx1 | hx2
    · exact hx1
    · exact List.mem_append_right _ hx2
  have hnone := foldlM_Convert_input_unregistered _ _ _ _ ho hfold input hmem hnot2
  have hsome := hreg input hmem hnot
  have hs2 : StrKeyMap.find c.self.shaper_ input.name = none :=
    (congrArg (fun sh => StrKeyMap.find sh input.name) hs).symm.trans hnone
  rw [hs2] at hsome
  cases hsome

theorem Convert_same_state {F : Type} [LinearOrderedField F] (env : Env F)
    (self : OnnxConverter F) (model_proto stale : ModelProto F) (filepath filepath2 : String)
    (level : Level) (expected_binary_conv_outputs : List String) :
    (OnnxConverter.Convert env { self with model_proto_ := stale } model_proto filepath2 level
        expected_binary_conv_outputs).map
        (fun c => (c.model.layers, c.model.tensors, c.model.inputs, c.binary_conv_outputs))
      = (self.Convert env model_proto filepath level expected_binary_conv_outputs).map
        (fun c => (c.model.layers, c.model.tensors, c.model.inputs, c.binary_conv_outputs)) := by
  have hprep : OnnxConverter.Convert_prepare env { self with model_proto_ := stale }
      model_proto level = self.Convert_prepare env model_proto level := rfl
  unfold OnnxConverter.Convert
  rw [hprep]
  cases self.Convert_prepare env model_proto level with
  | error e => rfl
  | ok st0 =>
    simp only [bind, Except.bind]
    cases st0.self.model_proto_.graph.node.foldlM
        (Convert_node env expected_binary_conv_outputs) st0 with
    | error e => rfl
    | ok st =>
      simp only
      cases check_expected st.binary_conv_outputs expected_binary_conv_outputs <;> rfl

/-- Runs of `Convert` in one environment, that is with the same optimizer and the same contents
of the memory past the buffers. Let a run succeed. A run from the same member state, whatever
model a previous run left in `model_proto_` and whatever the file path, produces the same layer,
tensor and input records and returns the same list: the member `model_proto_` and the path do
not enter the records. The run does not reset the members: the state it leaves holds the known
operands of the start followed by the names of the initializers, every shape registered at the
start, and the layer and tensor lists of the start followed by the records of this run, which
are the lists the next run appends to. So a second run on the state left by the first one does
not succeed when the graph has an input that was registered by the first run: the registration
of its shape fails. -/
theorem Convert_runs {F : Type} [LinearOrderedField F] (env : Env F)
    (self : OnnxConverter F) (model_proto : ModelProto F) (filepath : String) (level : Level)
    (expected_binary_conv_outputs : List String) (c : Converted F)
    (h : self.Convert env model_proto filepath level expected_binary_conv_outputs = .ok c) :
    (∀ (stale : ModelProto F) (filepath2 : String),
      (OnnxConverter.Convert env { self with model_proto_ := stale } model_proto filepath2
          level expected_binary_conv_outputs).map
          (fun c2 => (c2.model.layers, c2.model.tensors, c2.model.inputs,
            c2.binary_conv_outputs))
        = .ok (c.model.layers, c.model.tensors, c.model.inputs, c.binary_conv_outputs)) ∧
    c.self.operands_ = self.operands_ ++
      (env.Optimize model_proto (optimizers level)).graph.initializer.map (fun t => t.name) ∧
    (∀ k s, StrKeyMap.find self.shaper_ k = some s →
      StrKeyMap.find c.self.shaper_ k = some s) ∧
    List.IsPrefix self.layers_ c.model.layers ∧ List.IsPrefix self.tensors_ c.model.tensors ∧
    c.self.layers_ = c.model.layers ∧ c.self.tensors_ = c.model.tensors ∧
    (∀ input, input ∈ (env.Optimize model_proto (optimizers level)).graph.input →
      input.name ∉ self.operands_ ++
        (env.Optimize model_proto (optimizers level)).graph.initializer.map
          (fun t => t.name) →
      StrKeyMap.find c.self.shaper_ input.name = some (input_nhwc_shape input) ∧
      ∀ (filepath2 : String) (expected2 : List String) (c2 : Converted F),
        c.self.Convert env model_proto filepath2 level expected2 ≠ .ok c2) := by
  obtain ⟨h1, h2, h3, h4, h5, h6, h7⟩ := Convert_leaves env self model_proto filepath level
    expected_binary_conv_outputs c h
  refine ⟨?_, h1, h2, h3, h4, h5, h6, ?_⟩
  · intro stale filepath2
    rw [Convert_same_state env self model_proto stale filepath filepath2 level
      expected_binary_conv_outputs, h]
    rfl
  · intro input hmem hnot
    exact ⟨h7 input hmem hnot, fun filepath2 expected2 c2 =>
      Convert_rerun_fails env self model_proto filepath level expected_binary_conv_outputs c h
        input hmem hnot filepath2 expected2 c2⟩

/-- The graph `y = Relu(x)` run on a converter as constructed; a run from the same members with
another file path gives the same records, and a run on the state left does not succeed. -/
theorem Convert_runs_witness :
    ∃ c, OnnxConverter.Convert
        (⟨fun mp _ => mp, fun t => t, fun v => v, fun _ => 0, 1⟩ : Env ℚ)
        ⟨⟨⟨[], [], []⟩⟩, [], [], [], [], [], [], []⟩
        ⟨⟨[⟨"relu", "Relu", "", ["x"], ["y"], []⟩], [],
          [⟨"x", [some 1, some 3, some 4, some 4]⟩]⟩⟩
        "model.dab" Level.kStrict [] = .ok c ∧
      (OnnxConverter.Convert
        (⟨fun mp _ => mp, fun t => t, fun v => v, fun _ => 0, 1⟩ : Env ℚ)
        ⟨⟨⟨[], [], []⟩⟩, [], [], [], [], [], [], []⟩
        ⟨⟨[⟨"relu", "Relu", "", ["x"], ["y"], []⟩], [],
          [⟨"x", [some 1, some 3, some 4, some 4]⟩]⟩⟩
        "other.dab" Level.kStrict []).map
          (fun c2 => (c2.model.layers, c2.model.tensors, c2.model.inputs,
            c2.binary_conv_outputs))
        = .ok (c.model.layers, c.model.tensors, c.model.inputs, c.binary_conv_outputs) ∧
      c.self.layers_ = [Layer.Relu "x" "y"] ∧
      ∀ c2, c.self.Convert
        (⟨fun mp _ => mp, fun t => t, fun v => v, fun _ => 0, 1⟩ : Env ℚ)
        ⟨⟨[⟨"relu", "Relu", "", ["x"], ["y"], []⟩], [],
          [⟨"x", [some 1, some 3, some 4, some 4]⟩]⟩⟩
        "model.dab" Level.kStrict [] ≠ .ok c2 := by
  refine Exists.imp (fun c hc => ⟨hc, ?_⟩) ⟨_, rfl⟩
  have T := Convert_runs _ _ _ _ _ _ c hc
  refine ⟨T.1 ⟨⟨[], [], []⟩⟩ "other.dab", ?_, ?_⟩
  · have h4 : (Except.ok _ : Except String (Converted ℚ)) = Except.ok c := hc
    cases h4
    rfl
  · intro c2
    exact (T.2.2.2.2.2.2.2 ⟨"x", [some 1, some 3, some 4, some 4]⟩
      (List.mem_singleton.mpr rfl) (by decide)).2 "model.dab" [] c2

/-- C21: the code run twice on the same graph, level and expected list. The graph is
`c = Conv(x, w)` with domain "dabnn" and `y = BatchNormalization(c, s, b, m, v)`, with input `x`
of shape `(1, 3, 4, 4)`, the weight `w` of shape `(1, 3, 3, 3)` holding 27 times the value 1,
scale 1, bias 0, mean 0, variance 1 and `eps = 0` (so the only square root taken is that of 1);
the optimizer leaves the graph as it is and the expected list is empty. Both runs start from a
converter as constructed and differ only in what the memory past the 27 floats of the weight
buffer holds: zeros in the first run, ones in the second. Both succeed with the same layers and
the same input record, but the Bit tensor of the weight is `[2 ^ 27 - 1, 0]` in the first run
and `[2 ^ 27 - 1, 2 ^ 64 - 1]` in the second: its second word is packed from the 64 floats at
the positions 64 to 127 of a buffer of 27. And the graph `y = Relu(x)` converted twice by the
same converter: the first run, on the converter as constructed, gives one Input record and one
Relu layer, the second run, on the state the first one left, gives no records, it fails where
the shape of `x` is registered again. -/
theorem Convert_not_deterministic :
    (OnnxConverter.Convert
      (⟨fun mp _ => mp,
        fun t => ⟨t.data,
          [t.shape.getD 0 0, t.shape.getD 2 0, t.shape.getD 3 0, t.shape.getD 1 0], false⟩,
        fun v => v, fun _ => 0, 1⟩ : Env ℚ)
      ⟨⟨⟨[], [], []⟩⟩, [], [], [], [], [], [], []⟩
      ⟨⟨[⟨"conv", "Conv", "dabnn", ["x", "w"], ["c"], []⟩,
         ⟨"bn", "BatchNormalization", "", ["c", "s", "b", "m", "v"], ["y"],
          [⟨"eps", 0, 0, []⟩]⟩],
        [⟨"w", 1, [1, 3, 3, 3], List.replicate 27 1, []⟩, ⟨"s", 1, [1], [1], []⟩,
         ⟨"b", 1, [1], [0], []⟩, ⟨"m", 1, [1], [0], []⟩, ⟨"v", 1, [1], [1], []⟩],
        [⟨"x", [some 1, some 3, some 4, some 4]⟩]⟩⟩
      "model.dab" Level.kStrict []).map
        (fun c => (c.binary_conv_outputs, c.model.layers, c.model.inputs,
          c.model.tensors.map (fun t => (t.name, t.data_type, t.shape, t.bin_data,
            t.float_data))))
      = .ok (["c"],
        [Layer.BinConv2D "x" "w_conv_w" none [0, 0, 0, 0] [1, 1] [1, 1] "c",
         Layer.Affine "c" "y_a" "y_b" "y"],
        [⟨[1, 4, 4, 3], "x"⟩],
        [("w_conv_w", DataType.Bit, [1, 3, 3, 3], [134217727, 0], []),
         ("y_a", DataType.Float32, [1], [], [-2]),
         ("y_b", DataType.Float32, [1], [], [27])]) ∧
    (OnnxConverter.Convert
      (⟨fun mp _ => mp,
        fun t => ⟨t.data,
          [t.shape.getD 0 0, t.shape.getD 2 0, t.shape.getD 3 0, t.shape.getD 1 0], false⟩,
        fun v => v, fun _ => 1, 1⟩ : Env ℚ)
      ⟨⟨⟨[], [], []⟩⟩, [], [], [], [], [], [], []⟩
      ⟨⟨[⟨"conv", "Conv", "dabnn", ["x", "w"], ["c"], []⟩,
         ⟨"bn", "BatchNormalization", "", ["c", "s", "b", "m", "v"], ["y"],
          [⟨"eps", 0, 0, []⟩]⟩],
        [⟨"w", 1, [1, 3, 3, 3], List.replicate 27 1, []⟩, ⟨"s", 1, [1], [1], []⟩,
         ⟨"b", 1, [1], [0], []⟩, ⟨"m", 1, [1], [0], []⟩, ⟨"v", 1, [1], [1], []⟩],
        [⟨"x", [some 1, some 3, some 4, some 4]⟩]⟩⟩
      "model.dab" Level.kStrict []).map
        (fun c => (c.binary_conv_outputs, c.model.layers, c.model.inputs,
          c.model.tensors.map (fun t => (t.name, t.data_type, t.shape, t.bin_data,
            t.float_data))))
      = .ok (["c"],
        [Layer.BinConv2D "x" "w_conv_w" none [0, 0, 0, 0] [1, 1] [1, 1] "c",
         Layer.Affine "c" "y_a" "y_b" "y"],
        [⟨[1, 4, 4, 3], "x"⟩],
        [("w_conv_w", DataType.Bit, [1, 3, 3, 3], [134217727, 18446744073709551615], []),
         ("y_a", DataType.Float32, [1], [], [-2]),
         ("y_b", DataType.Float32, [1], [], [27])]) ∧
    (∃ c, OnnxConverter.Convert
        (⟨fun mp _ => mp, fun t => t, fun v => v, fun _ => 0, 1⟩ : Env ℚ)
        ⟨⟨⟨[], [], []⟩⟩, [], [], [], [], [], [], []⟩
        ⟨⟨[⟨"relu", "Relu", "", ["x"], ["y"], []⟩], [],
          [⟨"x", [some 1, some 3, some 4, some 4]⟩]⟩⟩
        "model.dab" Level.kStrict [] = .ok c ∧
      (c.model.layers, c.model.tensors, c.model.inputs, c.binary_conv_outputs)
        = ([Layer.Relu "x" "y"], [], [⟨[1, 4, 4, 3], "x"⟩], []) ∧
      (c.self.layers_, c.self.shaper_, c.self.operands_)
        = ([Layer.Relu "x" "y"], [("y", [1, 4, 4, 3]), ("x", [1, 4, 4, 3])], []) ∧
      c.self.Convert
        (⟨fun mp _ => mp, fun t => t, fun v => v, fun _ => 0, 1⟩ : Env ℚ)
        ⟨⟨[⟨"relu", "Relu", "", ["x"], ["y"], []⟩], [],
          [⟨"x", [some 1, some 3, some 4, some 4]⟩]⟩⟩
        "model.dab" Level.kStrict [] = .error "shape of x is already present") := by
  have hk : to_int32 (to_int32 (to_int32 (3 : Nat) * to_int32 (3 : Nat)) * to_int32 (3 : Nat))
      = 27 := by decide
  refine ⟨?_, ?_, ⟨_, rfl, rfl, rfl, rfl⟩⟩
  · refine Eq.trans (b := .ok (["c"],
        [Layer.BinConv2D "x" "w_conv_w" none [0, 0, 0, 0] [1, 1] [1, 1] "c",
         Layer.Affine "c" "y_a" "y_b" "y"],
        [⟨[1, 4, 4, 3], "x"⟩],
        [("w_conv_w", DataType.Bit, [1, 3, 3, 3], [134217727, 0], []),
         ("y_a", DataType.Float32, [1], [], [(1 : ℚ) / (1 + 0) * (-2)]),
         ("y_b", DataType.Float32, [1], [],
           [(0 : ℚ) - 1 * 0 / (1 + 0)
             + ((to_int32 (to_int32 (to_int32 (3 : Nat) * to_int32 (3 : Nat))
                 * to_int32 (3 : Nat)) : Int) : ℚ) * (1 / (1 + 0))])]))
      (by set_option maxRecDepth 100000 in rfl) ?_
    rw [hk]
    norm_num
  · refine Eq.trans (b := .ok (["c"],
        [Layer.BinConv2D "x" "w_conv_w" none [0, 0, 0, 0] [1, 1] [1, 1] "c",
         Layer.Affine "c" "y_a" "y_b" "y"],
        [⟨[1, 4, 4, 3], "x"⟩],
        [("w_conv_w", DataType.Bit, [1, 3, 3, 3], [134217727, 18446744073709551615], []),
         ("y_a", DataType.Float32, [1], [], [(1 : ℚ) / (1 + 0) * (-2)]),
         ("y_b", DataType.Float32, [1], [],
           [(0 : ℚ) - 1 * 0 / (1 + 0)
             + ((to_int32 (to_int32 (to_int32 (3 : Nat) * to_int32 (3 : Nat))
                 * to_int32 (3 : Nat)) : Int) : ℚ) * (1 / (1 + 0))])]))
      (by set_option maxRecDepth 100000 in rfl) ?_
    rw [hk]
    norm_num

end bnn
